import Mathlib

/-! # ROCm IPC transport: zero-copy put/get, engine selection, multi-engine chunking

A shallow embedding of `src/uct/rocm/ipc/rocm_ipc_ep.c`.

* `uint64_t` / `size_t` values are natural numbers; every sum, difference and
  product the C code computes on them is reduced modulo `2 ^ 64` here.
* `int` values are integers; the conversions the C code performs between
  `int`, `unsigned` and `size_t` are written out.
* Calls into the HSA runtime, the remote handle cache and the memory
  classifier are answered by an environment record `Env`; every such call is
  also appended to a log (`State.calls`), so that "no hardware copy was issued"
  is a statement about the log.
* A function returns `none` where the C code dereferences a null pointer or
  reads outside an array (undefined behaviour).
* The embedding is that of a build with
  `HAVE_HSA_AMD_MEMORY_ASYNC_COPY_ON_ENGINE` defined.
-/

namespace UcxRocmIpc

/-! ## Machine arithmetic -/

/-- Modulus of `uint64_t` and `size_t` arithmetic. -/
def SIZE_MOD : Nat := 2 ^ 64

/-- Sum of two `uint64_t` values, as the C code computes it. -/
def add64 (a b : Nat) : Nat := (a + b) % SIZE_MOD

/-- Difference of two `uint64_t` values, as the C code computes it. -/
def sub64 (a b : Nat) : Nat := (a % SIZE_MOD + SIZE_MOD - b % SIZE_MOD) % SIZE_MOD

/-- Product of two `size_t` values, as the C code computes it. -/
def mul64 (a b : Nat) : Nat := (a * b) % SIZE_MOD

/-- Conversion of an unsigned value to `int` (two's complement, 32 bit), as in
`(int)(size / thresh)` and in passing `max_sdma_engines` for an `int` parameter. -/
def int_of_unsigned (x : Nat) : Int :=
  if x % 2 ^ 32 < 2 ^ 31 then ((x % 2 ^ 32 : Nat) : Int) else ((x % 2 ^ 32 : Nat) : Int) - 2 ^ 32

/-- Conversion of an `int` to `unsigned`, as in the comparison
`num_engines > iface->config.max_sdma_engines`. -/
def unsigned_of_int (x : Int) : Nat := (x % 2 ^ 32).toNat

/-! ## Types -/

/-- Status codes of `ucs_status_t` that the transport returns or passes on. -/
inductive ucs_status_t where
  | UCS_OK
  | UCS_INPROGRESS
  | UCS_ERR_NO_MEMORY
  | UCS_ERR_INVALID_PARAM
  | UCS_ERR_UNREACHABLE
  | UCS_ERR_INVALID_ADDR
  | UCS_ERR_IO_ERROR
  | UCS_ERR_UNSUPPORTED
  | UCS_ERR_OTHER (code : Int)
  deriving DecidableEq, Repr

/-- Status codes of `hsa_status_t` that the code tests for. -/
inductive hsa_status_t where
  | HSA_STATUS_SUCCESS
  | HSA_STATUS_ERROR
  | HSA_STATUS_ERROR_OUT_OF_RESOURCES
  | HSA_STATUS_OTHER (code : Nat)
  deriving DecidableEq, Repr

/-- Value of `HSA_STATUS_ERROR` when `uct_rocm_ipc_get_engines` returns it as
an `int` (the enumerator of `hsa.h`); the caller never looks at the number,
because the engine array is null in that case. -/
def HSA_STATUS_ERROR_int : Int := 0x1000

/-- Pointer classification `hsa_amd_pointer_type_t`. -/
inductive hsa_amd_pointer_type_t where
  | HSA_EXT_POINTER_TYPE_UNKNOWN
  | HSA_EXT_POINTER_TYPE_HSA
  | HSA_EXT_POINTER_TYPE_LOCKED
  | HSA_EXT_POINTER_TYPE_GRAPHICS
  | HSA_EXT_POINTER_TYPE_IPC
  deriving DecidableEq, Repr

/-- An `hsa_agent_t`, identified with its `handle`. -/
abbrev hsa_agent_t := Nat

/-- A `uct_completion_t *`; `none` is the null pointer. -/
abbrev uct_completion_ptr := Option Nat

/-- The remote key: the fields of `uct_rocm_ipc_key_t` that the endpoint reads. -/
structure uct_rocm_ipc_key_t where
  address : Nat
  length : Nat
  deriving DecidableEq, Repr

/-- One entry of the IO vector. -/
structure uct_iov_t where
  buffer : Nat
  length : Nat
  count : Nat
  deriving DecidableEq, Repr

/-- The descriptor `uct_rocm_base_signal_desc_t`: a completion signal, the
completion handle and the mapped remote base address. -/
structure uct_rocm_base_signal_desc_t where
  signal : Nat
  comp : uct_completion_ptr
  mapped_addr : Nat
  deriving DecidableEq, Repr

/-- The `config` member of `uct_rocm_ipc_iface_t`. -/
structure uct_rocm_ipc_iface_config where
  enable_multi_sdma : Nat
  multi_sdma_thresh : Nat
  max_sdma_engines : Nat
  copy_on_engine : Nat
  deriving DecidableEq, Repr

/-- The interface `uct_rocm_ipc_iface_t`. The signal pool is the list of the
descriptors it can still hand out, the signal queue is listed head first. -/
structure uct_rocm_ipc_iface_t where
  signal_pool : List uct_rocm_base_signal_desc_t
  signal_queue : List uct_rocm_base_signal_desc_t
  config : uct_rocm_ipc_iface_config
  deriving DecidableEq, Repr

/-- A call that leaves the transport: classifier, handle cache or HSA runtime. -/
inductive ext_call where
  | get_ptr_info (ptr size : Nat)
  | cache_map_memhandle (key : uct_rocm_ipc_key_t)
  | agents_allow_access (agents : List hsa_agent_t) (ptr : Nat)
  | copy_engine_status (dst_agent src_agent : hsa_agent_t)
  | signal_store (signal : Nat) (value : Int)
  | memory_async_copy (dst : Nat) (dst_agent : hsa_agent_t) (src : Nat)
      (src_agent : hsa_agent_t) (size : Nat) (signal : Nat)
  | memory_async_copy_on_engine (dst : Nat) (dst_agent : hsa_agent_t) (src : Nat)
      (src_agent : hsa_agent_t) (size : Nat) (signal : Nat) (engine_id : Nat)
  deriving DecidableEq, Repr

/-- Whether a logged call is a hardware copy. -/
def ext_call.is_copy : ext_call → Bool
  | .memory_async_copy _ _ _ _ _ _ => true
  | .memory_async_copy_on_engine _ _ _ _ _ _ _ => true
  | _ => false

/-- Result of `uct_rocm_base_get_ptr_info`. -/
structure ptr_info_t where
  status : hsa_status_t
  base_ptr : Nat
  base_size : Nat
  mem_type : hsa_amd_pointer_type_t
  agent : hsa_agent_t
  deriving DecidableEq, Repr

/-- Answers of everything outside `rocm_ipc_ep.c`. The three `malloc_*` flags
say whether the corresponding `malloc` call returns a non-null pointer. -/
structure Env where
  uct_iov_get_length : uct_iov_t → Nat
  uct_rocm_base_get_ptr_info : Nat → Nat → ptr_info_t
  uct_rocm_ipc_cache_map_memhandle : uct_rocm_ipc_key_t → ucs_status_t × Nat
  uct_rocm_base_get_gpu_agents : List hsa_agent_t
  hsa_amd_agents_allow_access : List hsa_agent_t → Nat → hsa_status_t
  hsa_amd_memory_copy_engine_status : hsa_agent_t → hsa_agent_t → hsa_status_t × Nat
  hsa_amd_memory_async_copy :
    Nat → hsa_agent_t → Nat → hsa_agent_t → Nat → Nat → hsa_status_t
  hsa_amd_memory_async_copy_on_engine :
    Nat → hsa_agent_t → Nat → hsa_agent_t → Nat → Nat → Nat → hsa_status_t
  ucs_get_page_size : Nat
  malloc_temp : Bool
  malloc_dtemp : Bool
  malloc_signals : Bool

/-- The interface together with the log of outside calls, oldest first. -/
structure State where
  iface : uct_rocm_ipc_iface_t
  calls : List ext_call
  deriving DecidableEq, Repr

/-- Append one call to the log. -/
def State.log (w : State) (c : ext_call) : State :=
  { w with calls := w.calls ++ [c] }

/-- The hardware copies in the log, oldest first. -/
def State.copies (w : State) : List ext_call :=
  w.calls.filter ext_call.is_copy

/-! ## Engine selection -/

/-- The constant `HSA_AMD_SDMA_ENGINE_0` of the HSA extension header. -/
def HSA_AMD_SDMA_ENGINE_0 : Nat := 1

/-- Function `uct_rocm_ipc_map_id_to_engine`: the `int` it returns. The shifted
value `HSA_AMD_SDMA_ENGINE_0 << id` is stored in a 32-bit
`hsa_amd_sdma_engine_id_t` and returned as `int`, so that index `31` yields
`-2147483648`. Only indices below `32` reach the function (the engine lookup stores
bit positions of a 32-bit mask or `2, 3, 4`); for larger ones C leaves the shift
undefined and the value here carries no meaning. -/
def uct_rocm_ipc_map_id_to_engine (id : Nat) : Int :=
  let engine := HSA_AMD_SDMA_ENGINE_0 <<< id
  int_of_unsigned engine

/-- The search loop of `uct_rocm_ipc_get_agent_pos` from index `i` on: the index
of the first agent with the given handle, `0` when the loop runs out. -/
def get_agent_pos_loop (agent : hsa_agent_t) : List hsa_agent_t → Nat → Nat
  | [], _ => 0
  | g :: gs, i => if g = agent then i else get_agent_pos_loop agent gs (i + 1)

/-- Position of an agent in the list of GPU agents (`uct_rocm_ipc_get_agent_pos`). -/
def uct_rocm_ipc_get_agent_pos (gpu_agents : List hsa_agent_t) (agent : hsa_agent_t) : Nat :=
  get_agent_pos_loop agent gpu_agents 0

/-- The counting loop of `uct_rocm_ipc_get_engines`: `num_engines` after the
iterations `i, i + 1, ..., i + n - 1`. -/
def count_engines_loop (mask : Nat) : Nat → Nat → Int → Int
  | 0, _, num_engines => num_engines
  | n + 1, i, num_engines =>
    count_engines_loop mask n (i + 1) (if mask.testBit i then num_engines + 1 else num_engines)

/-- The filling loop of `uct_rocm_ipc_get_engines`: the array `temp` (as the
list of the entries written so far) after the iterations `i, ..., i + n - 1`. -/
def fill_engines_loop (mask : Nat) : Nat → Nat → List Nat → List Nat
  | 0, _, temp => temp
  | n + 1, i, temp =>
    fill_engines_loop mask n (i + 1) (if mask.testBit i then temp ++ [i] else temp)

/-- Function `uct_rocm_ipc_get_engines`, given the answer `(status, mask)` of
`hsa_amd_memory_copy_engine_status` and whether `malloc` succeeds. The result is
the returned `int` and the array stored into `*engines` (`none`: left null). -/
def uct_rocm_ipc_get_engines (status : hsa_status_t) (mask : Nat) (malloc_ok : Bool)
    (desired_num_engines : Int) : Int × Option (List Nat) :=
  if status ≠ .HSA_STATUS_SUCCESS ∧ status ≠ .HSA_STATUS_ERROR_OUT_OF_RESOURCES then
    (HSA_STATUS_ERROR_int, none)
  else
    let mask := mask % 2 ^ 32
    let num_engines := count_engines_loop mask 32 0 0
    if num_engines ≥ desired_num_engines then
      if ¬ malloc_ok then (HSA_STATUS_ERROR_int, none)
      else (num_engines, some (fill_engines_loop mask 32 0 []))
    else
      /- hard coded values for MI200 series -/
      let num_engines : Nat := 3
      if ¬ malloc_ok then (HSA_STATUS_ERROR_int, none)
      else ((num_engines : Int), some ((List.range num_engines).map (fun i => 2 + i)))

/-- The rewriting loop of `uct_rocm_ipc_select_engines`, iterations
`i, ..., i + n - 1`: `engines[i] = dtemp[(i+agent_pos)%total_engines]`. A read
outside `dtemp` makes the result `none`. -/
def select_engines_loop (dtemp : List Nat) (total_engines agent_pos : Nat) :
    Nat → Nat → List Nat → Option (List Nat)
  | 0, _, engines => some engines
  | n + 1, i, engines =>
    match dtemp[(i + agent_pos) % total_engines]? with
    | none => none
    | some v => select_engines_loop dtemp total_engines agent_pos n (i + 1) (engines.set i v)

/-- Function `uct_rocm_ipc_select_engines`: the array `engines` afterwards, given
the list of GPU agents and whether `malloc` succeeds. -/
def uct_rocm_ipc_select_engines (gpu_agents : List hsa_agent_t) (malloc_ok : Bool)
    (total_engines : Nat) (engines : List Nat) (multiplier : Nat)
    (dst_agent _src_agent : hsa_agent_t) : Option (List Nat) :=
  let agent_pos := uct_rocm_ipc_get_agent_pos gpu_agents dst_agent
  let agent_pos := agent_pos * multiplier
  if ¬ malloc_ok then some engines
  else
    let dtemp := engines.take total_engines
    select_engines_loop dtemp total_engines agent_pos total_engines 0 engines

/-! ## Signal pool and signal queue -/

/-- Modelled from the spec: `ucs_mpool_get` (the memory pool is an external
collaborator, its code is not among the sources) hands out one descriptor of the
pool, or a null pointer (`none`) when the pool has none left. -/
def ucs_mpool_get (iface : uct_rocm_ipc_iface_t) :
    Option (uct_rocm_base_signal_desc_t × uct_rocm_ipc_iface_t) :=
  match iface.signal_pool with
  | [] => none
  | d :: rest => some (d, { iface with signal_pool := rest })

/-- Modelled from the spec: `ucs_mpool_put` (not among the sources) returns a
descriptor to the pool it was taken from. -/
def ucs_mpool_put (iface : uct_rocm_ipc_iface_t) (d : uct_rocm_base_signal_desc_t) :
    uct_rocm_ipc_iface_t :=
  { iface with signal_pool := d :: iface.signal_pool }

/-- Modelled from the spec: `ucs_queue_push` (the generic FIFO queue primitive,
not among the sources) appends an element at the tail of the queue. -/
def ucs_queue_push (iface : uct_rocm_ipc_iface_t) (d : uct_rocm_base_signal_desc_t) :
    uct_rocm_ipc_iface_t :=
  { iface with signal_queue := iface.signal_queue ++ [d] }

/-! ## Asynchronous copies -/

/-- Modelled from the spec: `ucs_align_up_pow2` (a macro of `ucs/sys/math.h`, not
among the sources) rounds a `size_t` value up to a multiple of a power-of-two
alignment; the sum it forms is a `size_t` sum. -/
def ucs_align_up_pow2 (n alignment : Nat) : Nat :=
  let x := (n + (alignment - 1)) % SIZE_MOD
  x - x % alignment

/-- Number of engines `uct_rocm_ipc_async_multi_copy` uses: the statements
between the engine lookup and the call of `uct_rocm_ipc_select_engines`.
`none` stands for the division by a zero threshold. -/
def multi_copy_num_engines (total_engines : Int) (max_sdma_engines : Nat)
    (size multi_sdma_thresh : Nat) : Option Int :=
  let num_engines := total_engines
  let num_engines :=
    if unsigned_of_int num_engines > max_sdma_engines then int_of_unsigned max_sdma_engines
    else num_engines
  if multi_sdma_thresh = 0 then none
  else
    let num_engines :=
      if int_of_unsigned (size / multi_sdma_thresh) < num_engines then
        int_of_unsigned (size / multi_sdma_thresh)
      else num_engines
    let num_engines := if num_engines < 1 then 1 else num_engines
    some num_engines

/-- Byte count of chunk `i`: `(i == (num_engines - 1)) ? (size - (i*chunk_size)) : chunk_size`. -/
def multi_copy_data_size (num_engines size chunk_size i : Nat) : Nat :=
  if i = num_engines - 1 then sub64 size (mul64 i chunk_size) else chunk_size

/-- The chunk loop of `uct_rocm_ipc_async_multi_copy`: the iterations
`i, i + 1, ..., i + n - 1`. -/
def multi_copy_loop (env : Env) (engines : List Nat) (num_engines size chunk_size : Nat)
    (dst_addr : Nat) (dst_agent : hsa_agent_t) (src_addr : Nat) (src_agent : hsa_agent_t)
    (remote_base_addr : Nat) (comp : uct_completion_ptr) :
    Nat → Nat → State → Option (hsa_status_t × State)
  | 0, _, w => some (.HSA_STATUS_SUCCESS, w)
  | n + 1, i, w =>
    let data_size := multi_copy_data_size num_engines size chunk_size i
    match ucs_mpool_get w.iface with
    | none => none
    | some (d, iface1) =>
      let w1 := ({ w with iface := iface1 } : State).log (.signal_store d.signal 1)
      match engines[i]? with
      | none => none
      | some e =>
        /- the returned `int` is stored in `engine_id`, an `hsa_amd_sdma_engine_id_t`:
        an enumeration without negative values, held as a 32-bit unsigned value -/
        let engine_id := unsigned_of_int (uct_rocm_ipc_map_id_to_engine e)
        let dst := add64 dst_addr (mul64 i chunk_size)
        let src := add64 src_addr (mul64 i chunk_size)
        let status := env.hsa_amd_memory_async_copy_on_engine dst dst_agent src src_agent
          data_size d.signal engine_id
        let w2 := w1.log (.memory_async_copy_on_engine dst dst_agent src src_agent
          data_size d.signal engine_id)
        if status ≠ .HSA_STATUS_SUCCESS then
          some (status, { w2 with iface := ucs_mpool_put w2.iface d })
        else
          let d1 : uct_rocm_base_signal_desc_t :=
            { d with comp := if i = num_engines - 1 then comp else none,
                     mapped_addr := remote_base_addr }
          multi_copy_loop env engines num_engines size chunk_size dst_addr dst_agent
            src_addr src_agent remote_base_addr comp n (i + 1)
            { w2 with iface := ucs_queue_push w2.iface d1 }

/-- Function `uct_rocm_ipc_async_multi_copy`. -/
def uct_rocm_ipc_async_multi_copy (env : Env) (w : State) (dst_addr : Nat)
    (dst_agent : hsa_agent_t) (src_addr : Nat) (src_agent : hsa_agent_t) (size : Nat)
    (remote_base_addr : Nat) (comp : uct_completion_ptr) : Option (hsa_status_t × State) :=
  let answer := env.hsa_amd_memory_copy_engine_status dst_agent src_agent
  let w := w.log (.copy_engine_status dst_agent src_agent)
  let found := uct_rocm_ipc_get_engines answer.1 answer.2 env.malloc_temp
    (int_of_unsigned w.iface.config.max_sdma_engines)
  let total_engines := found.1
  match found.2 with
  | none => some (.HSA_STATUS_ERROR, w)
  | some engines =>
    if total_engines ≤ 0 then some (.HSA_STATUS_ERROR, w)
    else
      match multi_copy_num_engines total_engines w.iface.config.max_sdma_engines size
          w.iface.config.multi_sdma_thresh with
      | none => none
      | some num_engines =>
        match uct_rocm_ipc_select_engines env.uct_rocm_base_get_gpu_agents env.malloc_dtemp
            total_engines.toNat engines num_engines.toNat dst_agent src_agent with
        | none => none
        | some engines =>
          if ¬ env.malloc_signals then some (.HSA_STATUS_ERROR, w)
          else
            let chunk_size := size / num_engines.toNat
            let chunk_size := ucs_align_up_pow2 chunk_size env.ucs_get_page_size
            multi_copy_loop env engines num_engines.toNat size chunk_size dst_addr dst_agent
              src_addr src_agent remote_base_addr comp num_engines.toNat 0 w

/-- Function `uct_rocm_ipc_async_copy`. -/
def uct_rocm_ipc_async_copy (env : Env) (w : State) (dst_addr : Nat)
    (dst_agent : hsa_agent_t) (src_addr : Nat) (src_agent : hsa_agent_t) (size : Nat)
    (remote_base_addr : Nat) (comp : uct_completion_ptr) : Option (hsa_status_t × State) :=
  match ucs_mpool_get w.iface with
  | none => none
  | some (d, iface1) =>
    let w1 := ({ w with iface := iface1 } : State).log (.signal_store d.signal 1)
    let status := env.hsa_amd_memory_async_copy dst_addr dst_agent src_addr src_agent size
      d.signal
    let w2 := w1.log (.memory_async_copy dst_addr dst_agent src_addr src_agent size d.signal)
    if status ≠ .HSA_STATUS_SUCCESS then
      some (status, { w2 with iface := ucs_mpool_put w2.iface d })
    else
      let d1 : uct_rocm_base_signal_desc_t :=
        { d with comp := comp, mapped_addr := remote_base_addr }
      some (.HSA_STATUS_SUCCESS, { w2 with iface := ucs_queue_push w2.iface d1 })

/-! ## The endpoint operation -/

/-- The range check of `uct_rocm_ipc_ep_zcopy`; both sums are `uint64_t` sums. -/
def zcopy_out_of_range (remote_addr size : Nat) (key : uct_rocm_ipc_key_t) : Prop :=
  remote_addr < key.address ∨ add64 remote_addr size > add64 key.address key.length

instance (remote_addr size : Nat) (key : uct_rocm_ipc_key_t) :
    Decidable (zcopy_out_of_range remote_addr size key) := by
  unfold zcopy_out_of_range; infer_instance

/-- The dispatch at the end of `uct_rocm_ipc_ep_zcopy`: direction, choice of the
single-engine or the multi-engine copy, and the translation of its status. -/
def zcopy_dispatch (env : Env) (w : State) (local_addr : Nat) (local_agent : hsa_agent_t)
    (remote_copy_addr : Nat) (remote_agent : hsa_agent_t) (size remote_base_addr : Nat)
    (comp : uct_completion_ptr) (is_put : Int) : Option (ucs_status_t × State) :=
  let dst_addr := if is_put ≠ 0 then remote_copy_addr else local_addr
  let dst_agent := if is_put ≠ 0 then remote_agent else local_agent
  let src_addr := if is_put ≠ 0 then local_addr else remote_copy_addr
  let src_agent := if is_put ≠ 0 then local_agent else remote_agent
  let issued :=
    if w.iface.config.copy_on_engine ≠ 0 ∧ w.iface.config.enable_multi_sdma ≠ 0 then
      uct_rocm_ipc_async_multi_copy env w dst_addr dst_agent src_addr src_agent size
        remote_base_addr comp
    else
      uct_rocm_ipc_async_copy env w dst_addr dst_agent src_addr src_agent size
        remote_base_addr comp
  match issued with
  | none => none
  | some (status, w1) =>
    if status ≠ .HSA_STATUS_SUCCESS then some (.UCS_ERR_IO_ERROR, w1)
    else some (.UCS_INPROGRESS, w1)

/-- Function `uct_rocm_ipc_ep_zcopy`. -/
def uct_rocm_ipc_ep_zcopy (env : Env) (w : State) (remote_addr : Nat) (iov : uct_iov_t)
    (key : uct_rocm_ipc_key_t) (comp : uct_completion_ptr) (is_put : Int) :
    Option (ucs_status_t × State) :=
  let size := env.uct_iov_get_length iov % SIZE_MOD
  let local_addr := iov.buffer
  /- no data to deliver -/
  if size = 0 then some (.UCS_OK, w)
  else if zcopy_out_of_range remote_addr size key then some (.UCS_ERR_INVALID_PARAM, w)
  else
    let loc := env.uct_rocm_base_get_ptr_info local_addr size
    let w := w.log (.get_ptr_info local_addr size)
    if loc.status ≠ .HSA_STATUS_SUCCESS ∨
        loc.mem_type = .HSA_EXT_POINTER_TYPE_UNKNOWN then
      some (.UCS_ERR_INVALID_ADDR, w)
    else
      let base_addr := loc.base_ptr
      let local_agent := loc.agent
      let mapped := env.uct_rocm_ipc_cache_map_memhandle key
      let w := w.log (.cache_map_memhandle key)
      if mapped.1 ≠ .UCS_OK then some (mapped.1, w)
      else
        let remote_base_addr := mapped.2
        let remote_copy_addr := add64 remote_base_addr (sub64 remote_addr key.address)
        let rem := env.uct_rocm_base_get_ptr_info remote_copy_addr size
        let w := w.log (.get_ptr_info remote_copy_addr size)
        if rem.status ≠ .HSA_STATUS_SUCCESS ∨
            rem.mem_type = .HSA_EXT_POINTER_TYPE_UNKNOWN then
          some (.UCS_ERR_INVALID_ADDR, w)
        else if rem.agent = 0 then
          /- No access to remote agent: local_agent is used as a backup plan. -/
          zcopy_dispatch env w local_addr local_agent remote_copy_addr local_agent size
            remote_base_addr comp is_put
        else
          let gpu_agents := env.uct_rocm_base_get_gpu_agents
          let granted := env.hsa_amd_agents_allow_access gpu_agents base_addr
          let w := w.log (.agents_allow_access gpu_agents base_addr)
          if granted ≠ .HSA_STATUS_SUCCESS then some (.UCS_ERR_INVALID_ADDR, w)
          else
            zcopy_dispatch env w local_addr local_agent remote_copy_addr rem.agent size
              remote_base_addr comp is_put

/-- Function `uct_rocm_ipc_ep_put_zcopy`: the status is that of
`uct_rocm_ipc_ep_zcopy` with `is_put = 1`. -/
def uct_rocm_ipc_ep_put_zcopy (env : Env) (w : State) (iov : uct_iov_t) (remote_addr : Nat)
    (rkey : uct_rocm_ipc_key_t) (comp : uct_completion_ptr) : Option (ucs_status_t × State) :=
  uct_rocm_ipc_ep_zcopy env w remote_addr iov rkey comp 1

/-- Function `uct_rocm_ipc_ep_get_zcopy`: the status is that of
`uct_rocm_ipc_ep_zcopy` with `is_put = 0`. -/
def uct_rocm_ipc_ep_get_zcopy (env : Env) (w : State) (iov : uct_iov_t) (remote_addr : Nat)
    (rkey : uct_rocm_ipc_key_t) (comp : uct_completion_ptr) : Option (ucs_status_t × State) :=
  uct_rocm_ipc_ep_zcopy env w remote_addr iov rkey comp 0

/-! ## Reference definitions and abbreviations used in the statements -/

/-- Number of ones among the low 32 binary digits of a mask. -/
def popcount32 (K : Nat) : Nat := ((List.range 32).map (fun i => K / 2 ^ i % 2)).sum

/-- Indices below 32 of the set bits of a mask, in the order of `List.range`. -/
def set_bit_indices (K : Nat) : List Nat := (List.range 32).filter (fun i => K.testBit i)

/-- Reference definition of the engine lookup, after the words of the
specification: with at least `d` engines available, their number and their
indices; otherwise three engines, the hard-coded list `2, 3, 4`. -/
def get_engines_reference (K : Nat) (d : Int) : Int × List Nat :=
  if (popcount32 K : Int) ≥ d then ((popcount32 K : Int), set_bit_indices K) else (3, [2, 3, 4])

/-- Every step of `uct_rocm_ipc_ep_zcopy` before the dispatch succeeds: the size
is `size` and not zero, the range check of the code passes, the local buffer is
classified (owning agent `local_agent`), the key is mapped at `remote_base_addr`,
the remote copy address `remote_copy_addr` is classified, and the access grant,
requested when the remote agent handle is not zero, is given. `remote_agent` is
the agent the copy is dispatched with for the remote side. -/
structure zcopy_validated (env : Env) (remote_addr : Nat) (iov : uct_iov_t)
    (key : uct_rocm_ipc_key_t) (size : Nat) (local_agent : hsa_agent_t)
    (remote_base_addr remote_copy_addr : Nat) (remote_agent : hsa_agent_t) : Prop where
  size_eq : env.uct_iov_get_length iov % 2 ^ 64 = size
  size_ne : size ≠ 0
  low : key.address ≤ remote_addr
  high : (remote_addr + size) % 2 ^ 64 ≤ (key.address + key.length) % 2 ^ 64
  local_ok : (env.uct_rocm_base_get_ptr_info iov.buffer size).status = .HSA_STATUS_SUCCESS
  local_type : (env.uct_rocm_base_get_ptr_info iov.buffer size).mem_type ≠
    .HSA_EXT_POINTER_TYPE_UNKNOWN
  local_agent_eq : (env.uct_rocm_base_get_ptr_info iov.buffer size).agent = local_agent
  map_ok : env.uct_rocm_ipc_cache_map_memhandle key = (.UCS_OK, remote_base_addr)
  copy_addr : remote_copy_addr = add64 remote_base_addr (sub64 remote_addr key.address)
  remote_ok : (env.uct_rocm_base_get_ptr_info remote_copy_addr size).status =
    .HSA_STATUS_SUCCESS
  remote_type : (env.uct_rocm_base_get_ptr_info remote_copy_addr size).mem_type ≠
    .HSA_EXT_POINTER_TYPE_UNKNOWN
  grant : (env.uct_rocm_base_get_ptr_info remote_copy_addr size).agent ≠ 0 →
    env.hsa_amd_agents_allow_access env.uct_rocm_base_get_gpu_agents
      (env.uct_rocm_base_get_ptr_info iov.buffer size).base_ptr = .HSA_STATUS_SUCCESS
  remote_agent_eq : remote_agent =
    if (env.uct_rocm_base_get_ptr_info remote_copy_addr size).agent = 0 then local_agent
    else (env.uct_rocm_base_get_ptr_info remote_copy_addr size).agent

/-- The outside calls of a `uct_rocm_ipc_ep_zcopy` call whose steps before the
dispatch all succeed, up to the dispatch. -/
def zcopy_validation_calls (env : Env) (iov : uct_iov_t) (key : uct_rocm_ipc_key_t)
    (size remote_copy_addr : Nat) : List ext_call :=
  [.get_ptr_info iov.buffer size, .cache_map_memhandle key,
   .get_ptr_info remote_copy_addr size] ++
  (if (env.uct_rocm_base_get_ptr_info remote_copy_addr size).agent = 0 then []
   else [.agents_allow_access env.uct_rocm_base_get_gpu_agents
          (env.uct_rocm_base_get_ptr_info iov.buffer size).base_ptr])

/-- The hardware copy of chunk `j` of the chunk loop when it runs with the
descriptor `d` on the engine with index `e`. -/
def chunk_copy_call (num_engines size chunk_size dst_addr : Nat) (dst_agent : hsa_agent_t)
    (src_addr : Nat) (src_agent : hsa_agent_t) (j : Nat) (d : uct_rocm_base_signal_desc_t)
    (e : Nat) : ext_call :=
  .memory_async_copy_on_engine (add64 dst_addr (mul64 j chunk_size)) dst_agent
    (add64 src_addr (mul64 j chunk_size)) src_agent
    (multi_copy_data_size num_engines size chunk_size j) d.signal
    (unsigned_of_int (uct_rocm_ipc_map_id_to_engine e))

/-- The two outside calls of chunk `j`: arming the signal, issuing the copy. -/
def chunk_calls (num_engines size chunk_size dst_addr : Nat) (dst_agent : hsa_agent_t)
    (src_addr : Nat) (src_agent : hsa_agent_t) (j : Nat) (d : uct_rocm_base_signal_desc_t)
    (e : Nat) : List ext_call :=
  [.signal_store d.signal 1,
   chunk_copy_call num_engines size chunk_size dst_addr dst_agent src_addr src_agent j d e]

/-- The descriptor that chunk `j` queues when it was handed the descriptor `d`. -/
def chunk_desc (num_engines remote_base_addr : Nat) (comp : uct_completion_ptr) (j : Nat)
    (d : uct_rocm_base_signal_desc_t) : uct_rocm_base_signal_desc_t :=
  { d with comp := if j = num_engines - 1 then comp else none, mapped_addr := remote_base_addr }

/-! ## A concrete environment

Every outside call succeeds: memory is classified as HSA memory of agent `7`,
the remote key is mapped at `0x70000000`, the driver reports the engines
`0, 1, 2`, the page size is `4096`. -/

/-- An environment in which every outside call succeeds. -/
def demo_env : Env where
  uct_iov_get_length := fun iov => iov.count * iov.length
  uct_rocm_base_get_ptr_info := fun ptr size =>
    { status := .HSA_STATUS_SUCCESS, base_ptr := ptr, base_size := size,
      mem_type := .HSA_EXT_POINTER_TYPE_HSA, agent := 7 }
  uct_rocm_ipc_cache_map_memhandle := fun _ => (.UCS_OK, 0x70000000)
  uct_rocm_base_get_gpu_agents := [5, 7]
  hsa_amd_agents_allow_access := fun _ _ => .HSA_STATUS_SUCCESS
  hsa_amd_memory_copy_engine_status := fun _ _ => (.HSA_STATUS_SUCCESS, 7)
  hsa_amd_memory_async_copy := fun _ _ _ _ _ _ => .HSA_STATUS_SUCCESS
  hsa_amd_memory_async_copy_on_engine := fun _ _ _ _ _ _ _ => .HSA_STATUS_SUCCESS
  ucs_get_page_size := 4096
  malloc_temp := true
  malloc_dtemp := true
  malloc_signals := true

/-- A pool of four descriptors with the signals `100 .. 103`. -/
def demo_pool : List uct_rocm_base_signal_desc_t :=
  [⟨100, none, 0⟩, ⟨101, none, 0⟩, ⟨102, none, 0⟩, ⟨103, none, 0⟩]

/-- An interface in single-engine mode with one descriptor already queued. -/
def demo_state_single : State :=
  { iface := { signal_pool := demo_pool, signal_queue := [⟨99, some 1, 0x50000000⟩],
               config := { enable_multi_sdma := 0, multi_sdma_thresh := 4097,
                           max_sdma_engines := 3, copy_on_engine := 0 } },
    calls := [] }

/-- An interface in multi-engine mode (threshold `4096`, at most three engines)
with one descriptor already queued. -/
def demo_state_multi : State :=
  { iface := { signal_pool := demo_pool, signal_queue := [⟨99, some 1, 0x50000000⟩],
               config := { enable_multi_sdma := 1, multi_sdma_thresh := 4096,
                           max_sdma_engines := 3, copy_on_engine := 1 } },
    calls := [] }

/-- The remote key of the end-to-end scenario: `4096` bytes at `0x1000`. -/
def demo_key : uct_rocm_ipc_key_t := { address := 0x1000, length := 4096 }

/-- A larger remote key: `0x4000` bytes at `0x1000`. -/
def demo_key_large : uct_rocm_ipc_key_t := { address := 0x1000, length := 0x4000 }

/-- The call at the end of `uct_rocm_ipc_ep_zcopy` once the endpoints are
assigned: the multi-engine copy when `copy_on_engine` and `enable_multi_sdma` are
both set, the single-engine copy otherwise, and the translation of its status
into `UCS_ERR_IO_ERROR` or `UCS_INPROGRESS`. -/
def zcopy_issue (env : Env) (w : State) (dst_addr : Nat) (dst_agent : hsa_agent_t)
    (src_addr : Nat) (src_agent : hsa_agent_t) (size remote_base_addr : Nat)
    (comp : uct_completion_ptr) : Option (ucs_status_t × State) :=
  match (if w.iface.config.copy_on_engine ≠ 0 ∧ w.iface.config.enable_multi_sdma ≠ 0 then
      uct_rocm_ipc_async_multi_copy env w dst_addr dst_agent src_addr src_agent size
        remote_base_addr comp
    else
      uct_rocm_ipc_async_copy env w dst_addr dst_agent src_addr src_agent size
        remote_base_addr comp) with
  | none => none
  | some (status, w1) =>
    if status ≠ .HSA_STATUS_SUCCESS then some (.UCS_ERR_IO_ERROR, w1)
    else some (.UCS_INPROGRESS, w1)

/-- The test that follows each call of `uct_rocm_base_get_ptr_info`: the call
failed or it reports the pointer type `HSA_EXT_POINTER_TYPE_UNKNOWN`. -/
def ptr_info_t.rejected (info : ptr_info_t) : Prop :=
  info.status ≠ .HSA_STATUS_SUCCESS ∨ info.mem_type = .HSA_EXT_POINTER_TYPE_UNKNOWN

instance (info : ptr_info_t) : Decidable info.rejected := by
  unfold ptr_info_t.rejected; infer_instance

/-- Whether a logged call is a request for an access grant. -/
def ext_call.is_access_grant : ext_call → Bool
  | .agents_allow_access _ _ => true
  | _ => false

/-! ## The rocm_copy interface

The part of `src/uct/rocm/copy/rocm_copy_iface.c` that builds the interface from
its configuration record and answers `query` and `flush`. The `double` values of
the configuration (bandwidths, latency, overheads) are rationals here: the code
copies and reports them and never computes with them. -/

/-- The linear function `ucs_linear_func_t`: intercept `c` and slope `m`. -/
structure ucs_linear_func_t where
  c : Rat
  m : Rat
  deriving DecidableEq, Repr

/-- Modelled from the spec: `ucs_linear_func_make` (not among the sources) is
the linear function with the given intercept and the given per-byte slope. -/
def ucs_linear_func_make (c m : Rat) : ucs_linear_func_t := { c := c, m := m }

/-- The configuration record `uct_rocm_copy_iface_config_t`, one field per entry
of `uct_rocm_copy_iface_config_table`; `bandwidth` is the entry `BW` and
`dedicated_bandwidth` the entry `DBW`. The member `config` of the interface has
the same fields. -/
structure uct_rocm_copy_iface_config_t where
  d2h_thresh : Nat
  h2d_thresh : Nat
  enable_async_zcopy : Int
  bandwidth : Rat
  dedicated_bandwidth : Rat
  put_short_bandwidth : Rat
  get_short_bandwidth : Rat
  put_zcopy_bandwidth : Rat
  get_zcopy_bandwidth : Rat
  latency : Rat
  send_pre_overhead : Rat
  send_post_overhead : Rat
  recv_overhead : Rat
  deriving DecidableEq, Repr

/-- The interface `uct_rocm_copy_iface_t`. -/
structure uct_rocm_copy_iface_t where
  id : Nat
  config : uct_rocm_copy_iface_config_t
  signal_pool : List uct_rocm_base_signal_desc_t
  signal_queue : List uct_rocm_base_signal_desc_t
  local_memh_cache : Nat
  deriving DecidableEq, Repr

/-- The constructor `UCS_CLASS_INIT_FUNC(uct_rocm_copy_iface_t, ...)`, given the
status of the constructor of the base class, the identifier that
`ucs_generate_uuid` returns, the answer of `ucs_mpool_init` (status and pool) and
the answer of `uct_rocm_copy_create_cache` (status and cache). The result is the
returned status and the interface, if one was built. -/
def uct_rocm_copy_iface_t_init (super_init : ucs_status_t) (uuid : Nat)
    (mpool_init : ucs_status_t × List uct_rocm_base_signal_desc_t)
    (create_cache : ucs_status_t × Nat) (config : uct_rocm_copy_iface_config_t) :
    ucs_status_t × Option uct_rocm_copy_iface_t :=
  if super_init ≠ .UCS_OK then (super_init, none)
  else
    let self_config : uct_rocm_copy_iface_config_t :=
      { d2h_thresh := config.d2h_thresh,
        h2d_thresh := config.h2d_thresh,
        enable_async_zcopy := config.enable_async_zcopy,
        latency := config.latency,
        bandwidth := config.bandwidth,
        dedicated_bandwidth := config.bandwidth,
        put_short_bandwidth := config.put_short_bandwidth,
        get_short_bandwidth := config.get_short_bandwidth,
        put_zcopy_bandwidth := config.put_zcopy_bandwidth,
        get_zcopy_bandwidth := config.get_zcopy_bandwidth,
        send_pre_overhead := config.send_pre_overhead,
        send_post_overhead := config.send_post_overhead,
        recv_overhead := config.recv_overhead }
    if mpool_init.1 ≠ .UCS_OK then (mpool_init.1, none)
    else
      /- a failure of the cache creation is reported in the log only -/
      (.UCS_OK, some { id := uuid, config := self_config, signal_pool := mpool_init.2,
                       signal_queue := [], local_memh_cache := create_cache.2 })

/-- Capability flags that `uct_rocm_copy_iface_query` reports. -/
inductive uct_iface_flag where
  | UCT_IFACE_FLAG_CONNECT_TO_IFACE
  | UCT_IFACE_FLAG_GET_SHORT
  | UCT_IFACE_FLAG_PUT_SHORT
  | UCT_IFACE_FLAG_GET_ZCOPY
  | UCT_IFACE_FLAG_PUT_ZCOPY
  | UCT_IFACE_FLAG_PENDING
  deriving DecidableEq, Repr

/-- Limits of the put and of the get operations (`cap.put`, `cap.get`). -/
structure uct_iface_cap_t where
  max_short : Nat
  max_bcopy : Nat
  min_zcopy : Nat
  max_zcopy : Nat
  opt_zcopy_align : Nat
  align_mtu : Nat
  max_iov : Nat
  deriving DecidableEq, Repr

/-- Limits of the active messages (`cap.am`). -/
structure uct_iface_cap_am_t where
  max_short : Nat
  max_bcopy : Nat
  min_zcopy : Nat
  max_zcopy : Nat
  opt_zcopy_align : Nat
  align_mtu : Nat
  max_hdr : Nat
  max_iov : Nat
  deriving DecidableEq, Repr

/-- The fields of `uct_iface_attr_t` that `uct_rocm_copy_iface_query` assigns. -/
structure uct_iface_attr_t where
  iface_addr_len : Nat
  device_addr_len : Nat
  ep_addr_len : Nat
  cap_flags : List uct_iface_flag
  cap_put : uct_iface_cap_t
  cap_get : uct_iface_cap_t
  cap_am : uct_iface_cap_am_t
  latency : ucs_linear_func_t
  bandwidth_dedicated : Rat
  bandwidth_shared : Rat
  overhead : Rat
  priority : Nat
  deriving DecidableEq, Repr

/-- Size of `uct_rocm_copy_iface_addr_t`, the type of the 64-bit identifier. -/
def sizeof_uct_rocm_copy_iface_addr_t : Nat := 8

/-- Function `uct_rocm_copy_iface_query`: the returned status and the attributes
it writes after `uct_base_iface_query`. -/
def uct_rocm_copy_iface_query (iface : uct_rocm_copy_iface_t) :
    ucs_status_t × uct_iface_attr_t :=
  (.UCS_OK,
    { iface_addr_len := sizeof_uct_rocm_copy_iface_addr_t,
      device_addr_len := 0,
      ep_addr_len := 0,
      cap_flags := [.UCT_IFACE_FLAG_CONNECT_TO_IFACE, .UCT_IFACE_FLAG_GET_SHORT,
        .UCT_IFACE_FLAG_PUT_SHORT, .UCT_IFACE_FLAG_GET_ZCOPY, .UCT_IFACE_FLAG_PUT_ZCOPY,
        .UCT_IFACE_FLAG_PENDING],
      cap_put := { max_short := 2 ^ 32 - 1, max_bcopy := 0, min_zcopy := 0,
                   max_zcopy := 2 ^ 64 - 1, opt_zcopy_align := 1, align_mtu := 1,
                   max_iov := 1 },
      cap_get := { max_short := 2 ^ 32 - 1, max_bcopy := 0, min_zcopy := 0,
                   max_zcopy := 2 ^ 64 - 1, opt_zcopy_align := 1, align_mtu := 1,
                   max_iov := 1 },
      cap_am := { max_short := 0, max_bcopy := 0, min_zcopy := 0, max_zcopy := 0,
                  opt_zcopy_align := 1, align_mtu := 1, max_hdr := 0, max_iov := 1 },
      latency := ucs_linear_func_make iface.config.latency 0,
      bandwidth_dedicated := iface.config.dedicated_bandwidth,
      bandwidth_shared := iface.config.bandwidth,
      overhead := 0,
      priority := 0 })

/-- Function `uct_rocm_copy_iface_flush`: the returned status and the interface
afterwards (the statistics counters are not part of the model). -/
def uct_rocm_copy_iface_flush (iface : uct_rocm_copy_iface_t) (_flags : Nat)
    (comp : uct_completion_ptr) : ucs_status_t × uct_rocm_copy_iface_t :=
  if comp ≠ none then (.UCS_ERR_UNSUPPORTED, iface)
  else if iface.signal_queue = [] then (.UCS_OK, iface)
  else (.UCS_INPROGRESS, iface)

/-! ## Further concrete inputs -/

/-- The configuration record with the default values of the table
(`BW` and `DBW` in MB/s, latency in microseconds), except that the dedicated
bandwidth is set to `12000`. -/
def demo_copy_config : uct_rocm_copy_iface_config_t :=
  { d2h_thresh := 1024, h2d_thresh := 1048576, enable_async_zcopy := 1,
    bandwidth := 6911, dedicated_bandwidth := 12000, put_short_bandwidth := 10500,
    get_short_bandwidth := 2000, put_zcopy_bandwidth := 9500, get_zcopy_bandwidth := 8000,
    latency := 10, send_pre_overhead := 0, send_post_overhead := 0, recv_overhead := 0 }

/-- A rocm_copy interface with two operations outstanding. -/
def demo_copy_iface : uct_rocm_copy_iface_t :=
  { id := 17, config := demo_copy_config, signal_pool := demo_pool,
    signal_queue := [⟨98, some 1, 0⟩, ⟨99, none, 0⟩], local_memh_cache := 3 }

/-- The environment `demo_env` with a device that refuses every plain copy. -/
def demo_env_copy_fails : Env :=
  { demo_env with
    hsa_amd_memory_async_copy := fun _ _ _ _ _ _ => .HSA_STATUS_ERROR }

/-- The environment `demo_env` with a device that refuses the engine copy armed
with the signal `101`, the second descriptor of `demo_pool`. -/
def demo_env_chunk_fails : Env :=
  { demo_env with
    hsa_amd_memory_async_copy_on_engine := fun _ _ _ _ _ signal _ =>
      if signal = 101 then .HSA_STATUS_ERROR else .HSA_STATUS_SUCCESS }

/-- The environment `demo_env` with a classifier that reports no agent for the
mapped remote memory at `0x70000000` and above. -/
def demo_env_no_remote_agent : Env :=
  { demo_env with
    uct_rocm_base_get_ptr_info := fun ptr size =>
      { status := .HSA_STATUS_SUCCESS, base_ptr := ptr, base_size := size,
        mem_type := .HSA_EXT_POINTER_TYPE_HSA, agent := if ptr < 0x70000000 then 7 else 0 } }

/-- The environment `demo_env` with a classifier that does not recognise any
pointer. -/
def demo_env_unknown_memory : Env :=
  { demo_env with
    uct_rocm_base_get_ptr_info := fun ptr size =>
      { status := .HSA_STATUS_SUCCESS, base_ptr := ptr, base_size := size,
        mem_type := .HSA_EXT_POINTER_TYPE_UNKNOWN, agent := 0 } }

/-- The single-engine interface of `demo_state_single` with an exhausted pool. -/
def demo_state_exhausted : State :=
  { iface := { signal_pool := [], signal_queue := [⟨99, some 1, 0x50000000⟩],
               config := { enable_multi_sdma := 0, multi_sdma_thresh := 4097,
                           max_sdma_engines := 3, copy_on_engine := 0 } },
    calls := [] }

/-- What the put of `4096` bytes returns in single-engine mode when the
classifier reports no agent for the remote memory. -/
def demo_result_no_remote_agent : ucs_status_t × State :=
  (.UCS_INPROGRESS,
    { iface := { signal_pool := [⟨101, none, 0⟩, ⟨102, none, 0⟩, ⟨103, none, 0⟩],
                 signal_queue := [⟨99, some 1, 0x50000000⟩, ⟨100, some 42, 0x70000000⟩],
                 config := demo_state_single.iface.config },
      calls := [.get_ptr_info 0x9000 4096, .cache_map_memhandle demo_key,
                .get_ptr_info 0x70000000 4096, .signal_store 100 1,
                .memory_async_copy 0x70000000 7 0x9000 7 4096 100] })

/-! ## Packing of contiguous data

The part of `src/ucp/dt/dt_contig.c`. The memory the CPU can address is a map
from addresses to bytes; a copy returns the memory afterwards. The copy does not
compute with the bytes, so a byte is any natural number here. -/

/-- Memory addressed by the CPU: the byte stored at each address. -/
abbrev Memory := Nat → Nat

/-- A `ucs_memory_type_t`, identified with its enumeration value. -/
abbrev ucs_memory_type_t := Nat

/-- Modelled from the spec: `memcpy` (C library, not among the sources) copies `n`
bytes from the object at `src` to the object at `dest` and leaves every other
byte as it was; if the two objects overlap the behaviour is undefined (`none`). -/
def memcpy (mem : Memory) (dest src n : Nat) : Option Memory :=
  if dest < src + n ∧ src < dest + n then none
  else some (fun a => if dest ≤ a ∧ a < dest + n then mem (src + (a - dest)) else mem a)

/-- Modelled from the spec: the type `ucp_memcpy_pack_context_t` (declared in
`dt_contig.h`, not among the sources), with the two members that
`ucp_memcpy_pack_cb` reads: the source pointer and the number of bytes. -/
structure ucp_memcpy_pack_context_t where
  src : Nat
  length : Nat
  deriving DecidableEq, Repr

/-- Function `ucp_memcpy_pack_cb`: the returned `size_t` and the memory afterwards. -/
def ucp_memcpy_pack_cb (mem : Memory) (dest : Nat) (arg : ucp_memcpy_pack_context_t) :
    Option (Nat × Memory) :=
  let ctx := arg
  let length := ctx.length
  match memcpy mem dest ctx.src length with
  | none => none
  | some mem1 => some (length, mem1)

/-- Collaborators of `ucp_dt_contig_pack` and `ucp_dt_contig_unpack` that are not
among the sources: the test `UCP_MEM_IS_ACCESSIBLE_FROM_CPU` of a memory type, and
the two copy routines for memory the CPU cannot address. -/
structure DtEnv where
  UCP_MEM_IS_ACCESSIBLE_FROM_CPU : ucs_memory_type_t → Bool
  ucp_mem_type_pack : Memory → Nat → Nat → Nat → ucs_memory_type_t → Option Memory
  ucp_mem_type_unpack : Memory → Nat → Nat → Nat → ucs_memory_type_t → Option Memory

/-- Modelled from the spec: `ucp_memcpy_pack_unpack` (an inline helper of the
datatype headers, not among the sources), the "trivial memcpy passthrough" for
memory the CPU can address: it copies `length` bytes from `src` to `dest`. -/
def ucp_memcpy_pack_unpack (_worker : Nat) (mem : Memory) (dest src length : Nat)
    (_mem_type : ucs_memory_type_t) : Option Memory :=
  memcpy mem dest src length

/-- Function `ucp_dt_contig_pack`: the memory afterwards. -/
def ucp_dt_contig_pack (denv : DtEnv) (worker : Nat) (mem : Memory) (dest src length : Nat)
    (mem_type : ucs_memory_type_t) : Option Memory :=
  if denv.UCP_MEM_IS_ACCESSIBLE_FROM_CPU mem_type then
    ucp_memcpy_pack_unpack worker mem dest src length mem_type
  else
    denv.ucp_mem_type_pack mem dest src length mem_type

/-- Function `ucp_dt_contig_unpack`: the memory afterwards. The two `printf` lines
write to the standard output only and are left out. -/
def ucp_dt_contig_unpack (denv : DtEnv) (worker : Nat) (mem : Memory) (dest src length : Nat)
    (mem_type : ucs_memory_type_t) : Option Memory :=
  if denv.UCP_MEM_IS_ACCESSIBLE_FROM_CPU mem_type then
    ucp_memcpy_pack_unpack worker mem dest src length mem_type
  else
    denv.ucp_mem_type_unpack mem dest src length mem_type

/-- A memory whose `10000` bytes from `0x100000` on hold a pattern, all others `0`. -/
def demo_memory : Memory :=
  fun a => if 0x100000 ≤ a ∧ a < 0x100000 + 10000 then ((a - 0x100000) * 0x11 + 0x11) % 256 else 0

/-- Collaborators for host memory: memory type `0` is addressed by the CPU, copies
of other memory are not available. -/
def demo_dt_env : DtEnv :=
  { UCP_MEM_IS_ACCESSIBLE_FROM_CPU := fun t => t == 0,
    ucp_mem_type_pack := fun _ _ _ _ _ => none,
    ucp_mem_type_unpack := fun _ _ _ _ _ => none }

/-! ## Engine lookup -/

/-- The counting loop adds the number of set bits among the positions it visits. -/
theorem count_engines_loop_eq (mask : Nat) (n i : Nat) (c : Int) :
    count_engines_loop mask n i c =
      c + (((List.range' i n).filter (fun j => mask.testBit j)).length : Int) := by
  induction n generalizing i c with
  | zero => simp [count_engines_loop]
  | succ n ih =>
    rw [count_engines_loop, ih, List.range'_succ]
    by_cases h : mask.testBit i
    · simp [h, List.filter_cons]
      ring
    · simp [h, List.filter_cons]

/-- The filling loop appends the set positions it visits, in the order of the visit. -/
theorem fill_engines_loop_eq (mask : Nat) (n i : Nat) (temp : List Nat) :
    fill_engines_loop mask n i temp =
      temp ++ (List.range' i n).filter (fun j => mask.testBit j) := by
  induction n generalizing i temp with
  | zero => simp [fill_engines_loop]
  | succ n ih =>
    rw [fill_engines_loop, ih, List.range'_succ]
    by_cases h : mask.testBit i <;> simp [h, List.filter_cons]

/-- Counting the set positions of a list is summing the binary digits at these positions. -/
theorem filter_testBit_length (K : Nat) (l : List Nat) :
    (l.filter (fun i => K.testBit i)).length = (l.map (fun i => K / 2 ^ i % 2)).sum := by
  induction l with
  | nil => rfl
  | cons a l ih =>
    rw [List.filter_cons, List.map_cons, List.sum_cons, ← ih, Nat.testBit_to_div_mod]
    rcases Nat.mod_two_eq_zero_or_one (K / 2 ^ a) with h | h
    · simp [h]
    · simp [h]
      omega

/-- There are as many set-bit indices as ones among the low 32 binary digits. -/
theorem set_bit_indices_length (K : Nat) : (set_bit_indices K).length = popcount32 K :=
  filter_testBit_length K (List.range 32)

/-- For a 32-bit mask the listed indices are exactly the positions of its set bits. -/
theorem mem_set_bit_indices (K : Nat) (hK : K < 2 ^ 32) (i : Nat) :
    i ∈ set_bit_indices K ↔ K.testBit i = true := by
  simp only [set_bit_indices, List.mem_filter, List.mem_range]
  constructor
  · exact fun h => h.2
  · intro h
    refine ⟨?_, h⟩
    by_contra hi
    have hlt : K < 2 ^ i := lt_of_lt_of_le hK (Nat.pow_le_pow_right (by decide) (by omega))
    rw [Nat.testBit_lt_two_pow hlt] at h
    exact Bool.false_ne_true h

/-- The set-bit indices are listed in strictly ascending order. -/
theorem set_bit_indices_sorted (K : Nat) : (set_bit_indices K).Pairwise (· < ·) := by
  unfold set_bit_indices
  apply List.Pairwise.filter
  rw [List.range_eq_range']
  exact List.pairwise_lt_range' 0 32

/-- When the engine lookup stores an array, the returned number is its length and at most 32. -/
theorem get_engines_some (status : hsa_status_t) (mask : Nat) (malloc_ok : Bool) (d E : Int)
    (engines : List Nat)
    (h : uct_rocm_ipc_get_engines status mask malloc_ok d = (E, some engines)) :
    (engines.length : Int) = E ∧ E ≤ 32 := by
  unfold uct_rocm_ipc_get_engines at h
  have hcount : count_engines_loop (mask % 2 ^ 32) 32 0 0 =
      (((List.range 32).filter (fun j => (mask % 2 ^ 32).testBit j)).length : Int) := by
    rw [count_engines_loop_eq, ← List.range_eq_range']; simp
  have hfill : fill_engines_loop (mask % 2 ^ 32) 32 0 [] =
      (List.range 32).filter (fun j => (mask % 2 ^ 32).testBit j) := by
    rw [fill_engines_loop_eq, ← List.range_eq_range']; simp
  have hle : ((List.range 32).filter (fun j => (mask % 2 ^ 32).testBit j)).length ≤ 32 := by
    have := List.length_filter_le (fun j => (mask % 2 ^ 32).testBit j) (List.range 32)
    simpa using this
  simp only [hcount, hfill] at h
  split_ifs at h <;> simp only [Prod.mk.injEq, Option.some.injEq, reduceCtorEq, and_false] at h
  · obtain ⟨h1, h2⟩ := h
    subst h1 h2
    exact ⟨rfl, by exact_mod_cast hle⟩
  · obtain ⟨h1, h2⟩ := h
    subst h1 h2
    exact ⟨by simp, by norm_num⟩

/-- C9: for every 32-bit availability mask `K` that the driver returns (status
`HSA_STATUS_SUCCESS` or `HSA_STATUS_ERROR_OUT_OF_RESOURCES`, the two the code
accepts) and every desired count `d`, with the array allocation succeeding,
`uct_rocm_ipc_get_engines` equals the reference definition: if
`popcount(K) >= d` it returns `popcount(K)` and the indices of the set bits of
`K`, otherwise `3` and the hard-coded list `2, 3, 4` irrespective of `K`. The list
of indices has `popcount(K)` entries, is strictly ascending and holds exactly the
positions of the set bits. -/
theorem get_engines_eq_reference (status : hsa_status_t) (K : Nat) (d : Int)
    (hstatus : status = .HSA_STATUS_SUCCESS ∨ status = .HSA_STATUS_ERROR_OUT_OF_RESOURCES)
    (hK : K < 2 ^ 32) :
    uct_rocm_ipc_get_engines status K true d =
        ((get_engines_reference K d).1, some (get_engines_reference K d).2) ∧
      (set_bit_indices K).length = popcount32 K ∧
      (set_bit_indices K).Pairwise (· < ·) ∧
      (∀ i, i ∈ set_bit_indices K ↔ K.testBit i = true) := by
  refine ⟨?_, set_bit_indices_length K, set_bit_indices_sorted K, mem_set_bit_indices K hK⟩
  have hmod : K % 2 ^ 32 = K := Nat.mod_eq_of_lt hK
  have hst : ¬ (status ≠ .HSA_STATUS_SUCCESS ∧ status ≠ .HSA_STATUS_ERROR_OUT_OF_RESOURCES) := by
    rcases hstatus with h | h <;> simp [h]
  have hcount : count_engines_loop K 32 0 0 = (popcount32 K : Int) := by
    rw [count_engines_loop_eq, ← List.range_eq_range', ← set_bit_indices_length]
    simp [set_bit_indices]
  have hfill : fill_engines_loop K 32 0 [] = set_bit_indices K := by
    rw [fill_engines_loop_eq, ← List.range_eq_range']
    simp [set_bit_indices]
  unfold uct_rocm_ipc_get_engines get_engines_reference
  simp only [hst, if_false, hmod, hcount, hfill]
  by_cases h : (popcount32 K : Int) ≥ d
  · simp [h]
  · simp [h]; decide

/-- C9 at the mask `0b10110` with two engines desired. -/
theorem get_engines_eq_reference_witness :
    uct_rocm_ipc_get_engines .HSA_STATUS_SUCCESS 22 true 2 =
        ((get_engines_reference 22 2).1, some (get_engines_reference 22 2).2) ∧
      (set_bit_indices 22).length = popcount32 22 ∧
      (set_bit_indices 22).Pairwise (· < ·) ∧
      (∀ i, i ∈ set_bit_indices 22 ↔ Nat.testBit 22 i = true) :=
  get_engines_eq_reference .HSA_STATUS_SUCCESS 22 2 (Or.inl rfl) (by decide)

/-! ## Engine rotation -/

/-- The rewriting loop never reads outside `dtemp` when `dtemp` has `total`
entries; it keeps the length and rewrites exactly the visited positions. -/
theorem select_engines_loop_spec (dtemp : List Nat) (total pos : Nat) (htot : 0 < total)
    (hd : total ≤ dtemp.length) (n i : Nat) (engines : List Nat) :
    ∃ r, select_engines_loop dtemp total pos n i engines = some r ∧
      r.length = engines.length ∧
      ∀ j, r[j]? = if i ≤ j ∧ j < i + n ∧ j < engines.length then dtemp[(j + pos) % total]?
        else engines[j]? := by
  induction n generalizing i engines with
  | zero =>
    refine ⟨engines, rfl, rfl, fun j => ?_⟩
    have h : ¬ (i ≤ j ∧ j < i + 0 ∧ j < engines.length) := by omega
    simp only [h, if_false]
  | succ n ih =>
    have hlt : (i + pos) % total < dtemp.length := lt_of_lt_of_le (Nat.mod_lt _ htot) hd
    obtain ⟨r, hr, hlen, hget⟩ := ih (i + 1) (engines.set i (dtemp[(i + pos) % total]))
    refine ⟨r, ?_, by simpa using hlen, fun j => ?_⟩
    · rw [select_engines_loop, List.getElem?_eq_getElem hlt]
      exact hr
    · rw [hget j, List.length_set, List.getElem?_set]
      by_cases hj : i = j
      · subst hj
        by_cases hl : i < engines.length
        · simp [hl, List.getElem?_eq_getElem hlt]
        · have hl2 : engines.length ≤ i := by omega
          simp [hl, hl2]
      · simp only [hj, if_false]
        by_cases h1 : i + 1 ≤ j ∧ j < i + 1 + n ∧ j < engines.length
        · have h2 : i ≤ j ∧ j < i + (n + 1) ∧ j < engines.length := by omega
          simp [h1, h2]
        · have h2 : ¬ (i ≤ j ∧ j < i + (n + 1) ∧ j < engines.length) := by omega
          simp [h1, h2]

/-- Selecting engines keeps the length of the engine array. -/
theorem select_engines_length (gpu_agents : List hsa_agent_t) (malloc_ok : Bool)
    (engines : List Nat) (m : Nat) (dst_agent src_agent : hsa_agent_t) (r : List Nat)
    (hT : 0 < engines.length)
    (h : uct_rocm_ipc_select_engines gpu_agents malloc_ok engines.length engines m dst_agent
      src_agent = some r) : r.length = engines.length := by
  unfold uct_rocm_ipc_select_engines at h
  cases malloc_ok with
  | false =>
    simp at h
    rw [← h]
  | true =>
    obtain ⟨r', hr', hlen, _⟩ := select_engines_loop_spec (engines.take engines.length)
      engines.length (uct_rocm_ipc_get_agent_pos gpu_agents dst_agent * m) hT (by simp)
      engines.length 0 engines
    simp at h hr'
    rw [hr'] at h
    simp only [Option.some.injEq] at h
    rw [← h]; exact hlen

/-- The rejection by the range check as the code computes it: a call of
`uct_rocm_ipc_ep_zcopy` (put or get alike) with non-zero size for which
`remote_addr < key.address` or `remote_addr + size > key.address + key.length`
holds with both sums taken as `uint64_t` sums returns `UCS_ERR_INVALID_PARAM` and
leaves the whole state as it was: no call is added to the log (no hardware copy),
and the signal queue and its length are unchanged. -/
theorem zcopy_rejects_out_of_range (env : Env) (w : State) (remote_addr : Nat)
    (iov : uct_iov_t) (key : uct_rocm_ipc_key_t) (comp : uct_completion_ptr) (is_put : Int)
    (hsize : env.uct_iov_get_length iov % 2 ^ 64 ≠ 0)
    (hrange : remote_addr < key.address ∨
      (remote_addr + env.uct_iov_get_length iov % 2 ^ 64) % 2 ^ 64 >
        (key.address + key.length) % 2 ^ 64) :
    ∃ w1, uct_rocm_ipc_ep_zcopy env w remote_addr iov key comp is_put =
        some (.UCS_ERR_INVALID_PARAM, w1) ∧
      w1.copies = w.copies ∧ w1.calls = w.calls ∧
      w1.iface.signal_queue = w.iface.signal_queue ∧
      w1.iface.signal_queue.length = w.iface.signal_queue.length := by
  refine ⟨w, ?_, rfl, rfl, rfl, rfl⟩
  have hr : zcopy_out_of_range remote_addr (env.uct_iov_get_length iov % SIZE_MOD) key := by
    simpa [zcopy_out_of_range, add64, SIZE_MOD] using hrange
  have hs : env.uct_iov_get_length iov % SIZE_MOD ≠ 0 := by simpa [SIZE_MOD] using hsize
  simp [uct_rocm_ipc_ep_zcopy, hs, hr]

/-- The rejection at a concrete call: a get of `4097` bytes at `0x1000` against the
key of `4096` bytes at `0x1000`. -/
theorem zcopy_rejects_out_of_range_witness :
    ∃ w1, uct_rocm_ipc_ep_zcopy demo_env demo_state_single 0x1000 ⟨0x9000, 4097, 1⟩ demo_key
        (some 42) 0 = some (.UCS_ERR_INVALID_PARAM, w1) ∧
      w1.copies = demo_state_single.copies ∧ w1.calls = demo_state_single.calls ∧
      w1.iface.signal_queue = demo_state_single.iface.signal_queue ∧
      w1.iface.signal_queue.length = demo_state_single.iface.signal_queue.length :=
  zcopy_rejects_out_of_range demo_env demo_state_single 0x1000 ⟨0x9000, 4097, 1⟩ demo_key
    (some 42) 0 (by decide) (by decide)

/-- C1: a call with `remote_addr + size > key.address + key.length` is not always
rejected. For the key of `0x1000` bytes at `0x1000` and a transfer of `0x20` bytes
at the remote address `2 ^ 64 - 0x10`, the sum `remote_addr + size` exceeds
`key.address + key.length` as an integer, but the `uint64_t` sum the code compares
is `0x10`. The put and the get both return `UCS_INPROGRESS` instead of
`UCS_ERR_INVALID_PARAM`, each issues one hardware copy of `0x20` bytes at the
mapped base minus `0x1010`, and the signal queue grows from one to two entries. -/
theorem zcopy_out_of_range_not_rejected :
    demo_env.uct_iov_get_length ⟨0x9000, 0x20, 1⟩ = 0x20 ∧
    (2 ^ 64 - 0x10) + 0x20 > demo_key.address + demo_key.length ∧
    add64 (2 ^ 64 - 0x10) 0x20 = 0x10 ∧
    (uct_rocm_ipc_ep_zcopy demo_env demo_state_single (2 ^ 64 - 0x10) ⟨0x9000, 0x20, 1⟩
        demo_key (some 42) 1).map
        (fun r => (r.1, r.2.copies, r.2.iface.signal_queue.length)) =
      some (.UCS_INPROGRESS,
        [.memory_async_copy (0x70000000 - 0x1010) 7 0x9000 7 0x20 100], 2) ∧
    (uct_rocm_ipc_ep_zcopy demo_env demo_state_single (2 ^ 64 - 0x10) ⟨0x9000, 0x20, 1⟩
        demo_key (some 42) 0).map
        (fun r => (r.1, r.2.copies, r.2.iface.signal_queue.length)) =
      some (.UCS_INPROGRESS,
        [.memory_async_copy 0x9000 7 (0x70000000 - 0x1010) 7 0x20 100], 2) ∧
    demo_state_single.copies = [] ∧
    demo_state_single.iface.signal_queue.length = 1 := by
  decide

/-- C2: the range check does not keep the remote range inside the key. For the
key of `0x1000` bytes at `0x1000`, a get of `0x20` bytes at the remote address
`2 ^ 64 - 0x10` passes the check, because the `uint64_t` sum `remote_addr + size`
wraps around to `0x10`. The call returns `UCS_INPROGRESS` and issues one hardware
copy of `0x20` bytes from the mapped base plus `2 ^ 64 - 0x1010` (that is, `0x1010`
bytes below the mapped base), although `remote_addr + size` exceeds
`key.address + key.length` as an integer and the offset `remote_addr - key.address`
is not below `key.length`. -/
theorem zcopy_range_check_wraps :
    uct_rocm_ipc_ep_zcopy demo_env demo_state_single (2 ^ 64 - 0x10) ⟨0x9000, 0x20, 1⟩
        demo_key (some 42) 0 =
      some (.UCS_INPROGRESS,
        { iface :=
            { signal_pool := [⟨101, none, 0⟩, ⟨102, none, 0⟩, ⟨103, none, 0⟩],
              signal_queue := [⟨99, some 1, 0x50000000⟩, ⟨100, some 42, 0x70000000⟩],
              config := demo_state_single.iface.config },
          calls :=
            [.get_ptr_info 0x9000 0x20,
             .cache_map_memhandle demo_key,
             .get_ptr_info (0x70000000 - 0x1010) 0x20,
             .agents_allow_access [5, 7] 0x9000,
             .signal_store 100 1,
             .memory_async_copy 0x9000 7 (0x70000000 - 0x1010) 7 0x20 100] }) ∧
    demo_env.uct_iov_get_length ⟨0x9000, 0x20, 1⟩ = 0x20 ∧
    add64 (2 ^ 64 - 0x10) 0x20 = 0x10 ∧
    ¬ ((2 ^ 64 - 0x10) + 0x20 ≤ demo_key.address + demo_key.length) ∧
    sub64 (2 ^ 64 - 0x10) demo_key.address = 2 ^ 64 - 0x1010 ∧
    ¬ (sub64 (2 ^ 64 - 0x10) demo_key.address < demo_key.length) := by
  decide

/-- C3: a call of `uct_rocm_ipc_ep_zcopy` whose IO vector has total length zero
returns `UCS_OK` whatever the remote address, the key and the answers of the
classifier are; the state is returned as it was, so nothing was classified,
mapped or copied (the log is unchanged) and the signal pool and the signal queue
are unchanged. -/
theorem zcopy_zero_length_is_noop (env : Env) (w : State) (remote_addr : Nat)
    (iov : uct_iov_t) (key : uct_rocm_ipc_key_t) (comp : uct_completion_ptr) (is_put : Int)
    (hsize : env.uct_iov_get_length iov % 2 ^ 64 = 0) :
    ∃ w1, uct_rocm_ipc_ep_zcopy env w remote_addr iov key comp is_put = some (.UCS_OK, w1) ∧
      w1.calls = w.calls ∧ w1.iface.signal_pool = w.iface.signal_pool ∧
      w1.iface.signal_queue = w.iface.signal_queue := by
  refine ⟨w, ?_, rfl, rfl, rfl⟩
  have hs : env.uct_iov_get_length iov % SIZE_MOD = 0 := by simpa [SIZE_MOD] using hsize
  simp [uct_rocm_ipc_ep_zcopy, hs]

/-- C3 at a concrete call: an empty put far outside the key returns `UCS_OK`. -/
theorem zcopy_zero_length_is_noop_witness :
    ∃ w1, uct_rocm_ipc_ep_zcopy demo_env demo_state_multi 0xdead0000 ⟨0x9000, 0, 1⟩ demo_key
        (some 42) 1 = some (.UCS_OK, w1) ∧
      w1.calls = demo_state_multi.calls ∧
      w1.iface.signal_pool = demo_state_multi.iface.signal_pool ∧
      w1.iface.signal_queue = demo_state_multi.iface.signal_queue :=
  zcopy_zero_length_is_noop demo_env demo_state_multi 0xdead0000 ⟨0x9000, 0, 1⟩ demo_key
    (some 42) 1 (by decide)

/-! ## The single-engine path -/

/-- The effect of a successful `uct_rocm_ipc_async_copy` on the interface: the
first descriptor leaves the pool and joins the tail of the queue with the
completion handle and the mapped base address filled in. -/
theorem async_copy_success (env : Env) (w : State) (dst_addr : Nat) (dst_agent : hsa_agent_t)
    (src_addr : Nat) (src_agent : hsa_agent_t) (size remote_base_addr : Nat)
    (comp : uct_completion_ptr) (d : uct_rocm_base_signal_desc_t)
    (pool : List uct_rocm_base_signal_desc_t) (hpool : w.iface.signal_pool = d :: pool)
    (hissue : env.hsa_amd_memory_async_copy dst_addr dst_agent src_addr src_agent size d.signal
      = .HSA_STATUS_SUCCESS) :
    uct_rocm_ipc_async_copy env w dst_addr dst_agent src_addr src_agent size remote_base_addr
        comp =
      some (.HSA_STATUS_SUCCESS,
        { iface :=
            { signal_pool := pool,
              signal_queue := w.iface.signal_queue ++
                [{ d with comp := comp, mapped_addr := remote_base_addr }],
              config := w.iface.config },
          calls := w.calls ++ [.signal_store d.signal 1,
            .memory_async_copy dst_addr dst_agent src_addr src_agent size d.signal] }) := by
  simp [uct_rocm_ipc_async_copy, ucs_mpool_get, hpool, hissue, State.log, ucs_queue_push]

/-- C4: in single-engine mode (`copy_on_engine` or `enable_multi_sdma` is zero),
a call of `uct_rocm_ipc_ep_zcopy` with non-zero size that passes the range check
of the code, whose two classifications and remote mapping succeed and whose
device copy is issued (the access grant, where the remote agent is non-null,
succeeded and the pool supplied the descriptor `d`) and succeeds, returns
`UCS_INPROGRESS`; the signal queue afterwards is the queue before followed by
exactly one descriptor, which is `d` carrying the completion handle of the
caller and the mapped remote base address. -/
theorem zcopy_single_engine_appends_one (env : Env) (w : State) (remote_addr : Nat)
    (iov : uct_iov_t) (key : uct_rocm_ipc_key_t) (comp : uct_completion_ptr) (is_put : Int)
    (size : Nat) (hsize : env.uct_iov_get_length iov % 2 ^ 64 = size) (hnz : size ≠ 0)
    (hsingle : w.iface.config.copy_on_engine = 0 ∨ w.iface.config.enable_multi_sdma = 0)
    (hlow : key.address ≤ remote_addr)
    (hhigh : (remote_addr + size) % 2 ^ 64 ≤ (key.address + key.length) % 2 ^ 64)
    (loc : ptr_info_t) (hloc : env.uct_rocm_base_get_ptr_info iov.buffer size = loc)
    (hloc_ok : loc.status = .HSA_STATUS_SUCCESS)
    (hloc_type : loc.mem_type ≠ .HSA_EXT_POINTER_TYPE_UNKNOWN)
    (remote_base_addr : Nat)
    (hmap : env.uct_rocm_ipc_cache_map_memhandle key = (.UCS_OK, remote_base_addr))
    (remote_copy_addr : Nat)
    (hcopy_addr : remote_copy_addr = add64 remote_base_addr (sub64 remote_addr key.address))
    (rem : ptr_info_t) (hrem : env.uct_rocm_base_get_ptr_info remote_copy_addr size = rem)
    (hrem_ok : rem.status = .HSA_STATUS_SUCCESS)
    (hrem_type : rem.mem_type ≠ .HSA_EXT_POINTER_TYPE_UNKNOWN)
    (hgrant : rem.agent ≠ 0 →
      env.hsa_amd_agents_allow_access env.uct_rocm_base_get_gpu_agents loc.base_ptr
        = .HSA_STATUS_SUCCESS)
    (d : uct_rocm_base_signal_desc_t) (pool : List uct_rocm_base_signal_desc_t)
    (hpool : w.iface.signal_pool = d :: pool)
    (remote_agent : hsa_agent_t)
    (hagent : remote_agent = if rem.agent = 0 then loc.agent else rem.agent)
    (hissue : env.hsa_amd_memory_async_copy
        (if is_put ≠ 0 then remote_copy_addr else iov.buffer)
        (if is_put ≠ 0 then remote_agent else loc.agent)
        (if is_put ≠ 0 then iov.buffer else remote_copy_addr)
        (if is_put ≠ 0 then loc.agent else remote_agent) size d.signal
      = .HSA_STATUS_SUCCESS) :
    ∃ w1, uct_rocm_ipc_ep_zcopy env w remote_addr iov key comp is_put =
        some (.UCS_INPROGRESS, w1) ∧
      w1.iface.signal_queue = w.iface.signal_queue ++
        [{ d with comp := comp, mapped_addr := remote_base_addr }] ∧
      w1.iface.signal_pool = pool ∧
      w1.iface.signal_queue.length = w.iface.signal_queue.length + 1 := by
  have hs : env.uct_iov_get_length iov % SIZE_MOD = size := by simpa [SIZE_MOD] using hsize
  have hr : ¬ zcopy_out_of_range remote_addr size key := by
    simp only [zcopy_out_of_range, add64, SIZE_MOD, not_or, not_lt]
    exact ⟨hlow, hhigh⟩
  have hcfg : ¬ (w.iface.config.copy_on_engine ≠ 0 ∧ w.iface.config.enable_multi_sdma ≠ 0) := by
    rcases hsingle with h | h <;> simp [h]
  subst hloc hrem hcopy_addr
  by_cases h0 : (env.uct_rocm_base_get_ptr_info
      (add64 remote_base_addr (sub64 remote_addr key.address)) size).agent = 0
  · simp only [h0, if_true] at hagent
    subst hagent
    have hstep := async_copy_success env
      ((((w.log (.get_ptr_info iov.buffer size)).log (.cache_map_memhandle key)).log
        (.get_ptr_info (add64 remote_base_addr (sub64 remote_addr key.address)) size)))
      _ _ _ _ size remote_base_addr comp d pool (by simpa [State.log] using hpool) hissue
    simp [uct_rocm_ipc_ep_zcopy, hs, hnz, hr, hloc_ok, hloc_type, hmap, hrem_ok, hrem_type, h0,
      zcopy_dispatch, hcfg, State.log] at hstep ⊢
    simp [hstep]
  · simp only [h0, if_false] at hagent
    subst hagent
    have hstep := async_copy_success env
      (((((w.log (.get_ptr_info iov.buffer size)).log (.cache_map_memhandle key)).log
        (.get_ptr_info (add64 remote_base_addr (sub64 remote_addr key.address)) size))).log
        (.agents_allow_access env.uct_rocm_base_get_gpu_agents
          (env.uct_rocm_base_get_ptr_info iov.buffer size).base_ptr))
      _ _ _ _ size remote_base_addr comp d pool (by simpa [State.log] using hpool) hissue
    simp [uct_rocm_ipc_ep_zcopy, hs, hnz, hr, hloc_ok, hloc_type, hmap, hrem_ok, hrem_type, h0,
      zcopy_dispatch, hcfg, State.log, hgrant h0] at hstep ⊢
    simp [hstep]

/-- C4 at the end-to-end scenario: with the key of `4096` bytes at `0x1000`, a
get of `4096` bytes at `0x1000` in single-engine mode returns `UCS_INPROGRESS`
and appends one descriptor, carrying the handle `42` and the mapped base. -/
theorem zcopy_single_engine_appends_one_witness :
    ∃ w1, uct_rocm_ipc_ep_zcopy demo_env demo_state_single 0x1000 ⟨0x9000, 4096, 1⟩ demo_key
        (some 42) 0 = some (.UCS_INPROGRESS, w1) ∧
      w1.iface.signal_queue = demo_state_single.iface.signal_queue ++
        [{ (⟨100, none, 0⟩ : uct_rocm_base_signal_desc_t) with
            comp := some 42, mapped_addr := 0x70000000 }] ∧
      w1.iface.signal_pool = [⟨101, none, 0⟩, ⟨102, none, 0⟩, ⟨103, none, 0⟩] ∧
      w1.iface.signal_queue.length = demo_state_single.iface.signal_queue.length + 1 :=
  zcopy_single_engine_appends_one demo_env demo_state_single 0x1000 ⟨0x9000, 4096, 1⟩ demo_key
    (some 42) 0 4096 (by decide) (by decide) (by decide) (by decide) (by decide)
    (demo_env.uct_rocm_base_get_ptr_info 0x9000 4096) rfl rfl (by decide)
    0x70000000 rfl 0x70000000 (by decide)
    (demo_env.uct_rocm_base_get_ptr_info 0x70000000 4096) rfl rfl (by decide)
    (fun _ => rfl) ⟨100, none, 0⟩ [⟨101, none, 0⟩, ⟨102, none, 0⟩, ⟨103, none, 0⟩] rfl
    7 (by decide) rfl

/-! ## Number of engines of a multi-engine transfer -/

/-- Values below `2 ^ 31` survive the conversion to `int`. -/
theorem int_of_unsigned_small (x : Nat) (h : x < 2 ^ 31) : int_of_unsigned x = (x : Int) := by
  have h1 : x % 2 ^ 32 = x := Nat.mod_eq_of_lt (by omega)
  unfold int_of_unsigned
  rw [h1, if_pos h]

/-- Non-negative values below `2 ^ 32` survive the conversion to `unsigned`. -/
theorem unsigned_of_int_small (x : Int) (h0 : 0 ≤ x) (h : x < 2 ^ 32) :
    unsigned_of_int x = x.toNat := by
  unfold unsigned_of_int
  rw [Int.emod_eq_of_lt h0 h]

/-- Closed form of the number of engines used. -/
theorem multi_copy_num_engines_value (E : Int) (M S T : Nat) (hE : 0 < E) (hE31 : E < 2 ^ 31)
    (hT : 0 < T) (hq : S / T < 2 ^ 31) :
    multi_copy_num_engines E M S T =
      some (max 1 (min (M : Int) (min E ((S / T : Nat) : Int)))) := by
  have hu : unsigned_of_int E = E.toNat := unsigned_of_int_small E (by omega) (by omega)
  have hq1 : int_of_unsigned (S / T) = ((S / T : Nat) : Int) := int_of_unsigned_small _ hq
  have hT0 : T ≠ 0 := by omega
  unfold multi_copy_num_engines
  simp only [hu, hq1, hT0, if_false]
  by_cases hM : E.toNat > M
  · have hM31 : M < 2 ^ 31 := by omega
    simp only [hM, if_true, int_of_unsigned_small M hM31]
    congr 1
    split_ifs <;> omega
  · simp only [hM, if_false]
    congr 1
    split_ifs <;> omega

/-- Whatever the threshold and the size are, the number of engines used lies
between one and the number of engines found. -/
theorem multi_copy_num_engines_bounds (E : Int) (M S T : Nat) (N : Int) (hE : 0 < E)
    (hE32 : E ≤ 32) (h : multi_copy_num_engines E M S T = some N) : 1 ≤ N ∧ N ≤ E := by
  have hu : unsigned_of_int E = E.toNat := unsigned_of_int_small E (by omega) (by omega)
  unfold multi_copy_num_engines at h
  simp only [hu] at h
  by_cases hT : T = 0
  · simp [hT] at h
  · simp only [hT, if_false, Option.some.injEq] at h
    generalize int_of_unsigned (S / T) = q at h
    by_cases hM : E.toNat > M
    · have hM31 : M < 2 ^ 31 := by omega
      simp only [hM, if_true, int_of_unsigned_small M hM31] at h
      subst h
      split_ifs <;> omega
    · simp only [hM, if_false] at h
      subst h
      split_ifs <;> omega

/-- C8: for every size `S`, threshold `T > 0` with `floor(S / T)` representable as
a signed 32-bit integer, configured `max_sdma_engines` `M` and engine count
`E > 0` returned by `uct_rocm_ipc_get_engines`, the number of chunks and engines
that `uct_rocm_ipc_async_multi_copy` uses is `N = max(1, min(M, E, floor(S / T)))`;
in particular `1 <= N <= E`. -/
theorem multi_copy_num_engines_formula (E : Int) (M S T : Nat) (hE : 0 < E) (hE31 : E < 2 ^ 31)
    (hT : 0 < T) (hq : S / T < 2 ^ 31) :
    multi_copy_num_engines E M S T =
        some (max 1 (min (M : Int) (min E ((S / T : Nat) : Int)))) ∧
      1 ≤ max 1 (min (M : Int) (min E ((S / T : Nat) : Int))) ∧
      max 1 (min (M : Int) (min E ((S / T : Nat) : Int))) ≤ E := by
  refine ⟨multi_copy_num_engines_value E M S T hE hE31 hT hq, ?_, ?_⟩ <;> omega

/-- C8 for three engines found, two configured and a size of five thresholds. -/
theorem multi_copy_num_engines_formula_witness :
    multi_copy_num_engines 3 2 (5 * 4096) 4096 =
        some (max 1 (min ((2 : Nat) : Int) (min 3 ((5 * 4096 / 4096 : Nat) : Int)))) ∧
      1 ≤ max 1 (min ((2 : Nat) : Int) (min 3 ((5 * 4096 / 4096 : Nat) : Int))) ∧
      max 1 (min ((2 : Nat) : Int) (min 3 ((5 * 4096 / 4096 : Nat) : Int))) ≤ 3 :=
  multi_copy_num_engines_formula 3 2 (5 * 4096) 4096 (by decide) (by decide) (by decide)
    (by decide)

/-! ## The chunk loop -/

/-- What a run of the chunk loop that returns has done: `m` chunks were attempted
and `k` of them queued, in index order, each with the next descriptor of the
pool; either all `n` chunks succeeded, or the issue call of chunk `k` failed and
its descriptor went back to the pool. -/
theorem multi_copy_loop_spec (env : Env) (engines : List Nat) (N S chunk dst : Nat)
    (da : hsa_agent_t) (src : Nat) (sa : hsa_agent_t) (rba : Nat) (comp : uct_completion_ptr) :
    ∀ (n i : Nat) (w : State) (r : hsa_status_t × State),
      multi_copy_loop env engines N S chunk dst da src sa rba comp n i w = some r →
      ∃ k m, k ≤ m ∧ m ≤ n ∧ m ≤ w.iface.signal_pool.length ∧
        r.2.calls = w.calls ++ ((List.range' i m).zip (w.iface.signal_pool.take m)).flatMap
          (fun jd => chunk_calls N S chunk dst da src sa jd.1 jd.2 (engines.getD jd.1 0)) ∧
        r.2.iface.signal_queue = w.iface.signal_queue ++
          ((List.range' i k).zip (w.iface.signal_pool.take k)).map
            (fun jd => chunk_desc N rba comp jd.1 jd.2) ∧
        r.2.iface.signal_pool = w.iface.signal_pool.drop k ∧
        r.2.iface.config = w.iface.config ∧
        ((r.1 = .HSA_STATUS_SUCCESS ∧ k = m ∧ m = n) ∨
         (r.1 ≠ .HSA_STATUS_SUCCESS ∧ m = k + 1 ∧
           ∃ d e, w.iface.signal_pool[k]? = some d ∧ engines[i + k]? = some e ∧
             env.hsa_amd_memory_async_copy_on_engine (add64 dst (mul64 (i + k) chunk)) da
               (add64 src (mul64 (i + k) chunk)) sa (multi_copy_data_size N S chunk (i + k))
               d.signal (unsigned_of_int (uct_rocm_ipc_map_id_to_engine e)) = r.1)) := by
  intro n
  induction n with
  | zero =>
    intro i w r h
    simp only [multi_copy_loop, Option.some.injEq] at h
    subst h
    exact ⟨0, 0, le_refl _, le_refl _, Nat.zero_le _, by simp, by simp, by simp,
      rfl, Or.inl ⟨rfl, rfl, rfl⟩⟩
  | succ n ih =>
    intro i w r h
    rw [multi_copy_loop] at h
    cases hp : w.iface.signal_pool with
    | nil => simp [ucs_mpool_get, hp] at h
    | cons d rest =>
      cases he : engines[i]? with
      | none => simp [ucs_mpool_get, hp, he] at h
      | some e =>
        have hi : i < engines.length := by
          by_contra hc
          rw [List.getElem?_eq_none (by omega)] at he
          exact Option.noConfusion he
        have hgetD : engines.getD i 0 = e := by
          simp [List.getD_eq_getElem?_getD, he]
        simp only [ucs_mpool_get, hp, he] at h
        by_cases hs : env.hsa_amd_memory_async_copy_on_engine (add64 dst (mul64 i chunk)) da
            (add64 src (mul64 i chunk)) sa (multi_copy_data_size N S chunk i) d.signal
            (unsigned_of_int (uct_rocm_ipc_map_id_to_engine e)) = .HSA_STATUS_SUCCESS
        · rw [if_neg (by simpa using hs)] at h
          obtain ⟨k, m, hkm, hmn, hmp, hcalls, hqueue, hpool, hcfg, hcase⟩ := ih (i + 1) _ r h
          simp only [State.log, ucs_queue_push] at hmp hcalls hqueue hpool hcfg hcase
          refine ⟨k + 1, m + 1, by omega, by omega, by simpa using hmp, ?_, ?_, ?_,
            hcfg, ?_⟩
          · rw [hcalls]
            simp [List.range'_succ, chunk_calls, chunk_copy_call, he]
          · rw [hqueue]
            simp [List.range'_succ, chunk_desc]
          · simpa using hpool
          · rcases hcase with ⟨h1, h2, h3⟩ | ⟨h1, h2, d', e', hd', he', hst⟩
            · exact Or.inl ⟨h1, by omega, by omega⟩
            · have hidx : i + 1 + k = i + (k + 1) := by omega
              rw [hidx] at he' hst
              exact Or.inr ⟨h1, by omega, d', e', by simpa using hd', he', hst⟩
        · rw [if_pos (by simpa using hs)] at h
          simp only [Option.some.injEq] at h
          subst h
          refine ⟨0, 1, by omega, by omega, by simp, ?_, by simp [State.log, ucs_mpool_put], ?_, rfl, ?_⟩
          · simp [State.log, ucs_mpool_put, chunk_calls, chunk_copy_call, he]
          · simp [State.log, ucs_mpool_put]
          · exact Or.inr ⟨hs, rfl, d, e, by simp, by simpa using he, rfl⟩

/-- The chunk loop returns `HSA_STATUS_SUCCESS` when the pool holds a descriptor
for every chunk, the engine array an entry for every chunk, and every issue call
succeeds. -/
theorem multi_copy_loop_succeeds (env : Env) (engines : List Nat) (N S chunk dst : Nat)
    (da : hsa_agent_t) (src : Nat) (sa : hsa_agent_t) (rba : Nat) (comp : uct_completion_ptr) :
    ∀ (n i : Nat) (w : State), n ≤ w.iface.signal_pool.length → i + n ≤ engines.length →
      (∀ t d e, t < n → w.iface.signal_pool[t]? = some d → engines[i + t]? = some e →
        env.hsa_amd_memory_async_copy_on_engine (add64 dst (mul64 (i + t) chunk)) da
          (add64 src (mul64 (i + t) chunk)) sa (multi_copy_data_size N S chunk (i + t))
          d.signal (unsigned_of_int (uct_rocm_ipc_map_id_to_engine e)) = .HSA_STATUS_SUCCESS) →
      ∃ w1, multi_copy_loop env engines N S chunk dst da src sa rba comp n i w =
        some (.HSA_STATUS_SUCCESS, w1) := by
  intro n
  induction n with
  | zero => exact fun i w _ _ _ => ⟨w, rfl⟩
  | succ n ih =>
    intro i w hpool heng hissue
    cases hp : w.iface.signal_pool with
    | nil => rw [hp] at hpool; simp at hpool
    | cons d rest =>
      have hi : i < engines.length := by omega
      have he : engines[i]? = some engines[i] := List.getElem?_eq_getElem hi
      have hs := hissue 0 d engines[i] (by omega) (by simp [hp]) (by simp)
      simp only [Nat.add_zero] at hs
      rw [multi_copy_loop]
      simp only [ucs_mpool_get, hp, he, hs, ne_eq, not_true_eq_false, if_false]
      apply ih (i + 1)
      · simp only [ucs_queue_push, State.log]
        rw [hp] at hpool
        simpa using hpool
      · omega
      · intro t d' e' ht hd' he'
        have hidx : i + 1 + t = i + (t + 1) := by omega
        rw [hidx] at he' ⊢
        apply hissue (t + 1) d' e' (by omega) _ he'
        simp only [ucs_queue_push, State.log] at hd'
        simpa [hp] using hd'

/-- Entry `j` of a list built from the first `k` pool descriptors and their indices. -/
theorem zip_range_map_getElem_opt {β : Type} (pool : List uct_rocm_base_signal_desc_t)
    (f : Nat × uct_rocm_base_signal_desc_t → β) (k j : Nat) (hj : j < k)
    (hk : k ≤ pool.length) :
    ∃ d, pool[j]? = some d ∧
      (((List.range' 0 k).zip (pool.take k)).map f)[j]? = some (f (j, d)) := by
  have hjp : j < pool.length := by omega
  refine ⟨pool[j], List.getElem?_eq_getElem hjp, ?_⟩
  have hlen : j < (((List.range' 0 k).zip (pool.take k)).map f).length := by
    simp; omega
  rw [List.getElem?_eq_getElem hlen]
  simp [List.getElem_zip, List.getElem_range']

/-- Of the two calls of a chunk exactly the second is a hardware copy. -/
theorem copies_flatMap_chunk_calls (N S chunk dst : Nat) (da : hsa_agent_t) (src : Nat)
    (sa : hsa_agent_t) (engines : List Nat)
    (l : List (Nat × uct_rocm_base_signal_desc_t)) :
    (l.flatMap (fun jd => chunk_calls N S chunk dst da src sa jd.1 jd.2
        (engines.getD jd.1 0))).filter ext_call.is_copy =
      l.map (fun jd => chunk_copy_call N S chunk dst da src sa jd.1 jd.2
        (engines.getD jd.1 0)) := by
  induction l with
  | nil => rfl
  | cons x xs ih =>
    rw [List.flatMap_cons, List.filter_append, ih]
    simp [chunk_calls, chunk_copy_call, ext_call.is_copy, List.filter_cons]

/-- Once the engine lookup has found `E > 0` engines and `N` of them are to be
used, `uct_rocm_ipc_async_multi_copy` is the rotation, the allocation of the
signal array and the chunk loop. -/
theorem multi_copy_unfold (env : Env) (w : State) (dst : Nat) (da : hsa_agent_t) (src : Nat)
    (sa : hsa_agent_t) (size rba : Nat) (comp : uct_completion_ptr) (E : Int)
    (engines : List Nat) (N : Nat)
    (hfound : uct_rocm_ipc_get_engines (env.hsa_amd_memory_copy_engine_status da sa).1
      (env.hsa_amd_memory_copy_engine_status da sa).2 env.malloc_temp
      (int_of_unsigned w.iface.config.max_sdma_engines) = (E, some engines))
    (hE : 0 < E)
    (hN : multi_copy_num_engines E w.iface.config.max_sdma_engines size
      w.iface.config.multi_sdma_thresh = some (N : Int)) :
    uct_rocm_ipc_async_multi_copy env w dst da src sa size rba comp =
      match uct_rocm_ipc_select_engines env.uct_rocm_base_get_gpu_agents env.malloc_dtemp
          E.toNat engines N da sa with
      | none => none
      | some rotated =>
        if ¬ env.malloc_signals then
          some (.HSA_STATUS_ERROR, w.log (.copy_engine_status da sa))
        else
          multi_copy_loop env rotated N size (ucs_align_up_pow2 (size / N) env.ucs_get_page_size)
            dst da src sa rba comp N 0 (w.log (.copy_engine_status da sa)) := by
  have hE' : ¬ E ≤ 0 := by omega
  simp only [uct_rocm_ipc_async_multi_copy, State.log, hfound, hE', if_false, hN, Int.toNat_ofNat]

/-- The aligned value is a multiple of the alignment. -/
theorem ucs_align_up_pow2_dvd (n P : Nat) : P ∣ ucs_align_up_pow2 n P := by
  unfold ucs_align_up_pow2
  exact Nat.dvd_sub_mod _

/-- Aligning up does not decrease a value, unless the sum wraps around. -/
theorem ucs_align_up_pow2_ge (n P : Nat) (hP : 0 < P) (h : n + (P - 1) < 2 ^ 64) :
    n ≤ ucs_align_up_pow2 n P := by
  unfold ucs_align_up_pow2 SIZE_MOD
  simp only []
  rw [Nat.mod_eq_of_lt h]
  have := Nat.mod_lt (n + (P - 1)) hP
  omega

/-- A call of `uct_rocm_ipc_ep_zcopy` whose steps before the dispatch all succeed
is the dispatch, with the calls of these steps logged. -/
theorem zcopy_of_validated (env : Env) (w : State) (remote_addr : Nat) (iov : uct_iov_t)
    (key : uct_rocm_ipc_key_t) (comp : uct_completion_ptr) (is_put : Int) (size : Nat)
    (local_agent : hsa_agent_t) (remote_base_addr remote_copy_addr : Nat)
    (remote_agent : hsa_agent_t)
    (hv : zcopy_validated env remote_addr iov key size local_agent remote_base_addr
      remote_copy_addr remote_agent) :
    uct_rocm_ipc_ep_zcopy env w remote_addr iov key comp is_put =
      zcopy_dispatch env
        { w with calls := w.calls ++ zcopy_validation_calls env iov key size remote_copy_addr }
        iov.buffer local_agent remote_copy_addr remote_agent size remote_base_addr comp
        is_put := by
  obtain ⟨hsize, hnz, hlow, hhigh, hlok, hlty, hlag, hmap, hca, hrok, hrty, hgrant, hrag⟩ := hv
  have hs : env.uct_iov_get_length iov % SIZE_MOD = size := by simpa [SIZE_MOD] using hsize
  have hr : ¬ zcopy_out_of_range remote_addr size key := by
    simp only [zcopy_out_of_range, add64, SIZE_MOD, not_or, not_lt]
    exact ⟨hlow, hhigh⟩
  subst hca hlag
  by_cases h0 : (env.uct_rocm_base_get_ptr_info
      (add64 remote_base_addr (sub64 remote_addr key.address)) size).agent = 0
  · simp only [h0, if_true] at hrag
    subst hrag
    simp [uct_rocm_ipc_ep_zcopy, hs, hnz, hr, hlok, hlty, hmap, hrok, hrty, h0, State.log,
      zcopy_validation_calls]
  · simp only [h0, if_false] at hrag
    subst hrag
    simp [uct_rocm_ipc_ep_zcopy, hs, hnz, hr, hlok, hlty, hmap, hrok, hrty, h0, State.log,
      zcopy_validation_calls, hgrant h0]

/-! ## Chunk sizes, chunk offsets and queued descriptors -/

/-- C5: the byte counts of the chunks do not always sum to the transfer size. With
a threshold of `4096`, at most three engines, three engines available and a page
size of `4096`, a get of `S = 12291` bytes uses `N = 3` engines and
`chunk_size = 8192` (`S / N = 4097` rounded up to a page multiple). The code
issues copies of `8192`, `8192` and `2 ^ 64 - 4093` bytes: `2 * chunk_size`
exceeds `S`, so the `size_t` difference `S - 2 * chunk_size` of the last chunk
wraps around, and the three byte counts do not sum to `S`. -/
theorem multi_copy_last_chunk_wraps :
    (uct_rocm_ipc_ep_zcopy demo_env demo_state_multi 0x1000 ⟨0x9000, 12291, 1⟩ demo_key_large
        (some 42) 0).map (fun r => (r.1, r.2.copies)) =
      some (.UCS_INPROGRESS,
        [.memory_async_copy_on_engine 0x9000 7 0x70000000 7 8192 100 1,
         .memory_async_copy_on_engine (0x9000 + 8192) 7 (0x70000000 + 8192) 7 8192 101 2,
         .memory_async_copy_on_engine (0x9000 + 2 * 8192) 7 (0x70000000 + 2 * 8192) 7
           (2 ^ 64 - 4093) 102 4]) ∧
    multi_copy_num_engines 3 3 12291 4096 = some 3 ∧
    ucs_align_up_pow2 (12291 / 3) 4096 = 8192 ∧
    multi_copy_data_size 3 12291 8192 2 = 2 ^ 64 - 4093 ∧
    12291 < 2 * 8192 ∧
    8192 + 8192 + (2 ^ 64 - 4093) ≠ 12291 := by
  decide

/-- C6: in `uct_rocm_ipc_async_multi_copy`, with `N` engines used and
`chunk_size = S / N` rounded up to the page size, the copies issued by a call
that returns (whether all chunks were issued or an issue call failed on the way)
are the chunks `0, 1, ...` in this order, all `N` of them when the call succeeds;
chunk `j` is issued at destination offset `j * chunk_size` and source offset
`j * chunk_size` (`size_t` arithmetic), every chunk other than the last has the
size `chunk_size`, and if there is such a chunk (`N >= 2`) then `chunk_size` is a
multiple of the page size and at least `floor(S / N)`. -/
theorem multi_copy_chunk_layout (env : Env) (w : State) (dst_addr : Nat)
    (dst_agent : hsa_agent_t) (src_addr : Nat) (src_agent : hsa_agent_t)
    (size remote_base_addr : Nat) (comp : uct_completion_ptr) (E : Int) (engines : List Nat)
    (N a chunk_size : Nat) (r : hsa_status_t × State)
    (hsize : size < 2 ^ 64)
    (hfound : uct_rocm_ipc_get_engines
      (env.hsa_amd_memory_copy_engine_status dst_agent src_agent).1
      (env.hsa_amd_memory_copy_engine_status dst_agent src_agent).2 env.malloc_temp
      (int_of_unsigned w.iface.config.max_sdma_engines) = (E, some engines))
    (hE : 0 < E)
    (hN : multi_copy_num_engines E w.iface.config.max_sdma_engines size
      w.iface.config.multi_sdma_thresh = some (N : Int))
    (hpage : env.ucs_get_page_size = 2 ^ a) (ha : a < 64)
    (hchunk : chunk_size = ucs_align_up_pow2 (size / N) env.ucs_get_page_size)
    (hr : uct_rocm_ipc_async_multi_copy env w dst_addr dst_agent src_addr src_agent size
      remote_base_addr comp = some r) :
    ∃ L, r.2.copies = w.copies ++ L ∧ L.length ≤ N ∧
      (r.1 = .HSA_STATUS_SUCCESS → L.length = N) ∧
      (∀ j, j < L.length → ∃ signal engine_id, L[j]? = some
        (.memory_async_copy_on_engine ((dst_addr + j * chunk_size % 2 ^ 64) % 2 ^ 64) dst_agent
          ((src_addr + j * chunk_size % 2 ^ 64) % 2 ^ 64) src_agent
          (if j = N - 1 then sub64 size (mul64 j chunk_size) else chunk_size)
          signal engine_id)) ∧
      (2 ≤ N → env.ucs_get_page_size ∣ chunk_size ∧ size / N ≤ chunk_size) := by
  have halign : 2 ≤ N → env.ucs_get_page_size ∣ chunk_size ∧ size / N ≤ chunk_size := by
    intro h2
    rw [hchunk]
    refine ⟨ucs_align_up_pow2_dvd _ _, ucs_align_up_pow2_ge _ _ (by rw [hpage]; positivity) ?_⟩
    have h1 : size / N ≤ size / 2 := Nat.div_le_div_left h2 (by decide)
    have h3 : (2 : Nat) ^ a ≤ 2 ^ 63 := Nat.pow_le_pow_right (by decide) (by omega)
    have h4 : 0 < (2 : Nat) ^ a := by positivity
    rw [hpage]
    omega
  rw [multi_copy_unfold env w dst_addr dst_agent src_addr src_agent size remote_base_addr comp
    E engines N hfound hE hN] at hr
  cases hsel : uct_rocm_ipc_select_engines env.uct_rocm_base_get_gpu_agents env.malloc_dtemp
      E.toNat engines N dst_agent src_agent with
  | none => simp [hsel] at hr
  | some rotated =>
    simp only [hsel] at hr
    by_cases hsig : env.malloc_signals = true
    · simp only [hsig, not_true_eq_false, if_false, ← hchunk] at hr
      obtain ⟨k, m, hkm, hmn, hmp, hcalls, _, _, _, hcase⟩ :=
        multi_copy_loop_spec env rotated N size chunk_size dst_addr dst_agent src_addr src_agent
          remote_base_addr comp N 0 _ _ hr
      simp only [State.log] at hmp hcalls
      refine ⟨((List.range' 0 m).zip (w.iface.signal_pool.take m)).map
        (fun jd => chunk_copy_call N size chunk_size dst_addr dst_agent src_addr src_agent
          jd.1 jd.2 (rotated.getD jd.1 0)), ?_, ?_, ?_, ?_, halign⟩
      · unfold State.copies
        rw [hcalls]
        simp only [List.filter_append, copies_flatMap_chunk_calls]
        simp [ext_call.is_copy]
      · simp; omega
      · intro hs
        rcases hcase with ⟨_, h2, h3⟩ | ⟨h1, _⟩
        · simp; omega
        · exact absurd hs h1
      · intro j hj
        have hjm : j < m := by
          simp at hj; omega
        obtain ⟨d, _, hget⟩ := zip_range_map_getElem_opt w.iface.signal_pool
          (fun jd => chunk_copy_call N size chunk_size dst_addr dst_agent src_addr src_agent
            jd.1 jd.2 (rotated.getD jd.1 0)) m j hjm hmp
        refine ⟨d.signal, unsigned_of_int (uct_rocm_ipc_map_id_to_engine (rotated.getD j 0)), ?_⟩
        rw [hget]
        simp [chunk_copy_call, add64, mul64, SIZE_MOD, multi_copy_data_size]
    · have hsig' : env.malloc_signals = false := by simpa using hsig
      simp only [hsig', Bool.false_eq_true, not_false_eq_true, if_true, Option.some.injEq] at hr
      subst hr
      refine ⟨[], ?_, by simp, ?_, ?_, halign⟩
      · simp [State.copies, State.log, ext_call.is_copy]
      · intro h; exact absurd h (by simp)
      · intro j hj; simp at hj

/-- C6 at a put of `8194` bytes with threshold `4096`: two chunks, the first of
`8192` bytes at offset `0`, the second at offset `8192`. -/
theorem multi_copy_chunk_layout_witness :
    ∃ L, (demo_state_multi.log (.copy_engine_status 7 7)
          |>.log (.signal_store 100 1)
          |>.log (.memory_async_copy_on_engine 0x70000000 7 0x9000 7 8192 100 4)
          |>.log (.signal_store 101 1)
          |>.log (.memory_async_copy_on_engine 0x70002000 7 0xb000 7 2 101 1)).copies =
        demo_state_multi.copies ++ L ∧ L.length ≤ 2 ∧
      (hsa_status_t.HSA_STATUS_SUCCESS = .HSA_STATUS_SUCCESS → L.length = 2) ∧
      (∀ j, j < L.length → ∃ signal engine_id, L[j]? = some
        (.memory_async_copy_on_engine ((0x70000000 + j * 8192 % 2 ^ 64) % 2 ^ 64) 7
          ((0x9000 + j * 8192 % 2 ^ 64) % 2 ^ 64) 7
          (if j = 2 - 1 then sub64 8194 (mul64 j 8192) else 8192)
          signal engine_id)) ∧
      (2 ≤ 2 → demo_env.ucs_get_page_size ∣ 8192 ∧ 8194 / 2 ≤ 8192) :=
  multi_copy_chunk_layout demo_env demo_state_multi 0x70000000 7 0x9000 7 8194 0x70000000
    (some 42) 3 [0, 1, 2] 2 12 8192
    (.HSA_STATUS_SUCCESS,
      { iface :=
          { signal_pool := [⟨102, none, 0⟩, ⟨103, none, 0⟩],
            signal_queue := [⟨99, some 1, 0x50000000⟩, ⟨100, none, 0x70000000⟩,
              ⟨101, some 42, 0x70000000⟩],
            config := demo_state_multi.iface.config },
        calls := [.copy_engine_status 7 7, .signal_store 100 1,
          .memory_async_copy_on_engine 0x70000000 7 0x9000 7 8192 100 4,
          .signal_store 101 1,
          .memory_async_copy_on_engine 0x70002000 7 0xb000 7 2 101 1] })
    (by decide) (by decide) (by decide) (by decide) (by decide) (by decide) (by decide)
    (by decide)

/-- C7: in multi-engine mode, when a validated call of `uct_rocm_ipc_ep_zcopy`
finds `E > 0` engines, uses `N` of them, is handed a descriptor of the pool for
each chunk and all `N` chunk copies are issued successfully, it returns
`UCS_INPROGRESS`, and exactly `N` descriptors are appended to the tail of the
signal queue, after all entries queued before and in chunk order: position
`old length + j` holds the `j`-th descriptor of the pool, with a null completion
handle for `j < N - 1`, the completion handle of the caller for `j = N - 1`, and
the mapped remote base address in every one of them. -/
theorem zcopy_multi_engine_appends_chunks (env : Env) (w : State) (remote_addr : Nat)
    (iov : uct_iov_t) (key : uct_rocm_ipc_key_t) (comp : uct_completion_ptr) (is_put : Int)
    (size : Nat) (local_agent : hsa_agent_t) (remote_base_addr remote_copy_addr : Nat)
    (remote_agent : hsa_agent_t)
    (hv : zcopy_validated env remote_addr iov key size local_agent remote_base_addr
      remote_copy_addr remote_agent)
    (hmulti : w.iface.config.copy_on_engine ≠ 0 ∧ w.iface.config.enable_multi_sdma ≠ 0)
    (dst_addr : Nat) (dst_agent : hsa_agent_t) (src_addr : Nat) (src_agent : hsa_agent_t)
    (hdst_addr : dst_addr = if is_put ≠ 0 then remote_copy_addr else iov.buffer)
    (hdst_agent : dst_agent = if is_put ≠ 0 then remote_agent else local_agent)
    (hsrc_addr : src_addr = if is_put ≠ 0 then iov.buffer else remote_copy_addr)
    (hsrc_agent : src_agent = if is_put ≠ 0 then local_agent else remote_agent)
    (E : Int) (engines : List Nat)
    (hfound : uct_rocm_ipc_get_engines
      (env.hsa_amd_memory_copy_engine_status dst_agent src_agent).1
      (env.hsa_amd_memory_copy_engine_status dst_agent src_agent).2 env.malloc_temp
      (int_of_unsigned w.iface.config.max_sdma_engines) = (E, some engines))
    (hE : 0 < E) (N : Nat)
    (hN : multi_copy_num_engines E w.iface.config.max_sdma_engines size
      w.iface.config.multi_sdma_thresh = some (N : Int))
    (rotated : List Nat)
    (hsel : uct_rocm_ipc_select_engines env.uct_rocm_base_get_gpu_agents env.malloc_dtemp
      E.toNat engines N dst_agent src_agent = some rotated)
    (hsig : env.malloc_signals = true)
    (hpool : N ≤ w.iface.signal_pool.length)
    (chunk_size : Nat)
    (hchunk : chunk_size = ucs_align_up_pow2 (size / N) env.ucs_get_page_size)
    (hissue : ∀ j d e, j < N → w.iface.signal_pool[j]? = some d → rotated[j]? = some e →
      env.hsa_amd_memory_async_copy_on_engine (add64 dst_addr (mul64 j chunk_size)) dst_agent
        (add64 src_addr (mul64 j chunk_size)) src_agent
        (multi_copy_data_size N size chunk_size j) d.signal
        (unsigned_of_int (uct_rocm_ipc_map_id_to_engine e)) = .HSA_STATUS_SUCCESS) :
    ∃ w1, uct_rocm_ipc_ep_zcopy env w remote_addr iov key comp is_put =
        some (.UCS_INPROGRESS, w1) ∧
      w1.iface.signal_queue.length = w.iface.signal_queue.length + N ∧
      (∀ j, j < w.iface.signal_queue.length →
        w1.iface.signal_queue[j]? = w.iface.signal_queue[j]?) ∧
      (∀ j, j < N → ∃ d, w.iface.signal_pool[j]? = some d ∧
        w1.iface.signal_queue[w.iface.signal_queue.length + j]? =
          some { d with comp := if j = N - 1 then comp else none,
                        mapped_addr := remote_base_addr }) ∧
      w1.iface.signal_pool = w.iface.signal_pool.drop N := by
  obtain ⟨hlenE, hE32⟩ := get_engines_some _ _ _ _ _ _ hfound
  have hEn : E.toNat = engines.length := by omega
  have hNE := multi_copy_num_engines_bounds E _ _ _ _ hE hE32 hN
  rw [hEn] at hsel
  have hrot : rotated.length = engines.length :=
    select_engines_length _ _ _ _ _ _ _ (by omega) hsel
  rw [← hEn] at hsel
  have hw0 : ∀ c : List ext_call, ({ w with calls := c } : State).iface = w.iface := fun _ => rfl
  obtain ⟨w1, hw1⟩ := multi_copy_loop_succeeds env rotated N size chunk_size dst_addr dst_agent
    src_addr src_agent remote_base_addr comp N 0
    (({ w with calls := w.calls ++ zcopy_validation_calls env iov key size remote_copy_addr }
      : State).log (.copy_engine_status dst_agent src_agent))
    (by simpa [State.log] using hpool) (by omega)
    (by
      intro t d e ht hd he
      simp only [Nat.zero_add] at he ⊢
      exact hissue t d e ht (by simpa [State.log] using hd) he)
  obtain ⟨k, m, hkm, hmn, hmp, hcalls, hqueue, hpool1, hcfg, hcase⟩ :=
    multi_copy_loop_spec env rotated N size chunk_size dst_addr dst_agent src_addr src_agent
      remote_base_addr comp N 0 _ _ hw1
  have hk : k = N := by
    rcases hcase with ⟨_, h2, h3⟩ | ⟨h1, _⟩
    · omega
    · exact absurd rfl h1
  rw [hk] at hqueue hpool1
  simp only [State.log] at hqueue hpool1
  refine ⟨w1, ?_, ?_, ?_, ?_, hpool1⟩
  · rw [zcopy_of_validated env w remote_addr iov key comp is_put size local_agent
      remote_base_addr remote_copy_addr remote_agent hv]
    have hm : ({ w with calls := w.calls ++
        zcopy_validation_calls env iov key size remote_copy_addr } : State).iface.config
        = w.iface.config := rfl
    unfold zcopy_dispatch
    simp only [hm, hmulti, ne_eq, not_false_eq_true, and_self, if_true]
    rw [← hdst_addr, ← hdst_agent, ← hsrc_addr, ← hsrc_agent]
    rw [multi_copy_unfold env
      { w with calls := w.calls ++ zcopy_validation_calls env iov key size remote_copy_addr }
      dst_addr dst_agent src_addr src_agent size remote_base_addr comp E engines N hfound hE hN]
    simp only [hsel, hsig, not_true_eq_false, if_false, ← hchunk, hw1]
  · rw [hqueue]
    simp [hpool]
  · intro j hj
    rw [hqueue, List.getElem?_append_left hj]
  · intro j hj
    obtain ⟨d, hd, hget⟩ := zip_range_map_getElem_opt w.iface.signal_pool
      (fun jd => chunk_desc N remote_base_addr comp jd.1 jd.2) N j hj hpool
    refine ⟨d, hd, ?_⟩
    rw [hqueue, List.getElem?_append_right (by omega)]
    simpa [chunk_desc] using hget

/-- C7 at a put of `8194` bytes with threshold `4096`: two descriptors are
appended, the second one carrying the handle `42`. -/
theorem zcopy_multi_engine_appends_chunks_witness :
    ∃ w1, uct_rocm_ipc_ep_zcopy demo_env demo_state_multi 0x1000 ⟨0x9000, 8194, 1⟩
        demo_key_large (some 42) 1 = some (.UCS_INPROGRESS, w1) ∧
      w1.iface.signal_queue.length = demo_state_multi.iface.signal_queue.length + 2 ∧
      (∀ j, j < demo_state_multi.iface.signal_queue.length →
        w1.iface.signal_queue[j]? = demo_state_multi.iface.signal_queue[j]?) ∧
      (∀ j, j < 2 → ∃ d, demo_state_multi.iface.signal_pool[j]? = some d ∧
        w1.iface.signal_queue[demo_state_multi.iface.signal_queue.length + j]? =
          some { d with comp := if j = 2 - 1 then some 42 else none,
                        mapped_addr := 0x70000000 }) ∧
      w1.iface.signal_pool = demo_state_multi.iface.signal_pool.drop 2 :=
  zcopy_multi_engine_appends_chunks demo_env demo_state_multi 0x1000 ⟨0x9000, 8194, 1⟩
    demo_key_large (some 42) 1 8194 7 0x70000000 0x70000000 7
    ⟨by decide, by decide, by decide, by decide, by decide, by decide, by decide, by decide,
      by decide, by decide, by decide, by decide, by decide⟩
    (by decide) 0x70000000 7 0x9000 7 (by decide) (by decide) (by decide) (by decide)
    3 [0, 1, 2] (by decide) (by decide) 2 (by decide) [2, 0, 1] (by decide) rfl (by decide)
    8192 (by decide) (fun _ _ _ _ _ _ => rfl)

/-! ## Flush and query of the rocm_copy interface -/

/-- C11: `uct_rocm_copy_iface_flush` returns `UCS_ERR_UNSUPPORTED` whenever the
completion token is non-null, whatever the queue holds; with a null token it
returns `UCS_OK` if and only if the signal queue is empty and `UCS_INPROGRESS` if
and only if it is non-empty; in every case the interface, and with it the signal
queue, is left unchanged. -/
theorem copy_iface_flush_status (iface : uct_rocm_copy_iface_t) (flags : Nat)
    (comp : uct_completion_ptr) :
    (comp ≠ none → (uct_rocm_copy_iface_flush iface flags comp).1 = .UCS_ERR_UNSUPPORTED) ∧
    (comp = none →
      ((uct_rocm_copy_iface_flush iface flags comp).1 = .UCS_OK ↔ iface.signal_queue = []) ∧
      ((uct_rocm_copy_iface_flush iface flags comp).1 = .UCS_INPROGRESS ↔
        iface.signal_queue ≠ [])) ∧
    (uct_rocm_copy_iface_flush iface flags comp).2 = iface ∧
    (uct_rocm_copy_iface_flush iface flags comp).2.signal_queue = iface.signal_queue := by
  unfold uct_rocm_copy_iface_flush
  by_cases hc : comp = none
  · by_cases hq : iface.signal_queue = [] <;> simp [hc, hq]
  · simp [hc]

/-- C19: the dedicated bandwidth that `uct_rocm_copy_iface_query` reports is not
the configured one. The constructor copies the configured bandwidth (`BW`) into
`config.dedicated_bandwidth`, so for the record with `BW = 6911` and
`DBW = 12000` the query reports `bandwidth.dedicated = 6911`; the shared
bandwidth and the latency are reported as configured. -/
theorem copy_iface_query_dedicated_bandwidth :
    ∃ iface, uct_rocm_copy_iface_t_init .UCS_OK 17 (.UCS_OK, demo_pool) (.UCS_OK, 3)
        demo_copy_config = (.UCS_OK, some iface) ∧
      demo_copy_config.dedicated_bandwidth = 12000 ∧
      demo_copy_config.bandwidth = 6911 ∧
      (uct_rocm_copy_iface_query iface).2.bandwidth_dedicated = 6911 ∧
      (uct_rocm_copy_iface_query iface).2.bandwidth_dedicated ≠
        demo_copy_config.dedicated_bandwidth ∧
      (uct_rocm_copy_iface_query iface).2.bandwidth_shared = demo_copy_config.bandwidth ∧
      (uct_rocm_copy_iface_query iface).2.latency =
        { c := demo_copy_config.latency, m := 0 } := by
  refine ⟨_, rfl, rfl, rfl, rfl, ?_, rfl, rfl⟩
  decide

/-! ## Failures of the single-engine path -/

/-- The dispatch is the issue of the copy with the endpoints assigned by direction. -/
theorem zcopy_dispatch_eq_issue (env : Env) (w : State) (local_addr : Nat)
    (local_agent : hsa_agent_t) (remote_copy_addr : Nat) (remote_agent : hsa_agent_t)
    (size remote_base_addr : Nat) (comp : uct_completion_ptr) (is_put : Int) :
    zcopy_dispatch env w local_addr local_agent remote_copy_addr remote_agent size
        remote_base_addr comp is_put =
      zcopy_issue env w (if is_put ≠ 0 then remote_copy_addr else local_addr)
        (if is_put ≠ 0 then remote_agent else local_agent)
        (if is_put ≠ 0 then local_addr else remote_copy_addr)
        (if is_put ≠ 0 then local_agent else remote_agent) size remote_base_addr comp := rfl

/-- What `uct_rocm_ipc_async_copy` does when the pool hands out the descriptor
`d`: it arms the signal, issues the copy and returns the status of the issue
call; on success `d` is queued, on failure the interface is as before. -/
theorem async_copy_outcome (env : Env) (w : State) (dst_addr : Nat) (dst_agent : hsa_agent_t)
    (src_addr : Nat) (src_agent : hsa_agent_t) (size remote_base_addr : Nat)
    (comp : uct_completion_ptr) (d : uct_rocm_base_signal_desc_t)
    (pool : List uct_rocm_base_signal_desc_t) (hpool : w.iface.signal_pool = d :: pool) :
    uct_rocm_ipc_async_copy env w dst_addr dst_agent src_addr src_agent size remote_base_addr
        comp =
      some (env.hsa_amd_memory_async_copy dst_addr dst_agent src_addr src_agent size d.signal,
        { iface :=
            if env.hsa_amd_memory_async_copy dst_addr dst_agent src_addr src_agent size
                d.signal = .HSA_STATUS_SUCCESS then
              { signal_pool := pool,
                signal_queue := w.iface.signal_queue ++
                  [{ d with comp := comp, mapped_addr := remote_base_addr }],
                config := w.iface.config }
            else w.iface,
          calls := w.calls ++ [.signal_store d.signal 1,
            .memory_async_copy dst_addr dst_agent src_addr src_agent size d.signal] }) := by
  obtain ⟨⟨wpool, wqueue, wconfig⟩, wcalls⟩ := w
  simp only at hpool
  subst hpool
  by_cases hs : env.hsa_amd_memory_async_copy dst_addr dst_agent src_addr src_agent size
      d.signal = .HSA_STATUS_SUCCESS
  · simp [uct_rocm_ipc_async_copy, ucs_mpool_get, hs, State.log, ucs_queue_push]
  · simp [uct_rocm_ipc_async_copy, ucs_mpool_get, hs, State.log, ucs_mpool_put]

/-- C12: in the single-engine path, if the device copy issue call fails after all
validation has passed, `uct_rocm_ipc_ep_zcopy` returns `UCS_ERR_IO_ERROR`; the
descriptor `d` taken from the signal pool is back in the pool (the pool is the
pool before, `d` first and untouched), the signal queue is the queue before, so
nothing was appended and no queued descriptor was given the completion handle of
the caller; the log shows the one attempted copy. -/
theorem zcopy_single_engine_issue_failure (env : Env) (w : State) (remote_addr : Nat)
    (iov : uct_iov_t) (key : uct_rocm_ipc_key_t) (comp : uct_completion_ptr) (is_put : Int)
    (size : Nat) (local_agent : hsa_agent_t) (remote_base_addr remote_copy_addr : Nat)
    (remote_agent : hsa_agent_t)
    (hv : zcopy_validated env remote_addr iov key size local_agent remote_base_addr
      remote_copy_addr remote_agent)
    (hsingle : w.iface.config.copy_on_engine = 0 ∨ w.iface.config.enable_multi_sdma = 0)
    (d : uct_rocm_base_signal_desc_t) (pool : List uct_rocm_base_signal_desc_t)
    (hpool : w.iface.signal_pool = d :: pool)
    (hissue : env.hsa_amd_memory_async_copy
        (if is_put ≠ 0 then remote_copy_addr else iov.buffer)
        (if is_put ≠ 0 then remote_agent else local_agent)
        (if is_put ≠ 0 then iov.buffer else remote_copy_addr)
        (if is_put ≠ 0 then local_agent else remote_agent) size d.signal
      ≠ .HSA_STATUS_SUCCESS) :
    ∃ w1, uct_rocm_ipc_ep_zcopy env w remote_addr iov key comp is_put =
        some (.UCS_ERR_IO_ERROR, w1) ∧
      w1.iface.signal_pool = d :: pool ∧
      w1.iface.signal_pool = w.iface.signal_pool ∧
      w1.iface.signal_queue = w.iface.signal_queue ∧
      w1.copies = w.copies ++ [.memory_async_copy
        (if is_put ≠ 0 then remote_copy_addr else iov.buffer)
        (if is_put ≠ 0 then remote_agent else local_agent)
        (if is_put ≠ 0 then iov.buffer else remote_copy_addr)
        (if is_put ≠ 0 then local_agent else remote_agent) size d.signal] := by
  have hcfg : ¬ (w.iface.config.copy_on_engine ≠ 0 ∧ w.iface.config.enable_multi_sdma ≠ 0) := by
    rcases hsingle with h | h <;> simp [h]
  have hcalls : zcopy_validation_calls env iov key size remote_copy_addr =
      (zcopy_validation_calls env iov key size remote_copy_addr).filter
        (fun c => !c.is_copy) := by
    unfold zcopy_validation_calls
    split_ifs <;> simp [ext_call.is_copy]
  rw [zcopy_of_validated env w remote_addr iov key comp is_put size local_agent
    remote_base_addr remote_copy_addr remote_agent hv, zcopy_dispatch_eq_issue]
  unfold zcopy_issue
  simp only [hcfg, if_false]
  rw [async_copy_outcome env
    { w with calls := w.calls ++ zcopy_validation_calls env iov key size remote_copy_addr }
    _ _ _ _ size remote_base_addr comp d pool hpool]
  simp only [hissue, ne_eq, not_false_eq_true, if_true, if_false]
  refine ⟨_, rfl, hpool, rfl, rfl, ?_⟩
  simp only [State.copies, List.filter_append]
  rw [hcalls]
  simp [ext_call.is_copy, List.filter_filter]

/-- C12 at a get of `4096` bytes on a device that refuses the copy. -/
theorem zcopy_single_engine_issue_failure_witness :
    ∃ w1, uct_rocm_ipc_ep_zcopy demo_env_copy_fails demo_state_single 0x1000
        ⟨0x9000, 4096, 1⟩ demo_key (some 42) 0 = some (.UCS_ERR_IO_ERROR, w1) ∧
      w1.iface.signal_pool = ⟨100, none, 0⟩ :: [⟨101, none, 0⟩, ⟨102, none, 0⟩, ⟨103, none, 0⟩] ∧
      w1.iface.signal_pool = demo_state_single.iface.signal_pool ∧
      w1.iface.signal_queue = demo_state_single.iface.signal_queue ∧
      w1.copies = demo_state_single.copies ++ [.memory_async_copy
        (if (0 : Int) ≠ 0 then 0x70000000 else (⟨0x9000, 4096, 1⟩ : uct_iov_t).buffer)
        (if (0 : Int) ≠ 0 then 7 else 7)
        (if (0 : Int) ≠ 0 then (⟨0x9000, 4096, 1⟩ : uct_iov_t).buffer else 0x70000000)
        (if (0 : Int) ≠ 0 then 7 else 7) 4096 (⟨100, none, 0⟩ : uct_rocm_base_signal_desc_t).signal] :=
  zcopy_single_engine_issue_failure demo_env_copy_fails demo_state_single 0x1000
    ⟨0x9000, 4096, 1⟩ demo_key (some 42) 0 4096 7 0x70000000 0x70000000 7
    ⟨by decide, by decide, by decide, by decide, by decide, by decide, by decide, by decide,
      by decide, by decide, by decide, by decide, by decide⟩
    (by decide) ⟨100, none, 0⟩ [⟨101, none, 0⟩, ⟨102, none, 0⟩, ⟨103, none, 0⟩] rfl (by decide)

/-- C13: when the signal pool cannot supply a descriptor, the single-engine copy
does not report an error. `uct_rocm_ipc_async_copy` has no test of the pointer
that `ucs_mpool_get` returns and reads the signal of the descriptor at once, so
with an exhausted pool the call has no defined result (`none`), and neither has
the `uct_rocm_ipc_ep_zcopy` call that dispatches it, in single-engine or in
multi-engine mode. -/
theorem async_copy_exhausted_pool :
    demo_state_exhausted.iface.signal_pool = [] ∧
    ucs_mpool_get demo_state_exhausted.iface = none ∧
    uct_rocm_ipc_async_copy demo_env demo_state_exhausted 0x9000 7 0x70000000 7 4096
      0x70000000 (some 42) = none ∧
    uct_rocm_ipc_ep_zcopy demo_env demo_state_exhausted 0x1000 ⟨0x9000, 4096, 1⟩ demo_key
      (some 42) 0 = none ∧
    uct_rocm_ipc_ep_zcopy demo_env demo_state_exhausted 0x1000 ⟨0x9000, 4096, 1⟩ demo_key
      (some 42) 0 ≠ some (.UCS_ERR_IO_ERROR, demo_state_exhausted) ∧
    uct_rocm_ipc_async_multi_copy demo_env
      { demo_state_multi with iface := { demo_state_multi.iface with signal_pool := [] } }
      0x9000 7 0x70000000 7 4096 0x70000000 (some 42) = none := by
  decide

/-! ## Errors of the steps before the dispatch -/

/-- Logging a call that is not a hardware copy leaves the list of copies as it is. -/
theorem copies_log_of_not_copy (w : State) (c : ext_call) (hc : c.is_copy = false) :
    (w.log c).copies = w.copies := by
  simp [State.copies, State.log, List.filter_append, hc]

/-- C14: whenever a step of `uct_rocm_ipc_ep_zcopy` before the dispatch fails (the
range check, the classification of the local buffer, the mapping of the key, the
classification of the mapped remote pointer, or the access grant requested for
a non-null remote agent), the call returns the error of a step of this kind
(`UCS_ERR_INVALID_PARAM`, `UCS_ERR_INVALID_ADDR`, or the status of the mapping),
no hardware copy has been issued, no descriptor has left the signal pool, and
the signal queue, like the whole interface, is as before the call. -/
theorem zcopy_validation_error_keeps_state (env : Env) (w : State) (remote_addr : Nat)
    (iov : uct_iov_t) (key : uct_rocm_ipc_key_t) (comp : uct_completion_ptr) (is_put : Int)
    (size : Nat) (hsize : env.uct_iov_get_length iov % 2 ^ 64 = size) (hnz : size ≠ 0)
    (loc : ptr_info_t) (hloc : env.uct_rocm_base_get_ptr_info iov.buffer size = loc)
    (mapped : ucs_status_t × Nat) (hmap : env.uct_rocm_ipc_cache_map_memhandle key = mapped)
    (rem : ptr_info_t)
    (hrem : env.uct_rocm_base_get_ptr_info
      (add64 mapped.2 (sub64 remote_addr key.address)) size = rem)
    (hfail :
      (remote_addr < key.address ∨
        (remote_addr + size) % 2 ^ 64 > (key.address + key.length) % 2 ^ 64) ∨
      (loc.status ≠ .HSA_STATUS_SUCCESS ∨ loc.mem_type = .HSA_EXT_POINTER_TYPE_UNKNOWN) ∨
      mapped.1 ≠ .UCS_OK ∨
      (rem.status ≠ .HSA_STATUS_SUCCESS ∨ rem.mem_type = .HSA_EXT_POINTER_TYPE_UNKNOWN) ∨
      (rem.agent ≠ 0 ∧
        env.hsa_amd_agents_allow_access env.uct_rocm_base_get_gpu_agents loc.base_ptr ≠
          .HSA_STATUS_SUCCESS)) :
    ∃ st w1, uct_rocm_ipc_ep_zcopy env w remote_addr iov key comp is_put = some (st, w1) ∧
      (st = .UCS_ERR_INVALID_PARAM ∨ st = .UCS_ERR_INVALID_ADDR ∨
        (st = mapped.1 ∧ mapped.1 ≠ .UCS_OK)) ∧
      w1.copies = w.copies ∧
      w1.iface.signal_pool = w.iface.signal_pool ∧
      w1.iface.signal_queue = w.iface.signal_queue ∧
      w1.iface = w.iface := by
  have hs : env.uct_iov_get_length iov % SIZE_MOD = size := by simpa [SIZE_MOD] using hsize
  subst hloc hmap hrem
  by_cases h1 : zcopy_out_of_range remote_addr size key
  · exact ⟨.UCS_ERR_INVALID_PARAM, w, by simp [uct_rocm_ipc_ep_zcopy, hs, hnz, h1],
      Or.inl rfl, rfl, rfl, rfl, rfl⟩
  by_cases h2 : (env.uct_rocm_base_get_ptr_info iov.buffer size).status ≠ .HSA_STATUS_SUCCESS ∨
      (env.uct_rocm_base_get_ptr_info iov.buffer size).mem_type = .HSA_EXT_POINTER_TYPE_UNKNOWN
  · refine ⟨.UCS_ERR_INVALID_ADDR, w.log (.get_ptr_info iov.buffer size), ?_,
      Or.inr (Or.inl rfl), copies_log_of_not_copy _ _ rfl, rfl, rfl, rfl⟩
    simp only [uct_rocm_ipc_ep_zcopy, hs, hnz, h1, h2, if_false, if_true]
  by_cases h3 : (env.uct_rocm_ipc_cache_map_memhandle key).1 ≠ .UCS_OK
  · refine ⟨(env.uct_rocm_ipc_cache_map_memhandle key).1,
      (w.log (.get_ptr_info iov.buffer size)).log (.cache_map_memhandle key), ?_,
      Or.inr (Or.inr ⟨rfl, h3⟩), ?_, rfl, rfl, rfl⟩
    · simp only [uct_rocm_ipc_ep_zcopy, hs, hnz, h1, h2, h3, if_false, if_true, ne_eq,
        not_false_eq_true]
    · simp [State.copies, State.log, List.filter_append, ext_call.is_copy]
  by_cases h4 : (env.uct_rocm_base_get_ptr_info
        (add64 (env.uct_rocm_ipc_cache_map_memhandle key).2 (sub64 remote_addr key.address))
        size).status ≠ .HSA_STATUS_SUCCESS ∨
      (env.uct_rocm_base_get_ptr_info
        (add64 (env.uct_rocm_ipc_cache_map_memhandle key).2 (sub64 remote_addr key.address))
        size).mem_type = .HSA_EXT_POINTER_TYPE_UNKNOWN
  · refine ⟨.UCS_ERR_INVALID_ADDR,
      ((w.log (.get_ptr_info iov.buffer size)).log (.cache_map_memhandle key)).log
        (.get_ptr_info (add64 (env.uct_rocm_ipc_cache_map_memhandle key).2
          (sub64 remote_addr key.address)) size), ?_,
      Or.inr (Or.inl rfl), ?_, rfl, rfl, rfl⟩
    · simp only [uct_rocm_ipc_ep_zcopy, hs, hnz, h1, h2, h3, h4, if_false, if_true]
    · simp [State.copies, State.log, List.filter_append, ext_call.is_copy]
  have h5 : (env.uct_rocm_base_get_ptr_info
        (add64 (env.uct_rocm_ipc_cache_map_memhandle key).2 (sub64 remote_addr key.address))
        size).agent ≠ 0 ∧
      env.hsa_amd_agents_allow_access env.uct_rocm_base_get_gpu_agents
        (env.uct_rocm_base_get_ptr_info iov.buffer size).base_ptr ≠ .HSA_STATUS_SUCCESS := by
    rcases hfail with h | h | h | h | h
    · exact absurd (by simpa [zcopy_out_of_range, add64, SIZE_MOD] using h) h1
    · exact absurd h h2
    · exact absurd h h3
    · exact absurd h h4
    · exact h
  refine ⟨.UCS_ERR_INVALID_ADDR,
    (((w.log (.get_ptr_info iov.buffer size)).log (.cache_map_memhandle key)).log
      (.get_ptr_info (add64 (env.uct_rocm_ipc_cache_map_memhandle key).2
        (sub64 remote_addr key.address)) size)).log
      (.agents_allow_access env.uct_rocm_base_get_gpu_agents
        (env.uct_rocm_base_get_ptr_info iov.buffer size).base_ptr), ?_,
    Or.inr (Or.inl rfl), ?_, rfl, rfl, rfl⟩
  · simp only [uct_rocm_ipc_ep_zcopy, hs, hnz, h1, h2, h3, h4, h5.1, h5.2, if_false, if_true,
      ne_eq, not_false_eq_true]
  · simp [State.copies, State.log, List.filter_append, ext_call.is_copy]

/-- C14 at a get whose local buffer the classifier does not recognise. -/
theorem zcopy_validation_error_keeps_state_witness :
    ∃ st w1, uct_rocm_ipc_ep_zcopy demo_env_unknown_memory demo_state_multi 0x1000
        ⟨0x9000, 4096, 1⟩ demo_key (some 42) 0 = some (st, w1) ∧
      (st = .UCS_ERR_INVALID_PARAM ∨ st = .UCS_ERR_INVALID_ADDR ∨
        (st = (demo_env_unknown_memory.uct_rocm_ipc_cache_map_memhandle demo_key).1 ∧
          (demo_env_unknown_memory.uct_rocm_ipc_cache_map_memhandle demo_key).1 ≠ .UCS_OK)) ∧
      w1.copies = demo_state_multi.copies ∧
      w1.iface.signal_pool = demo_state_multi.iface.signal_pool ∧
      w1.iface.signal_queue = demo_state_multi.iface.signal_queue ∧
      w1.iface = demo_state_multi.iface :=
  zcopy_validation_error_keeps_state demo_env_unknown_memory demo_state_multi 0x1000
    ⟨0x9000, 4096, 1⟩ demo_key (some 42) 0 4096 (by decide) (by decide)
    _ rfl _ rfl _ rfl (Or.inr (Or.inl (Or.inr rfl)))

/-- C15: for non-zero size the status of `uct_rocm_ipc_ep_zcopy` is that of the
first failing step, in this order. If the range check fails (the check of the
code, on `uint64_t` sums), the status is
`UCS_ERR_INVALID_PARAM`. Else, if the classification of the local buffer fails or
reports an unknown pointer type, it is `UCS_ERR_INVALID_ADDR`, and the
classification is the only outside call made: the remote-handle cache is not
consulted. Else, if the mapping fails, it is exactly the status the cache
returned. Else, if the classification of the mapped remote pointer fails or is
unknown, it is `UCS_ERR_INVALID_ADDR`. Else, if the remote agent is non-null and
the access grant fails, it is `UCS_ERR_INVALID_ADDR`. -/
theorem zcopy_status_of_first_failing_step (env : Env) (w : State) (remote_addr : Nat)
    (iov : uct_iov_t) (key : uct_rocm_ipc_key_t) (comp : uct_completion_ptr) (is_put : Int)
    (size : Nat) (hsize : env.uct_iov_get_length iov % 2 ^ 64 = size) (hnz : size ≠ 0)
    (loc : ptr_info_t) (hloc : env.uct_rocm_base_get_ptr_info iov.buffer size = loc)
    (mapped : ucs_status_t × Nat) (hmap : env.uct_rocm_ipc_cache_map_memhandle key = mapped)
    (remote_copy_addr : Nat)
    (hcopy_addr : remote_copy_addr = add64 mapped.2 (sub64 remote_addr key.address))
    (rem : ptr_info_t) (hrem : env.uct_rocm_base_get_ptr_info remote_copy_addr size = rem) :
    (zcopy_out_of_range remote_addr size key →
      uct_rocm_ipc_ep_zcopy env w remote_addr iov key comp is_put =
        some (.UCS_ERR_INVALID_PARAM, w)) ∧
    (¬ zcopy_out_of_range remote_addr size key → loc.rejected →
      uct_rocm_ipc_ep_zcopy env w remote_addr iov key comp is_put =
        some (.UCS_ERR_INVALID_ADDR,
          { w with calls := w.calls ++ [.get_ptr_info iov.buffer size] })) ∧
    (¬ zcopy_out_of_range remote_addr size key → ¬ loc.rejected → mapped.1 ≠ .UCS_OK →
      uct_rocm_ipc_ep_zcopy env w remote_addr iov key comp is_put =
        some (mapped.1,
          { w with calls := w.calls ++ [.get_ptr_info iov.buffer size,
              .cache_map_memhandle key] })) ∧
    (¬ zcopy_out_of_range remote_addr size key → ¬ loc.rejected → mapped.1 = .UCS_OK →
      rem.rejected →
      uct_rocm_ipc_ep_zcopy env w remote_addr iov key comp is_put =
        some (.UCS_ERR_INVALID_ADDR,
          { w with calls := w.calls ++ [.get_ptr_info iov.buffer size,
              .cache_map_memhandle key, .get_ptr_info remote_copy_addr size] })) ∧
    (¬ zcopy_out_of_range remote_addr size key → ¬ loc.rejected → mapped.1 = .UCS_OK →
      ¬ rem.rejected → rem.agent ≠ 0 →
      env.hsa_amd_agents_allow_access env.uct_rocm_base_get_gpu_agents loc.base_ptr ≠
        .HSA_STATUS_SUCCESS →
      uct_rocm_ipc_ep_zcopy env w remote_addr iov key comp is_put =
        some (.UCS_ERR_INVALID_ADDR,
          { w with calls := w.calls ++ [.get_ptr_info iov.buffer size,
              .cache_map_memhandle key, .get_ptr_info remote_copy_addr size,
              .agents_allow_access env.uct_rocm_base_get_gpu_agents loc.base_ptr] })) := by
  have hs : env.uct_iov_get_length iov % SIZE_MOD = size := by simpa [SIZE_MOD] using hsize
  subst hloc hmap hcopy_addr hrem
  unfold ptr_info_t.rejected
  refine ⟨?_, ?_, ?_, ?_, ?_⟩
  · intro h1
    simp [uct_rocm_ipc_ep_zcopy, hs, hnz, h1]
  · intro h1 h2
    simp only [uct_rocm_ipc_ep_zcopy, hs, hnz, h1, h2, if_false, if_true, State.log]
  · intro h1 h2 h3
    simp [uct_rocm_ipc_ep_zcopy, hs, hnz, h1, h2, h3, State.log]
  · intro h1 h2 h3 h4
    simp only [uct_rocm_ipc_ep_zcopy, hs, hnz, h1, h2, h3, h4, if_false, if_true, State.log,
      ne_eq, not_true_eq_false, List.append_assoc, List.cons_append, List.nil_append]
  · intro h1 h2 h3 h4 h5 h6
    simp only [uct_rocm_ipc_ep_zcopy, hs, hnz, h1, h2, h3, h4, h5, h6, if_false, if_true,
      State.log, ne_eq, not_true_eq_false, not_false_eq_true, List.append_assoc,
      List.cons_append, List.nil_append]

/-- C15 at a get whose local buffer the classifier does not recognise: the call
returns `UCS_ERR_INVALID_ADDR` after the one classification call. -/
theorem zcopy_status_of_first_failing_step_witness :
    uct_rocm_ipc_ep_zcopy demo_env_unknown_memory demo_state_multi 0x1000 ⟨0x9000, 4096, 1⟩
        demo_key (some 42) 0 =
      some (.UCS_ERR_INVALID_ADDR,
        { demo_state_multi with
          calls := demo_state_multi.calls ++ [.get_ptr_info 0x9000 4096] }) :=
  (zcopy_status_of_first_failing_step demo_env_unknown_memory demo_state_multi 0x1000
    ⟨0x9000, 4096, 1⟩ demo_key (some 42) 0 4096 (by decide) (by decide)
    _ rfl _ rfl _ rfl _ rfl).2.1 (by decide) (by decide)

/-! ## Endpoints of the dispatched copy -/

/-- A multi-engine copy only appends to the log, and never an access grant. -/
theorem multi_copy_calls (env : Env) (w : State) (dst : Nat) (da : hsa_agent_t) (src : Nat)
    (sa : hsa_agent_t) (size rba : Nat) (comp : uct_completion_ptr)
    (r : hsa_status_t × State)
    (h : uct_rocm_ipc_async_multi_copy env w dst da src sa size rba comp = some r) :
    ∃ added, r.2.calls = w.calls ++ added ∧ ∀ c ∈ added, c.is_access_grant = false := by
  unfold uct_rocm_ipc_async_multi_copy at h
  simp only [] at h
  have hbase : ∀ st, some (st, w.log (.copy_engine_status da sa)) = some r →
      ∃ added, r.2.calls = w.calls ++ added ∧ ∀ c ∈ added, c.is_access_grant = false := by
    intro st hst
    simp only [Option.some.injEq] at hst
    subst hst
    exact ⟨[.copy_engine_status da sa], rfl, by simp [ext_call.is_access_grant]⟩
  split at h
  · exact hbase _ h
  · split at h
    · exact hbase _ h
    · split at h
      · exact absurd h (by simp)
      · split at h
        · exact absurd h (by simp)
        · split at h
          · exact hbase _ h
          · obtain ⟨k, m, _, _, _, hcalls, _⟩ := multi_copy_loop_spec _ _ _ _ _ _ _ _ _ _ _ _ _ _ _ h
            refine ⟨_, by rw [hcalls]; simp only [State.log, List.append_assoc]; rfl, ?_⟩
            intro c hc
            simp only [List.mem_append, List.mem_singleton, List.mem_flatMap] at hc
            rcases hc with rfl | ⟨jd, _, hjd⟩
            · rfl
            · simp only [chunk_calls, chunk_copy_call, List.mem_cons, List.mem_singleton,
                List.not_mem_nil, or_false] at hjd
              rcases hjd with rfl | rfl <;> rfl

/-- A single-engine copy only appends to the log, and never an access grant. -/
theorem async_copy_calls (env : Env) (w : State) (dst : Nat) (da : hsa_agent_t) (src : Nat)
    (sa : hsa_agent_t) (size rba : Nat) (comp : uct_completion_ptr)
    (r : hsa_status_t × State)
    (h : uct_rocm_ipc_async_copy env w dst da src sa size rba comp = some r) :
    ∃ added, r.2.calls = w.calls ++ added ∧ ∀ c ∈ added, c.is_access_grant = false := by
  cases hp : w.iface.signal_pool with
  | nil => simp [uct_rocm_ipc_async_copy, ucs_mpool_get, hp] at h
  | cons d pool =>
    rw [async_copy_outcome env w dst da src sa size rba comp d pool hp] at h
    simp only [Option.some.injEq] at h
    subst h
    exact ⟨_, rfl, by simp [ext_call.is_access_grant]⟩

/-- The issue of the copy only appends to the log, and never an access grant. -/
theorem zcopy_issue_calls (env : Env) (w : State) (dst : Nat) (da : hsa_agent_t) (src : Nat)
    (sa : hsa_agent_t) (size rba : Nat) (comp : uct_completion_ptr)
    (r : ucs_status_t × State)
    (h : zcopy_issue env w dst da src sa size rba comp = some r) :
    ∃ added, r.2.calls = w.calls ++ added ∧ ∀ c ∈ added, c.is_access_grant = false := by
  unfold zcopy_issue at h
  split at h
  · exact absurd h (by simp)
  · rename_i status w1 heq
    have hw1 : r.2 = w1 := by
      split at h <;> simp only [Option.some.injEq] at h <;> rw [← h]
    rw [hw1]
    split at heq
    · exact multi_copy_calls env w dst da src sa size rba comp (status, w1) heq
    · exact async_copy_calls env w dst da src sa size rba comp (status, w1) heq

/-- In single-engine mode the issue of the copy logs exactly one hardware copy,
with the endpoints it was given and the signal of the first pool descriptor. -/
theorem zcopy_issue_single_copies (env : Env) (w : State) (dst : Nat) (da : hsa_agent_t)
    (src : Nat) (sa : hsa_agent_t) (size rba : Nat) (comp : uct_completion_ptr)
    (hsingle : w.iface.config.copy_on_engine = 0 ∨ w.iface.config.enable_multi_sdma = 0)
    (d : uct_rocm_base_signal_desc_t) (pool : List uct_rocm_base_signal_desc_t)
    (hpool : w.iface.signal_pool = d :: pool) :
    (zcopy_issue env w dst da src sa size rba comp).map (fun r => r.2.copies) =
      some (w.copies ++ [.memory_async_copy dst da src sa size d.signal]) := by
  have hcfg : ¬ (w.iface.config.copy_on_engine ≠ 0 ∧ w.iface.config.enable_multi_sdma ≠ 0) := by
    rcases hsingle with h | h <;> simp [h]
  unfold zcopy_issue
  simp only [hcfg, if_false]
  rw [async_copy_outcome env w dst da src sa size rba comp d pool hpool]
  by_cases hs : env.hsa_amd_memory_async_copy dst da src sa size d.signal = .HSA_STATUS_SUCCESS
  · simp [hs, State.copies, List.filter_append, ext_call.is_copy]
  · simp [hs, State.copies, List.filter_append, ext_call.is_copy]

/-- C16: for a call of `uct_rocm_ipc_ep_zcopy` that passes validation, with the
remote copy address being the mapped remote base plus `remote_addr - key.address`,
a put issues the copy with destination = remote copy address and the remote
agent, source = local buffer and the local agent; a get issues it with
destination = local buffer and the local agent, source = remote copy address and
the remote agent. `uct_rocm_ipc_ep_put_zcopy` and `uct_rocm_ipc_ep_get_zcopy`
return exactly what the call returns with `is_put = 1` and `0`. In single-engine
mode the hardware copy in the log has these very endpoints. -/
theorem zcopy_dispatch_endpoints (env : Env) (w : State) (remote_addr : Nat)
    (iov : uct_iov_t) (key : uct_rocm_ipc_key_t) (comp : uct_completion_ptr)
    (size : Nat) (local_agent : hsa_agent_t) (remote_base_addr remote_copy_addr : Nat)
    (remote_agent : hsa_agent_t)
    (hv : zcopy_validated env remote_addr iov key size local_agent remote_base_addr
      remote_copy_addr remote_agent) :
    remote_copy_addr = (remote_base_addr +
      (remote_addr % 2 ^ 64 + 2 ^ 64 - key.address % 2 ^ 64) % 2 ^ 64) % 2 ^ 64 ∧
    (∀ is_put : Int, is_put ≠ 0 →
      uct_rocm_ipc_ep_zcopy env w remote_addr iov key comp is_put =
        zcopy_issue env
          { w with calls := w.calls ++ zcopy_validation_calls env iov key size remote_copy_addr }
          remote_copy_addr remote_agent iov.buffer local_agent size remote_base_addr comp) ∧
    uct_rocm_ipc_ep_zcopy env w remote_addr iov key comp 0 =
      zcopy_issue env
        { w with calls := w.calls ++ zcopy_validation_calls env iov key size remote_copy_addr }
        iov.buffer local_agent remote_copy_addr remote_agent size remote_base_addr comp ∧
    uct_rocm_ipc_ep_put_zcopy env w iov remote_addr key comp =
      uct_rocm_ipc_ep_zcopy env w remote_addr iov key comp 1 ∧
    uct_rocm_ipc_ep_get_zcopy env w iov remote_addr key comp =
      uct_rocm_ipc_ep_zcopy env w remote_addr iov key comp 0 ∧
    (w.iface.config.copy_on_engine = 0 ∨ w.iface.config.enable_multi_sdma = 0 →
      ∀ d pool, w.iface.signal_pool = d :: pool →
        (uct_rocm_ipc_ep_put_zcopy env w iov remote_addr key comp).map (fun r => r.2.copies) =
          some (w.copies ++ [.memory_async_copy remote_copy_addr remote_agent iov.buffer
            local_agent size d.signal]) ∧
        (uct_rocm_ipc_ep_get_zcopy env w iov remote_addr key comp).map (fun r => r.2.copies) =
          some (w.copies ++ [.memory_async_copy iov.buffer local_agent remote_copy_addr
            remote_agent size d.signal])) := by
  have hcalls : (zcopy_validation_calls env iov key size remote_copy_addr).filter
      ext_call.is_copy = [] := by
    unfold zcopy_validation_calls
    split_ifs <;> simp [ext_call.is_copy]
  have hput : ∀ is_put : Int, is_put ≠ 0 →
      uct_rocm_ipc_ep_zcopy env w remote_addr iov key comp is_put =
        zcopy_issue env
          { w with calls := w.calls ++ zcopy_validation_calls env iov key size remote_copy_addr }
          remote_copy_addr remote_agent iov.buffer local_agent size remote_base_addr comp := by
    intro is_put hp
    rw [zcopy_of_validated env w remote_addr iov key comp is_put size local_agent
      remote_base_addr remote_copy_addr remote_agent hv, zcopy_dispatch_eq_issue]
    simp only [hp, ne_eq, not_false_eq_true, if_true]
  have hget : uct_rocm_ipc_ep_zcopy env w remote_addr iov key comp 0 =
      zcopy_issue env
        { w with calls := w.calls ++ zcopy_validation_calls env iov key size remote_copy_addr }
        iov.buffer local_agent remote_copy_addr remote_agent size remote_base_addr comp := by
    rw [zcopy_of_validated env w remote_addr iov key comp 0 size local_agent
      remote_base_addr remote_copy_addr remote_agent hv, zcopy_dispatch_eq_issue]
    simp only [ne_eq, not_true_eq_false, if_false]
  refine ⟨?_, hput, hget, rfl, rfl, ?_⟩
  · rw [hv.copy_addr]
    simp [add64, sub64, SIZE_MOD]
  · intro hsingle d pool hpool
    have hw : ({ w with calls := w.calls ++
        zcopy_validation_calls env iov key size remote_copy_addr } : State).copies
        = w.copies := by
      simp [State.copies, List.filter_append, hcalls]
    unfold uct_rocm_ipc_ep_put_zcopy uct_rocm_ipc_ep_get_zcopy
    rw [hput 1 (by decide), hget]
    rw [zcopy_issue_single_copies env
        { w with calls := w.calls ++ zcopy_validation_calls env iov key size remote_copy_addr }
        _ _ _ _ size remote_base_addr comp hsingle d pool hpool,
      zcopy_issue_single_copies env
        { w with calls := w.calls ++ zcopy_validation_calls env iov key size remote_copy_addr }
        _ _ _ _ size remote_base_addr comp hsingle d pool hpool,
      hw]
    exact ⟨rfl, rfl⟩

/-- C16 at the key of `4096` bytes at `0x1000` and a transfer of `4096` bytes
between the local buffer `0x9000` and the remote address `0x1000`. -/
theorem zcopy_dispatch_endpoints_witness :
    (0x70000000 : Nat) = (0x70000000 +
      (0x1000 % 2 ^ 64 + 2 ^ 64 - demo_key.address % 2 ^ 64) % 2 ^ 64) % 2 ^ 64 ∧
    (∀ is_put : Int, is_put ≠ 0 →
      uct_rocm_ipc_ep_zcopy demo_env demo_state_single 0x1000 ⟨0x9000, 4096, 1⟩ demo_key
          (some 42) is_put =
        zcopy_issue demo_env
          { demo_state_single with calls := demo_state_single.calls ++
              zcopy_validation_calls demo_env ⟨0x9000, 4096, 1⟩ demo_key 4096 0x70000000 }
          0x70000000 7 (⟨0x9000, 4096, 1⟩ : uct_iov_t).buffer 7 4096 0x70000000 (some 42)) ∧
    uct_rocm_ipc_ep_zcopy demo_env demo_state_single 0x1000 ⟨0x9000, 4096, 1⟩ demo_key
        (some 42) 0 =
      zcopy_issue demo_env
        { demo_state_single with calls := demo_state_single.calls ++
            zcopy_validation_calls demo_env ⟨0x9000, 4096, 1⟩ demo_key 4096 0x70000000 }
        (⟨0x9000, 4096, 1⟩ : uct_iov_t).buffer 7 0x70000000 7 4096 0x70000000 (some 42) ∧
    uct_rocm_ipc_ep_put_zcopy demo_env demo_state_single ⟨0x9000, 4096, 1⟩ 0x1000 demo_key
        (some 42) =
      uct_rocm_ipc_ep_zcopy demo_env demo_state_single 0x1000 ⟨0x9000, 4096, 1⟩ demo_key
        (some 42) 1 ∧
    uct_rocm_ipc_ep_get_zcopy demo_env demo_state_single ⟨0x9000, 4096, 1⟩ 0x1000 demo_key
        (some 42) =
      uct_rocm_ipc_ep_zcopy demo_env demo_state_single 0x1000 ⟨0x9000, 4096, 1⟩ demo_key
        (some 42) 0 ∧
    (demo_state_single.iface.config.copy_on_engine = 0 ∨
        demo_state_single.iface.config.enable_multi_sdma = 0 →
      ∀ d pool, demo_state_single.iface.signal_pool = d :: pool →
        (uct_rocm_ipc_ep_put_zcopy demo_env demo_state_single ⟨0x9000, 4096, 1⟩ 0x1000
            demo_key (some 42)).map (fun r => r.2.copies) =
          some (demo_state_single.copies ++ [.memory_async_copy 0x70000000 7
            (⟨0x9000, 4096, 1⟩ : uct_iov_t).buffer 7 4096 d.signal]) ∧
        (uct_rocm_ipc_ep_get_zcopy demo_env demo_state_single ⟨0x9000, 4096, 1⟩ 0x1000
            demo_key (some 42)).map (fun r => r.2.copies) =
          some (demo_state_single.copies ++ [.memory_async_copy
            (⟨0x9000, 4096, 1⟩ : uct_iov_t).buffer 7 0x70000000 7 4096 d.signal])) :=
  zcopy_dispatch_endpoints demo_env demo_state_single 0x1000 ⟨0x9000, 4096, 1⟩ demo_key
    (some 42) 4096 7 0x70000000 0x70000000 7
    ⟨by decide, by decide, by decide, by decide, by decide, by decide, by decide, by decide,
      by decide, by decide, by decide, by decide, by decide⟩

/-- C17: let the steps of `uct_rocm_ipc_ep_zcopy` up to the classification of the
mapped remote pointer succeed. If that classification reports a null (zero) agent
handle, the call is the issue of the copy with the agent of the local buffer as
destination agent and as source agent, for put and for get alike, and no call it
adds to the log is an access grant. If the agent handle is not zero, the log
continues with the three calls of the steps passed and then the access grant for
the base address of the local buffer; every hardware copy of the call is logged
after this grant. -/
theorem zcopy_remote_agent_fallback (env : Env) (w : State) (remote_addr : Nat)
    (iov : uct_iov_t) (key : uct_rocm_ipc_key_t) (comp : uct_completion_ptr) (is_put : Int)
    (size : Nat) (hsize : env.uct_iov_get_length iov % 2 ^ 64 = size) (hnz : size ≠ 0)
    (hrange : ¬ zcopy_out_of_range remote_addr size key)
    (loc : ptr_info_t) (hloc : env.uct_rocm_base_get_ptr_info iov.buffer size = loc)
    (hloc_ok : ¬ loc.rejected)
    (remote_base_addr : Nat)
    (hmap : env.uct_rocm_ipc_cache_map_memhandle key = (.UCS_OK, remote_base_addr))
    (remote_copy_addr : Nat)
    (hcopy_addr : remote_copy_addr = add64 remote_base_addr (sub64 remote_addr key.address))
    (rem : ptr_info_t) (hrem : env.uct_rocm_base_get_ptr_info remote_copy_addr size = rem)
    (hrem_ok : ¬ rem.rejected)
    (r : ucs_status_t × State)
    (hr : uct_rocm_ipc_ep_zcopy env w remote_addr iov key comp is_put = some r) :
    (rem.agent = 0 →
      uct_rocm_ipc_ep_zcopy env w remote_addr iov key comp is_put =
        zcopy_issue env
          { w with calls := w.calls ++ [.get_ptr_info iov.buffer size,
              .cache_map_memhandle key, .get_ptr_info remote_copy_addr size] }
          (if is_put ≠ 0 then remote_copy_addr else iov.buffer) loc.agent
          (if is_put ≠ 0 then iov.buffer else remote_copy_addr) loc.agent
          size remote_base_addr comp ∧
      ∃ added, r.2.calls = w.calls ++ added ∧ ∀ c ∈ added, c.is_access_grant = false) ∧
    (rem.agent ≠ 0 →
      ∃ rest, r.2.calls = w.calls ++ [.get_ptr_info iov.buffer size,
          .cache_map_memhandle key, .get_ptr_info remote_copy_addr size,
          .agents_allow_access env.uct_rocm_base_get_gpu_agents loc.base_ptr] ++ rest ∧
        r.2.copies = w.copies ++ rest.filter ext_call.is_copy) := by
  have hs : env.uct_iov_get_length iov % SIZE_MOD = size := by simpa [SIZE_MOD] using hsize
  subst hloc hcopy_addr hrem
  unfold ptr_info_t.rejected at hloc_ok hrem_ok
  constructor
  · intro h0
    have hz : uct_rocm_ipc_ep_zcopy env w remote_addr iov key comp is_put =
        zcopy_issue env
          { w with calls := w.calls ++ [.get_ptr_info iov.buffer size,
              .cache_map_memhandle key,
              .get_ptr_info (add64 remote_base_addr (sub64 remote_addr key.address)) size] }
          (if is_put ≠ 0 then add64 remote_base_addr (sub64 remote_addr key.address)
            else iov.buffer) (env.uct_rocm_base_get_ptr_info iov.buffer size).agent
          (if is_put ≠ 0 then iov.buffer
            else add64 remote_base_addr (sub64 remote_addr key.address))
          (env.uct_rocm_base_get_ptr_info iov.buffer size).agent
          size remote_base_addr comp := by
      simp only [uct_rocm_ipc_ep_zcopy, hs, hnz, hrange, hloc_ok, hmap, hrem_ok, h0, if_false,
        if_true, ne_eq, not_true_eq_false, zcopy_dispatch_eq_issue, State.log,
        List.append_assoc, List.cons_append, List.nil_append, ite_self]
    refine ⟨hz, ?_⟩
    rw [hz] at hr
    obtain ⟨added, hadded, hno⟩ := zcopy_issue_calls _ _ _ _ _ _ _ _ _ _ hr
    refine ⟨_, by rw [hadded, List.append_assoc], ?_⟩
    intro c hc
    rcases List.mem_append.mp hc with h | h
    · simp only [List.mem_cons, List.mem_singleton, List.not_mem_nil, or_false] at h
      rcases h with rfl | rfl | rfl <;> rfl
    · exact hno c h
  · intro h0
    by_cases hg : env.hsa_amd_agents_allow_access env.uct_rocm_base_get_gpu_agents
        (env.uct_rocm_base_get_ptr_info iov.buffer size).base_ptr = .HSA_STATUS_SUCCESS
    · have hz : uct_rocm_ipc_ep_zcopy env w remote_addr iov key comp is_put =
          zcopy_issue env
            { w with calls := w.calls ++ [.get_ptr_info iov.buffer size,
                .cache_map_memhandle key,
                .get_ptr_info (add64 remote_base_addr (sub64 remote_addr key.address)) size,
                .agents_allow_access env.uct_rocm_base_get_gpu_agents
                  (env.uct_rocm_base_get_ptr_info iov.buffer size).base_ptr] }
            (if is_put ≠ 0 then add64 remote_base_addr (sub64 remote_addr key.address)
              else iov.buffer)
            (if is_put ≠ 0 then (env.uct_rocm_base_get_ptr_info
                (add64 remote_base_addr (sub64 remote_addr key.address)) size).agent
              else (env.uct_rocm_base_get_ptr_info iov.buffer size).agent)
            (if is_put ≠ 0 then iov.buffer
              else add64 remote_base_addr (sub64 remote_addr key.address))
            (if is_put ≠ 0 then (env.uct_rocm_base_get_ptr_info iov.buffer size).agent
              else (env.uct_rocm_base_get_ptr_info
                (add64 remote_base_addr (sub64 remote_addr key.address)) size).agent)
            size remote_base_addr comp := by
        simp only [uct_rocm_ipc_ep_zcopy, hs, hnz, hrange, hloc_ok, hmap, hrem_ok, h0, hg,
          if_false, if_true, ne_eq, not_true_eq_false, zcopy_dispatch_eq_issue, State.log,
          List.append_assoc, List.cons_append, List.nil_append]
      rw [hz] at hr
      obtain ⟨added, hadded, _⟩ := zcopy_issue_calls _ _ _ _ _ _ _ _ _ _ hr
      refine ⟨added, hadded, ?_⟩
      rw [State.copies, hadded]
      simp [State.copies, List.filter_append, ext_call.is_copy]
    · have hz : uct_rocm_ipc_ep_zcopy env w remote_addr iov key comp is_put =
          some (.UCS_ERR_INVALID_ADDR,
            { w with calls := w.calls ++ [.get_ptr_info iov.buffer size,
                .cache_map_memhandle key,
                .get_ptr_info (add64 remote_base_addr (sub64 remote_addr key.address)) size,
                .agents_allow_access env.uct_rocm_base_get_gpu_agents
                  (env.uct_rocm_base_get_ptr_info iov.buffer size).base_ptr] }) := by
        simp only [uct_rocm_ipc_ep_zcopy, hs, hnz, hrange, hloc_ok, hmap, hrem_ok, h0, hg,
          if_false, if_true, ne_eq, not_true_eq_false, not_false_eq_true, State.log,
          List.append_assoc, List.cons_append, List.nil_append]
      rw [hz] at hr
      simp only [Option.some.injEq] at hr
      subst hr
      refine ⟨[], by simp, ?_⟩
      simp [State.copies, List.filter_append, ext_call.is_copy]

/-- C17 at a put of `4096` bytes whose remote memory has no agent: the copy is
issued with the local agent `7` on both sides and no access grant is logged. -/
theorem zcopy_remote_agent_fallback_witness :
    ((demo_env_no_remote_agent.uct_rocm_base_get_ptr_info 0x70000000 4096).agent = 0 →
      uct_rocm_ipc_ep_zcopy demo_env_no_remote_agent demo_state_single 0x1000
          ⟨0x9000, 4096, 1⟩ demo_key (some 42) 1 =
        zcopy_issue demo_env_no_remote_agent
          { demo_state_single with calls := demo_state_single.calls ++
              [.get_ptr_info (⟨0x9000, 4096, 1⟩ : uct_iov_t).buffer 4096,
               .cache_map_memhandle demo_key, .get_ptr_info 0x70000000 4096] }
          (if (1 : Int) ≠ 0 then 0x70000000 else (⟨0x9000, 4096, 1⟩ : uct_iov_t).buffer)
          (demo_env_no_remote_agent.uct_rocm_base_get_ptr_info
            (⟨0x9000, 4096, 1⟩ : uct_iov_t).buffer 4096).agent
          (if (1 : Int) ≠ 0 then (⟨0x9000, 4096, 1⟩ : uct_iov_t).buffer else 0x70000000)
          (demo_env_no_remote_agent.uct_rocm_base_get_ptr_info
            (⟨0x9000, 4096, 1⟩ : uct_iov_t).buffer 4096).agent
          4096 0x70000000 (some 42) ∧
      ∃ added, demo_result_no_remote_agent.2.calls = demo_state_single.calls ++ added ∧
        ∀ c ∈ added, c.is_access_grant = false) ∧
    ((demo_env_no_remote_agent.uct_rocm_base_get_ptr_info 0x70000000 4096).agent ≠ 0 →
      ∃ rest, demo_result_no_remote_agent.2.calls = demo_state_single.calls ++
          [.get_ptr_info (⟨0x9000, 4096, 1⟩ : uct_iov_t).buffer 4096,
           .cache_map_memhandle demo_key, .get_ptr_info 0x70000000 4096,
           .agents_allow_access demo_env_no_remote_agent.uct_rocm_base_get_gpu_agents
             (demo_env_no_remote_agent.uct_rocm_base_get_ptr_info
               (⟨0x9000, 4096, 1⟩ : uct_iov_t).buffer 4096).base_ptr] ++ rest ∧
        demo_result_no_remote_agent.2.copies =
          demo_state_single.copies ++ rest.filter ext_call.is_copy) :=
  zcopy_remote_agent_fallback demo_env_no_remote_agent demo_state_single 0x1000
    ⟨0x9000, 4096, 1⟩ demo_key (some 42) 1 4096 (by decide) (by decide) (by decide)
    _ rfl (by decide) 0x70000000 rfl 0x70000000 (by decide) _ rfl (by decide)
    demo_result_no_remote_agent (by decide)

/-! ## Failure of a chunk of the multi-engine path -/

/-- The chunk loop when the chunks before chunk `k` are issued successfully and
the issue call of chunk `k` fails: the loop returns the failing status, the first
`k` pool descriptors are queued, the descriptor of chunk `k` is back at the head
of the pool, and the log holds the calls of the chunks `0 .. k`. -/
theorem multi_copy_loop_fails_at (env : Env) (engines : List Nat) (N S chunk dst : Nat)
    (da : hsa_agent_t) (src : Nat) (sa : hsa_agent_t) (rba : Nat) (comp : uct_completion_ptr) :
    ∀ (k n i : Nat) (w : State) (d : uct_rocm_base_signal_desc_t) (e : Nat), k < n →
      w.iface.signal_pool[k]? = some d → engines[i + k]? = some e →
      (∀ t d1 e1, t < k → w.iface.signal_pool[t]? = some d1 → engines[i + t]? = some e1 →
        env.hsa_amd_memory_async_copy_on_engine (add64 dst (mul64 (i + t) chunk)) da
          (add64 src (mul64 (i + t) chunk)) sa (multi_copy_data_size N S chunk (i + t))
          d1.signal (unsigned_of_int (uct_rocm_ipc_map_id_to_engine e1)) = .HSA_STATUS_SUCCESS) →
      env.hsa_amd_memory_async_copy_on_engine (add64 dst (mul64 (i + k) chunk)) da
          (add64 src (mul64 (i + k) chunk)) sa (multi_copy_data_size N S chunk (i + k))
          d.signal (unsigned_of_int (uct_rocm_ipc_map_id_to_engine e)) ≠ .HSA_STATUS_SUCCESS →
      ∃ w1, multi_copy_loop env engines N S chunk dst da src sa rba comp n i w =
          some (env.hsa_amd_memory_async_copy_on_engine (add64 dst (mul64 (i + k) chunk)) da
            (add64 src (mul64 (i + k) chunk)) sa (multi_copy_data_size N S chunk (i + k))
            d.signal (unsigned_of_int (uct_rocm_ipc_map_id_to_engine e)), w1) ∧
        w1.calls = w.calls ++
          ((List.range' i (k + 1)).zip (w.iface.signal_pool.take (k + 1))).flatMap
            (fun jd => chunk_calls N S chunk dst da src sa jd.1 jd.2 (engines.getD jd.1 0)) ∧
        w1.iface.signal_queue = w.iface.signal_queue ++
          ((List.range' i k).zip (w.iface.signal_pool.take k)).map
            (fun jd => chunk_desc N rba comp jd.1 jd.2) ∧
        w1.iface.signal_pool = w.iface.signal_pool.drop k ∧
        w1.iface.config = w.iface.config := by
  intro k
  induction k with
  | zero =>
    intro n i w d e hn hd he _ hfail
    obtain ⟨n, rfl⟩ : ∃ m, n = m + 1 := ⟨n - 1, by omega⟩
    simp only [Nat.add_zero] at he hfail ⊢
    cases hp : w.iface.signal_pool with
    | nil => simp [hp] at hd
    | cons d0 rest =>
      have hd0 : d0 = d := by simpa [hp] using hd
      subst hd0
      refine ⟨{ iface := { signal_pool := d0 :: rest, signal_queue := w.iface.signal_queue,
                            config := w.iface.config },
                calls := w.calls ++ [.signal_store d0.signal 1,
                  .memory_async_copy_on_engine (add64 dst (mul64 i chunk)) da
                    (add64 src (mul64 i chunk)) sa (multi_copy_data_size N S chunk i)
                    d0.signal (unsigned_of_int (uct_rocm_ipc_map_id_to_engine e))] }, ?_, ?_, ?_, ?_, ?_⟩
      · rw [multi_copy_loop]
        simp [ucs_mpool_get, hp, he, hfail, State.log, ucs_mpool_put]
      · simp [chunk_calls, chunk_copy_call, he]
      · simp
      · simp
      · simp
  | succ k ih =>
    intro n i w d e hn hd he hok hfail
    obtain ⟨n, rfl⟩ : ∃ m, n = m + 1 := ⟨n - 1, by omega⟩
    cases hp : w.iface.signal_pool with
    | nil => simp [hp] at hd
    | cons d0 rest =>
      have hi : i < engines.length := by
        by_contra hc
        rw [List.getElem?_eq_none (by omega)] at he
        exact Option.noConfusion he
      have he0 : engines[i]? = some engines[i] := List.getElem?_eq_getElem hi
      have hs0 := hok 0 d0 engines[i] (by omega) (by simp [hp]) (by simp)
      simp only [Nat.add_zero] at hs0
      have hidx : i + (k + 1) = i + 1 + k := by omega
      rw [hidx] at he hfail ⊢
      obtain ⟨w1, hw1, hcalls, hqueue, hpool, hcfg⟩ := ih n (i + 1)
        { iface := ucs_queue_push
            { signal_pool := rest, signal_queue := w.iface.signal_queue,
              config := w.iface.config }
            { d0 with comp := if i = N - 1 then comp else none, mapped_addr := rba },
          calls := w.calls ++ [.signal_store d0.signal 1] ++
            [.memory_async_copy_on_engine (add64 dst (mul64 i chunk)) da
              (add64 src (mul64 i chunk)) sa (multi_copy_data_size N S chunk i) d0.signal
              (unsigned_of_int (uct_rocm_ipc_map_id_to_engine engines[i]))] }
        d e (by omega) (by simpa [ucs_queue_push, hp] using hd) he
        (by
          intro t d1 e1 ht hd1 he1
          have hidx2 : i + 1 + t = i + (t + 1) := by omega
          rw [hidx2] at he1 ⊢
          exact hok (t + 1) d1 e1 (by omega) (by simpa [ucs_queue_push, hp] using hd1) he1)
        hfail
      simp only [ucs_queue_push] at hcalls hqueue hpool hcfg
      refine ⟨w1, ?_, ?_, ?_, ?_, ?_⟩
      · rw [multi_copy_loop]
        simp only [ucs_mpool_get, hp, he0, hs0, ne_eq, not_true_eq_false, if_false, State.log]
        exact hw1
      · rw [hcalls]
        simp [List.range'_succ, chunk_calls, chunk_copy_call, he0]
      · rw [hqueue]
        simp [List.range'_succ, chunk_desc]
      · rw [hpool]
        simp
      · rw [hcfg]

/-- C18: in the multi-engine path of a validated `uct_rocm_ipc_ep_zcopy` call that
uses `N` engines, if the issue call of chunk `k < N` fails after the chunks
`0 .. k - 1` were issued successfully, the call returns `UCS_ERR_IO_ERROR`; the
descriptor `d_k` of chunk `k` is back in the signal pool (it is its first
element again), the log holds `k + 1` new hardware copies, so no chunk after `k`
was issued; exactly the `k` descriptors of the chunks before `k` are appended to
the signal queue, behind the entries queued before and in chunk order, each with
a null completion handle, so the completion handle of the caller is attached to
none of them. -/
theorem zcopy_multi_engine_chunk_failure (env : Env) (w : State) (remote_addr : Nat)
    (iov : uct_iov_t) (key : uct_rocm_ipc_key_t) (comp : uct_completion_ptr) (is_put : Int)
    (size : Nat) (local_agent : hsa_agent_t) (remote_base_addr remote_copy_addr : Nat)
    (remote_agent : hsa_agent_t)
    (hv : zcopy_validated env remote_addr iov key size local_agent remote_base_addr
      remote_copy_addr remote_agent)
    (hmulti : w.iface.config.copy_on_engine ≠ 0 ∧ w.iface.config.enable_multi_sdma ≠ 0)
    (dst_addr : Nat) (dst_agent : hsa_agent_t) (src_addr : Nat) (src_agent : hsa_agent_t)
    (hdst_addr : dst_addr = if is_put ≠ 0 then remote_copy_addr else iov.buffer)
    (hdst_agent : dst_agent = if is_put ≠ 0 then remote_agent else local_agent)
    (hsrc_addr : src_addr = if is_put ≠ 0 then iov.buffer else remote_copy_addr)
    (hsrc_agent : src_agent = if is_put ≠ 0 then local_agent else remote_agent)
    (E : Int) (engines : List Nat)
    (hfound : uct_rocm_ipc_get_engines
      (env.hsa_amd_memory_copy_engine_status dst_agent src_agent).1
      (env.hsa_amd_memory_copy_engine_status dst_agent src_agent).2 env.malloc_temp
      (int_of_unsigned w.iface.config.max_sdma_engines) = (E, some engines))
    (hE : 0 < E) (N : Nat)
    (hN : multi_copy_num_engines E w.iface.config.max_sdma_engines size
      w.iface.config.multi_sdma_thresh = some (N : Int))
    (rotated : List Nat)
    (hsel : uct_rocm_ipc_select_engines env.uct_rocm_base_get_gpu_agents env.malloc_dtemp
      E.toNat engines N dst_agent src_agent = some rotated)
    (hsig : env.malloc_signals = true)
    (chunk_size : Nat)
    (hchunk : chunk_size = ucs_align_up_pow2 (size / N) env.ucs_get_page_size)
    (k : Nat) (hk : k < N)
    (d_k : uct_rocm_base_signal_desc_t) (hpool : w.iface.signal_pool[k]? = some d_k)
    (e_k : Nat) (hengine : rotated[k]? = some e_k)
    (hissue : ∀ j d e, j < k → w.iface.signal_pool[j]? = some d → rotated[j]? = some e →
      env.hsa_amd_memory_async_copy_on_engine (add64 dst_addr (mul64 j chunk_size)) dst_agent
        (add64 src_addr (mul64 j chunk_size)) src_agent
        (multi_copy_data_size N size chunk_size j) d.signal
        (unsigned_of_int (uct_rocm_ipc_map_id_to_engine e)) = .HSA_STATUS_SUCCESS)
    (hfail : env.hsa_amd_memory_async_copy_on_engine (add64 dst_addr (mul64 k chunk_size))
        dst_agent (add64 src_addr (mul64 k chunk_size)) src_agent
        (multi_copy_data_size N size chunk_size k) d_k.signal
        (unsigned_of_int (uct_rocm_ipc_map_id_to_engine e_k)) ≠ .HSA_STATUS_SUCCESS) :
    ∃ w1, uct_rocm_ipc_ep_zcopy env w remote_addr iov key comp is_put =
        some (.UCS_ERR_IO_ERROR, w1) ∧
      w1.iface.signal_pool = w.iface.signal_pool.drop k ∧
      w1.iface.signal_pool[0]? = some d_k ∧
      w1.copies.length = w.copies.length + (k + 1) ∧
      w1.iface.signal_queue.length = w.iface.signal_queue.length + k ∧
      (∀ j, j < w.iface.signal_queue.length →
        w1.iface.signal_queue[j]? = w.iface.signal_queue[j]?) ∧
      (∀ j, j < k → ∃ d, w.iface.signal_pool[j]? = some d ∧
        w1.iface.signal_queue[w.iface.signal_queue.length + j]? =
          some { d with comp := none, mapped_addr := remote_base_addr }) := by
  have hklen : k < w.iface.signal_pool.length := by
    by_contra hc
    rw [List.getElem?_eq_none (by omega)] at hpool
    exact Option.noConfusion hpool
  have hvcalls : (zcopy_validation_calls env iov key size remote_copy_addr).filter
      ext_call.is_copy = [] := by
    unfold zcopy_validation_calls
    split_ifs <;> simp [ext_call.is_copy]
  obtain ⟨w1, hw1, hcalls, hqueue, hpool1, _⟩ := multi_copy_loop_fails_at env rotated N size
    chunk_size dst_addr dst_agent src_addr src_agent remote_base_addr comp k N 0
    (({ w with calls := w.calls ++ zcopy_validation_calls env iov key size remote_copy_addr }
      : State).log (.copy_engine_status dst_agent src_agent)) d_k e_k hk
    (by simpa [State.log] using hpool) (by simpa using hengine)
    (by
      intro t d e ht hd he
      simp only [Nat.zero_add] at he ⊢
      exact hissue t d e ht (by simpa [State.log] using hd) he)
    (by simpa using hfail)
  simp only [State.log, Nat.zero_add] at hw1 hcalls hqueue hpool1
  refine ⟨w1, ?_, hpool1, ?_, ?_, ?_, ?_, ?_⟩
  · rw [zcopy_of_validated env w remote_addr iov key comp is_put size local_agent
      remote_base_addr remote_copy_addr remote_agent hv]
    have hm : ({ w with calls := w.calls ++
        zcopy_validation_calls env iov key size remote_copy_addr } : State).iface.config
        = w.iface.config := rfl
    unfold zcopy_dispatch
    simp only [hm, hmulti, ne_eq, not_false_eq_true, and_self, if_true]
    rw [← hdst_addr, ← hdst_agent, ← hsrc_addr, ← hsrc_agent]
    rw [multi_copy_unfold env
      { w with calls := w.calls ++ zcopy_validation_calls env iov key size remote_copy_addr }
      dst_addr dst_agent src_addr src_agent size remote_base_addr comp E engines N hfound hE hN]
    simp only [hsel, hsig, not_true_eq_false, if_false, ← hchunk, State.log, hw1]
    simp only [hfail, not_false_eq_true, if_true]
  · rw [hpool1, List.getElem?_drop]
    simpa using hpool
  · rw [State.copies, hcalls]
    simp only [List.filter_append, copies_flatMap_chunk_calls, hvcalls, List.append_nil]
    simp [State.copies, ext_call.is_copy]
    omega
  · rw [hqueue]
    simp
    omega
  · intro j hj
    rw [hqueue, List.getElem?_append_left hj]
  · intro j hj
    obtain ⟨d, hd, hget⟩ := zip_range_map_getElem_opt w.iface.signal_pool
      (fun jd => chunk_desc N remote_base_addr comp jd.1 jd.2) k j hj (by omega)
    refine ⟨d, hd, ?_⟩
    rw [hqueue, List.getElem?_append_right (by omega)]
    have hjN : ¬ j = N - 1 := by omega
    simpa [chunk_desc, hjN] using hget

/-- C18 at a get of `12288` bytes in three chunks on a device that refuses the
second chunk (`k = 1`): one descriptor is queued with a null handle. -/
theorem zcopy_multi_engine_chunk_failure_witness :
    ∃ w1, uct_rocm_ipc_ep_zcopy demo_env_chunk_fails demo_state_multi 0x1000
        ⟨0x9000, 12288, 1⟩ demo_key_large (some 42) 0 = some (.UCS_ERR_IO_ERROR, w1) ∧
      w1.iface.signal_pool = demo_state_multi.iface.signal_pool.drop 1 ∧
      w1.iface.signal_pool[0]? = some ⟨101, none, 0⟩ ∧
      w1.copies.length = demo_state_multi.copies.length + (1 + 1) ∧
      w1.iface.signal_queue.length = demo_state_multi.iface.signal_queue.length + 1 ∧
      (∀ j, j < demo_state_multi.iface.signal_queue.length →
        w1.iface.signal_queue[j]? = demo_state_multi.iface.signal_queue[j]?) ∧
      (∀ j, j < 1 → ∃ d, demo_state_multi.iface.signal_pool[j]? = some d ∧
        w1.iface.signal_queue[demo_state_multi.iface.signal_queue.length + j]? =
          some { d with comp := none, mapped_addr := 0x70000000 }) :=
  zcopy_multi_engine_chunk_failure demo_env_chunk_fails demo_state_multi 0x1000
    ⟨0x9000, 12288, 1⟩ demo_key_large (some 42) 0 12288 7 0x70000000 0x70000000 7
    ⟨by decide, by decide, by decide, by decide, by decide, by decide, by decide, by decide,
      by decide, by decide, by decide, by decide, by decide⟩
    (by decide) 0x9000 7 0x70000000 7 (by decide) (by decide) (by decide) (by decide)
    3 [0, 1, 2] (by decide) (by decide) 3 (by decide) [0, 1, 2] (by decide) rfl
    4096 (by decide) 1 (by decide) ⟨101, none, 0⟩ (by decide) 1 (by decide)
    (by
      intro j d e hj hd _
      have hj0 : j = 0 := by omega
      subst hj0
      have hd0 : d = ⟨100, none, 0⟩ := by
        have h : some (⟨100, none, 0⟩ : uct_rocm_base_signal_desc_t) = some d := hd
        exact (Option.some.inj h).symm
      subst hd0
      rfl)
    (by decide)

/-! ## A multi-engine transfer below the threshold -/

/-- Selecting engines from an array of the announced, non-zero length always
returns an array, of the same length. -/
theorem select_engines_some (gpu_agents : List hsa_agent_t) (malloc_ok : Bool)
    (engines : List Nat) (m : Nat) (dst_agent src_agent : hsa_agent_t)
    (hT : 0 < engines.length) :
    ∃ rotated, uct_rocm_ipc_select_engines gpu_agents malloc_ok engines.length engines m
        dst_agent src_agent = some rotated ∧ rotated.length = engines.length := by
  cases malloc_ok with
  | false => exact ⟨engines, by simp [uct_rocm_ipc_select_engines], rfl⟩
  | true =>
    obtain ⟨r, hr, hlen, _⟩ := select_engines_loop_spec (engines.take engines.length)
      engines.length (uct_rocm_ipc_get_agent_pos gpu_agents dst_agent * m) hT (by simp)
      engines.length 0 engines
    exact ⟨r, by simpa [uct_rocm_ipc_select_engines] using hr, hlen⟩

/-- C20: with the engine lookup succeeding (`E > 0` engines found, the signal
array allocated) and a size below the multi-SDMA threshold,
`uct_rocm_ipc_async_multi_copy` uses `N = 1` engine and behaves as
`uct_rocm_ipc_async_copy` on the same inputs. Handed the pool descriptor `d`, each
of the two issues exactly one hardware copy, of the full size at offset `0` of
destination and source (the multi-engine one on one engine), and returns the
status of its issue call; on success each appends the one descriptor `d` with the
completion handle of the caller and the mapped remote base address, so the two
interfaces (signal pool, signal queue) are the same; on issue failure each leaves
the interface, and so the signal queue, as it was. -/
theorem multi_copy_below_threshold_as_single (env : Env) (w : State) (dst_addr : Nat)
    (dst_agent : hsa_agent_t) (src_addr : Nat) (src_agent : hsa_agent_t)
    (size remote_base_addr : Nat) (comp : uct_completion_ptr) (E : Int) (engines : List Nat)
    (d : uct_rocm_base_signal_desc_t) (pool : List uct_rocm_base_signal_desc_t)
    (hdst : dst_addr < 2 ^ 64) (hsrc : src_addr < 2 ^ 64) (hsize : size < 2 ^ 64)
    (hfound : uct_rocm_ipc_get_engines
      (env.hsa_amd_memory_copy_engine_status dst_agent src_agent).1
      (env.hsa_amd_memory_copy_engine_status dst_agent src_agent).2 env.malloc_temp
      (int_of_unsigned w.iface.config.max_sdma_engines) = (E, some engines))
    (hE : 0 < E)
    (hsig : env.malloc_signals = true)
    (hthresh : size < w.iface.config.multi_sdma_thresh)
    (hpool : w.iface.signal_pool = d :: pool) :
    multi_copy_num_engines E w.iface.config.max_sdma_engines size
      w.iface.config.multi_sdma_thresh = some 1 ∧
    ∃ engine_id w_multi w_single,
      uct_rocm_ipc_async_multi_copy env w dst_addr dst_agent src_addr src_agent size
          remote_base_addr comp =
        some (env.hsa_amd_memory_async_copy_on_engine dst_addr dst_agent src_addr src_agent
          size d.signal engine_id, w_multi) ∧
      uct_rocm_ipc_async_copy env w dst_addr dst_agent src_addr src_agent size
          remote_base_addr comp =
        some (env.hsa_amd_memory_async_copy dst_addr dst_agent src_addr src_agent size
          d.signal, w_single) ∧
      w_multi.copies = w.copies ++ [.memory_async_copy_on_engine dst_addr dst_agent src_addr
        src_agent size d.signal engine_id] ∧
      w_single.copies = w.copies ++ [.memory_async_copy dst_addr dst_agent src_addr
        src_agent size d.signal] ∧
      (env.hsa_amd_memory_async_copy_on_engine dst_addr dst_agent src_addr src_agent
          size d.signal engine_id = .HSA_STATUS_SUCCESS →
        w_multi.iface.signal_queue = w.iface.signal_queue ++
          [{ d with comp := comp, mapped_addr := remote_base_addr }] ∧
        w_multi.iface.signal_pool = pool ∧
        (env.hsa_amd_memory_async_copy dst_addr dst_agent src_addr src_agent size d.signal
            = .HSA_STATUS_SUCCESS → w_multi.iface = w_single.iface)) ∧
      (env.hsa_amd_memory_async_copy_on_engine dst_addr dst_agent src_addr src_agent
          size d.signal engine_id ≠ .HSA_STATUS_SUCCESS → w_multi.iface = w.iface) ∧
      (env.hsa_amd_memory_async_copy dst_addr dst_agent src_addr src_agent size d.signal
          ≠ .HSA_STATUS_SUCCESS → w_single.iface = w.iface) := by
  obtain ⟨hlenE, hE32⟩ := get_engines_some _ _ _ _ _ _ hfound
  have hEn : E.toNat = engines.length := by omega
  have hdiv : size / w.iface.config.multi_sdma_thresh = 0 := Nat.div_eq_of_lt hthresh
  have hN : multi_copy_num_engines E w.iface.config.max_sdma_engines size
      w.iface.config.multi_sdma_thresh = some ((1 : Nat) : Int) := by
    rw [multi_copy_num_engines_value E _ _ _ hE (by omega) (by omega) (by rw [hdiv]; decide),
      hdiv]
    congr 1
    simp only [Nat.cast_zero, Nat.cast_one]
    omega
  obtain ⟨rotated, hsel, hrot⟩ := select_engines_some env.uct_rocm_base_get_gpu_agents
    env.malloc_dtemp engines 1 dst_agent src_agent (by omega)
  have hr0 : 0 < rotated.length := by omega
  have he0 : rotated[0]? = some rotated[0] := List.getElem?_eq_getElem hr0
  have hdst0 : add64 dst_addr (mul64 0 (ucs_align_up_pow2 (size / 1) env.ucs_get_page_size))
      = dst_addr := by
    simp only [add64, mul64, SIZE_MOD, Nat.zero_mul, Nat.zero_mod, Nat.add_zero]
    exact Nat.mod_eq_of_lt hdst
  have hsrc0 : add64 src_addr (mul64 0 (ucs_align_up_pow2 (size / 1) env.ucs_get_page_size))
      = src_addr := by
    simp only [add64, mul64, SIZE_MOD, Nat.zero_mul, Nat.zero_mod, Nat.add_zero]
    exact Nat.mod_eq_of_lt hsrc
  have hsize0 : multi_copy_data_size 1 size
      (ucs_align_up_pow2 (size / 1) env.ucs_get_page_size) 0 = size := by
    simp only [multi_copy_data_size, sub64, mul64, SIZE_MOD, Nat.zero_mul, Nat.zero_mod,
      Nat.sub_zero, Nat.sub_self, if_true, Nat.add_mod_right, Nat.mod_mod]
    exact Nat.mod_eq_of_lt hsize
  have hmulti := multi_copy_unfold env w dst_addr dst_agent src_addr src_agent size
    remote_base_addr comp E engines 1 hfound hE hN
  rw [hEn] at hmulti
  simp only [hsel, hsig, not_true_eq_false, if_false] at hmulti
  rw [multi_copy_loop] at hmulti
  simp only [ucs_mpool_get, State.log, hpool, he0, hdst0, hsrc0, hsize0, multi_copy_loop]
    at hmulti
  have hsingle := async_copy_outcome env w dst_addr dst_agent src_addr src_agent size
    remote_base_addr comp d pool hpool
  refine ⟨by simpa using hN, unsigned_of_int (uct_rocm_ipc_map_id_to_engine rotated[0]), ?_⟩
  by_cases hm : env.hsa_amd_memory_async_copy_on_engine dst_addr dst_agent src_addr src_agent
      size d.signal (unsigned_of_int (uct_rocm_ipc_map_id_to_engine rotated[0])) = .HSA_STATUS_SUCCESS
  · simp only [hm, ne_eq, not_true_eq_false, if_false, if_true] at hmulti
    refine ⟨_, _, by rw [hm]; exact hmulti, hsingle, ?_, ?_, ?_, ?_, ?_⟩
    · simp [State.copies, List.filter_append, ext_call.is_copy]
    · simp [State.copies, List.filter_append, ext_call.is_copy]
    · intro _
      refine ⟨by simp [ucs_queue_push], by simp [ucs_queue_push], ?_⟩
      intro hs
      simp [hs, ucs_queue_push]
    · intro h; exact absurd hm h
    · intro hs; simp [hs]
  · simp only [hm, ne_eq, not_false_eq_true, if_true] at hmulti
    refine ⟨_, _, hmulti, hsingle, ?_, ?_, ?_, ?_, ?_⟩
    · simp [State.copies, List.filter_append, ext_call.is_copy]
    · simp [State.copies, List.filter_append, ext_call.is_copy]
    · intro h; exact absurd h hm
    · intro _
      obtain ⟨⟨wpool, wqueue, wconfig⟩, wcalls⟩ := w
      simp only at hpool
      subst hpool
      simp [ucs_mpool_put]
    · intro hs; simp [hs]

/-- C20 at a transfer of `4095` bytes with the threshold `4096`. -/
theorem multi_copy_below_threshold_as_single_witness :
    multi_copy_num_engines 3 demo_state_multi.iface.config.max_sdma_engines 4095
      demo_state_multi.iface.config.multi_sdma_thresh = some 1 ∧
    ∃ engine_id w_multi w_single,
      uct_rocm_ipc_async_multi_copy demo_env demo_state_multi 0x9000 7 0x70000000 7 4095
          0x70000000 (some 42) =
        some (demo_env.hsa_amd_memory_async_copy_on_engine 0x9000 7 0x70000000 7 4095
          (⟨100, none, 0⟩ : uct_rocm_base_signal_desc_t).signal engine_id, w_multi) ∧
      uct_rocm_ipc_async_copy demo_env demo_state_multi 0x9000 7 0x70000000 7 4095
          0x70000000 (some 42) =
        some (demo_env.hsa_amd_memory_async_copy 0x9000 7 0x70000000 7 4095
          (⟨100, none, 0⟩ : uct_rocm_base_signal_desc_t).signal, w_single) ∧
      w_multi.copies = demo_state_multi.copies ++ [.memory_async_copy_on_engine 0x9000 7
        0x70000000 7 4095 (⟨100, none, 0⟩ : uct_rocm_base_signal_desc_t).signal engine_id] ∧
      w_single.copies = demo_state_multi.copies ++ [.memory_async_copy 0x9000 7 0x70000000
        7 4095 (⟨100, none, 0⟩ : uct_rocm_base_signal_desc_t).signal] ∧
      (demo_env.hsa_amd_memory_async_copy_on_engine 0x9000 7 0x70000000 7 4095
          (⟨100, none, 0⟩ : uct_rocm_base_signal_desc_t).signal engine_id
          = .HSA_STATUS_SUCCESS →
        w_multi.iface.signal_queue = demo_state_multi.iface.signal_queue ++
          [{ (⟨100, none, 0⟩ : uct_rocm_base_signal_desc_t) with
              comp := some 42, mapped_addr := 0x70000000 }] ∧
        w_multi.iface.signal_pool = [⟨101, none, 0⟩, ⟨102, none, 0⟩, ⟨103, none, 0⟩] ∧
        (demo_env.hsa_amd_memory_async_copy 0x9000 7 0x70000000 7 4095
            (⟨100, none, 0⟩ : uct_rocm_base_signal_desc_t).signal
            = .HSA_STATUS_SUCCESS → w_multi.iface = w_single.iface)) ∧
      (demo_env.hsa_amd_memory_async_copy_on_engine 0x9000 7 0x70000000 7 4095
          (⟨100, none, 0⟩ : uct_rocm_base_signal_desc_t).signal engine_id
          ≠ .HSA_STATUS_SUCCESS → w_multi.iface = demo_state_multi.iface) ∧
      (demo_env.hsa_amd_memory_async_copy 0x9000 7 0x70000000 7 4095
          (⟨100, none, 0⟩ : uct_rocm_base_signal_desc_t).signal
          ≠ .HSA_STATUS_SUCCESS → w_single.iface = demo_state_multi.iface) :=
  multi_copy_below_threshold_as_single demo_env demo_state_multi 0x9000 7 0x70000000 7 4095
    0x70000000 (some 42) 3 [0, 1, 2] ⟨100, none, 0⟩
    [⟨101, none, 0⟩, ⟨102, none, 0⟩, ⟨103, none, 0⟩]
    (by decide) (by decide) (by decide) (by decide) (by decide) rfl (by decide) rfl

/-- C11 at an interface with two operations outstanding. -/
theorem copy_iface_flush_status_witness :
    (uct_rocm_copy_iface_flush demo_copy_iface 0 (some 5)).1 = .UCS_ERR_UNSUPPORTED ∧
    (uct_rocm_copy_iface_flush demo_copy_iface 0 none).1 = .UCS_INPROGRESS ∧
    (uct_rocm_copy_iface_flush { demo_copy_iface with signal_queue := [] } 0 none).1 =
      .UCS_OK ∧
    (uct_rocm_copy_iface_flush demo_copy_iface 0 none).2.signal_queue =
      demo_copy_iface.signal_queue :=
  ⟨(copy_iface_flush_status demo_copy_iface 0 (some 5)).1 (by decide),
   ((copy_iface_flush_status demo_copy_iface 0 none).2.1 rfl).2.mpr (by decide),
   ((copy_iface_flush_status { demo_copy_iface with signal_queue := [] } 0 none).2.1 rfl).1.mpr
     rfl,
   (copy_iface_flush_status demo_copy_iface 0 none).2.2.2⟩

/-! ## Engine indices and engine identifiers of the chunks -/

/-- The conversion to `int` never yields more than the unsigned value. -/
theorem int_of_unsigned_le (x : Nat) : int_of_unsigned x ≤ (x : Int) := by
  unfold int_of_unsigned
  have h := Nat.mod_le x (2 ^ 32)
  split_ifs <;> omega

/-- With a non-zero threshold the number of engines is computed; it is one, or
else at most the configured maximum and at most `floor(S / T)`. -/
theorem multi_copy_num_engines_cases (E : Int) (M S T : Nat) (hE : 0 < E) (hE32 : E ≤ 32)
    (hT : T ≠ 0) :
    ∃ N : Nat, multi_copy_num_engines E M S T = some (N : Int) ∧ 1 ≤ N ∧ (N : Int) ≤ E ∧
      (N = 1 ∨ (N ≤ M ∧ N ≤ S / T)) := by
  have hu : unsigned_of_int E = E.toNat := unsigned_of_int_small E (by omega) (by omega)
  have hq := int_of_unsigned_le (S / T)
  unfold multi_copy_num_engines
  simp only [hu, hT, if_false]
  generalize int_of_unsigned (S / T) = q at hq
  generalize S / T = Q at hq
  by_cases hM : E.toNat > M
  · have hM31 : M < 2 ^ 31 := by omega
    simp only [hM, if_true, int_of_unsigned_small M hM31]
    by_cases h1 : q < (M : Int)
    · by_cases h2 : q < 1
      · exact ⟨1, by simp [h1, h2], le_refl _, by omega, Or.inl rfl⟩
      · refine ⟨q.toNat, ?_, by omega, by omega, Or.inr ⟨by omega, by omega⟩⟩
        simp only [h1, h2, if_true, if_false]
        congr 1
        omega
    · by_cases h2 : (M : Int) < 1
      · exact ⟨1, by simp [h1, h2], le_refl _, by omega, Or.inl rfl⟩
      · exact ⟨M, by simp [h1, h2], by omega, by omega, Or.inr ⟨le_refl _, by omega⟩⟩
  · simp only [hM, if_false]
    by_cases h1 : q < E
    · by_cases h2 : q < 1
      · exact ⟨1, by simp [h1, h2], le_refl _, by omega, Or.inl rfl⟩
      · refine ⟨q.toNat, ?_, by omega, by omega, Or.inr ⟨by omega, by omega⟩⟩
        simp only [h1, h2, if_true, if_false]
        congr 1
        omega
    · have h2 : ¬ E < 1 := by omega
      refine ⟨E.toNat, ?_, by omega, by omega, Or.inr ⟨by omega, by omega⟩⟩
      simp only [h1, h2, if_false]
      congr 1
      omega

/-- Converting to `int` and back to a 32-bit unsigned value keeps the low 32 bits. -/
theorem unsigned_of_int_of_unsigned (x : Nat) :
    unsigned_of_int (int_of_unsigned x) = x % 2 ^ 32 := by
  unfold unsigned_of_int int_of_unsigned
  have h := Nat.mod_lt x (show 0 < 2 ^ 32 by decide)
  split_ifs <;> omega

/-- The `int` returned for an engine index below `32`: the one-hot value `2 ^ e`,
which for index `31` is the sign bit, `-2147483648`. -/
theorem map_id_to_engine_value (e : Nat) (he : e < 32) :
    uct_rocm_ipc_map_id_to_engine e = if e = 31 then -2147483648 else 2 ^ e := by
  have h : ∀ k, k < 32 →
      uct_rocm_ipc_map_id_to_engine k = if k = 31 then -2147483648 else 2 ^ k := by decide
  exact h e he

/-- The engine identifier handed to the driver for an engine index below `32` is
the one-hot 32-bit value `2 ^ e`. -/
theorem engine_id_eq (e : Nat) (he : e < 32) :
    unsigned_of_int (uct_rocm_ipc_map_id_to_engine e) = 2 ^ e := by
  unfold uct_rocm_ipc_map_id_to_engine HSA_AMD_SDMA_ENGINE_0
  simp only []
  rw [unsigned_of_int_of_unsigned, Nat.one_shiftLeft]
  exact Nat.mod_eq_of_lt (Nat.pow_lt_pow_right (by decide) he)

/-- Different engine indices below `32` have different engine identifiers. -/
theorem engine_id_injective (e1 e2 : Nat) (h1 : e1 < 32) (h2 : e2 < 32)
    (h : unsigned_of_int (uct_rocm_ipc_map_id_to_engine e1) =
      unsigned_of_int (uct_rocm_ipc_map_id_to_engine e2)) : e1 = e2 := by
  rw [engine_id_eq e1 h1, engine_id_eq e2 h2] at h
  exact Nat.pow_right_injective (le_refl 2) h

/-- The identifier of an engine whose bit is set in a mask is contained in the mask. -/
theorem mask_land_engine_id (mask e : Nat) (he : e < 32) (h : mask.testBit e = true) :
    mask &&& unsigned_of_int (uct_rocm_ipc_map_id_to_engine e) =
      unsigned_of_int (uct_rocm_ipc_map_id_to_engine e) := by
  rw [engine_id_eq e he]
  apply Nat.eq_of_testBit_eq
  intro i
  rw [Nat.testBit_and, Nat.testBit_two_pow]
  by_cases hi : e = i
  · subst hi; simp [h]
  · simp [hi]

/-- The set-bit indices of a mask are those of its low 32 bits. -/
theorem set_bit_indices_mod (K : Nat) : set_bit_indices (K % 2 ^ 32) = set_bit_indices K := by
  unfold set_bit_indices
  apply List.filter_congr
  intro i hi
  rw [Nat.testBit_mod_two_pow]
  simp [List.mem_range.mp hi]

/-- The count of set bits of a mask is that of its low 32 bits. -/
theorem popcount32_mod (K : Nat) : popcount32 (K % 2 ^ 32) = popcount32 K := by
  rw [← set_bit_indices_length, ← set_bit_indices_length, set_bit_indices_mod]

/-- The array stored by the engine lookup is strictly ascending with entries below
`32`; it is the list of the set bits of the mask or the hard-coded list. -/
theorem get_engines_entries (status : hsa_status_t) (mask : Nat) (malloc_ok : Bool) (d E : Int)
    (engines : List Nat)
    (h : uct_rocm_ipc_get_engines status mask malloc_ok d = (E, some engines)) :
    engines.Pairwise (· < ·) ∧ (∀ e ∈ engines, e < 32) ∧
      ((popcount32 (mask % 2 ^ 32) : Int) ≥ d → engines = set_bit_indices (mask % 2 ^ 32)) := by
  unfold uct_rocm_ipc_get_engines at h
  have hcount : count_engines_loop (mask % 2 ^ 32) 32 0 0 = (popcount32 (mask % 2 ^ 32) : Int) := by
    rw [count_engines_loop_eq, ← List.range_eq_range', ← set_bit_indices_length]
    simp [set_bit_indices]
  have hfill : fill_engines_loop (mask % 2 ^ 32) 32 0 [] = set_bit_indices (mask % 2 ^ 32) := by
    rw [fill_engines_loop_eq, ← List.range_eq_range']
    simp [set_bit_indices]
  have hlt : ∀ e ∈ set_bit_indices (mask % 2 ^ 32), e < 32 := by
    intro e he
    simp only [set_bit_indices, List.mem_filter, List.mem_range] at he
    exact he.1
  simp only [hcount, hfill] at h
  split_ifs at h with h1 h2 h3 h4 <;>
    simp only [Prod.mk.injEq, Option.some.injEq, reduceCtorEq, and_false] at h
  · obtain ⟨_, h2⟩ := h
    subst h2
    exact ⟨set_bit_indices_sorted _, hlt, fun _ => rfl⟩
  · obtain ⟨_, h2⟩ := h
    subst h2
    refine ⟨by decide, by decide, fun hp => absurd hp ?_⟩
    assumption

/-- Selecting engines permutes the engine array: it is left as it was (scratch
array not allocated) or rotated. -/
theorem select_engines_perm (gpu_agents : List hsa_agent_t) (malloc_ok : Bool)
    (engines : List Nat) (m : Nat) (dst_agent src_agent : hsa_agent_t) (r : List Nat)
    (hT : 0 < engines.length)
    (h : uct_rocm_ipc_select_engines gpu_agents malloc_ok engines.length engines m dst_agent
      src_agent = some r) : r.Perm engines := by
  unfold uct_rocm_ipc_select_engines at h
  cases malloc_ok with
  | false =>
    simp at h
    rw [← h]
  | true =>
    obtain ⟨r1, hr1, hlen, hget⟩ := select_engines_loop_spec (engines.take engines.length)
      engines.length (uct_rocm_ipc_get_agent_pos gpu_agents dst_agent * m) hT (by simp)
      engines.length 0 engines
    simp at h hr1
    rw [hr1] at h
    simp only [Option.some.injEq] at h
    subst h
    have hrot : r1 = engines.rotate (uct_rocm_ipc_get_agent_pos gpu_agents dst_agent * m) := by
      apply List.ext_getElem?
      intro i
      by_cases hi : i < engines.length
      · rw [hget i, List.getElem?_rotate hi]
        simp [hi]
      · rw [List.getElem?_eq_none (by omega), List.getElem?_eq_none (by simp; omega)]
    rw [hrot]
    exact List.rotate_perm _ _

/-- The chunk loop returns whenever the pool holds a descriptor and the engine
array an entry for every chunk. -/
theorem multi_copy_loop_returns (env : Env) (engines : List Nat) (N S chunk dst : Nat)
    (da : hsa_agent_t) (src : Nat) (sa : hsa_agent_t) (rba : Nat) (comp : uct_completion_ptr) :
    ∀ (n i : Nat) (w : State), n ≤ w.iface.signal_pool.length → i + n ≤ engines.length →
      ∃ r, multi_copy_loop env engines N S chunk dst da src sa rba comp n i w = some r := by
  intro n
  induction n with
  | zero => exact fun i w _ _ => ⟨_, rfl⟩
  | succ n ih =>
    intro i w hpool heng
    cases hp : w.iface.signal_pool with
    | nil => rw [hp] at hpool; simp at hpool
    | cons d rest =>
      have hi : i < engines.length := by omega
      have he : engines[i]? = some engines[i] := List.getElem?_eq_getElem hi
      rw [multi_copy_loop]
      simp only [ucs_mpool_get, hp, he]
      by_cases hs : env.hsa_amd_memory_async_copy_on_engine (add64 dst (mul64 i chunk)) da
          (add64 src (mul64 i chunk)) sa (multi_copy_data_size N S chunk i) d.signal
          (unsigned_of_int (uct_rocm_ipc_map_id_to_engine engines[i])) = .HSA_STATUS_SUCCESS
      · rw [if_neg (by simpa using hs)]
        apply ih (i + 1)
        · simp only [ucs_queue_push, State.log]
          rw [hp] at hpool
          simpa using hpool
        · omega
      · rw [if_pos (by simpa using hs)]
        exact ⟨_, rfl⟩

/-- The number of set bits among the low 32 binary digits is at most `32`. -/
theorem popcount32_le (K : Nat) : popcount32 K ≤ 32 := by
  rw [← set_bit_indices_length]
  have := List.length_filter_le (fun i => K.testBit i) (List.range 32)
  simpa [set_bit_indices] using this

/-- When at least the desired number of engines is available, every entry of the
array stored by the engine lookup is a set bit of the mask. -/
theorem get_engines_entries_in_mask (status : hsa_status_t) (mask : Nat) (malloc_ok : Bool)
    (M : Nat) (E : Int) (engines : List Nat)
    (h : uct_rocm_ipc_get_engines status mask malloc_ok (int_of_unsigned M) = (E, some engines))
    (hpop : M ≤ popcount32 mask) (e : Nat) (he : e ∈ engines) : mask.testBit e = true := by
  obtain ⟨_, _, hfrom⟩ := get_engines_entries _ _ _ _ _ _ h
  have hp32 := popcount32_le mask
  have hM : int_of_unsigned M = (M : Int) := int_of_unsigned_small _ (by omega)
  have heq := hfrom (by rw [popcount32_mod, hM]; exact_mod_cast hpop)
  rw [set_bit_indices_mod] at heq
  rw [heq] at he
  simp only [set_bit_indices, List.mem_filter] at he
  exact he.2

/-- The run of `uct_rocm_ipc_async_multi_copy` once `N` engines of the rotated
array are to be used: with `N` descriptors in the pool the call returns, and the
copies a returning call issues carry, chunk by chunk, the engine identifiers of
the entries `0, 1, ...` of the rotated array. -/
theorem multi_copy_run_engine_ids (env : Env) (w : State) (dst_addr : Nat)
    (dst_agent : hsa_agent_t) (src_addr : Nat) (src_agent : hsa_agent_t)
    (size remote_base_addr : Nat) (comp : uct_completion_ptr) (E : Int) (engines : List Nat)
    (N : Nat) (rotated : List Nat)
    (hfound : uct_rocm_ipc_get_engines
      (env.hsa_amd_memory_copy_engine_status dst_agent src_agent).1
      (env.hsa_amd_memory_copy_engine_status dst_agent src_agent).2 env.malloc_temp
      (int_of_unsigned w.iface.config.max_sdma_engines) = (E, some engines))
    (hE : 0 < E)
    (hN : multi_copy_num_engines E w.iface.config.max_sdma_engines size
      w.iface.config.multi_sdma_thresh = some (N : Int))
    (hsel : uct_rocm_ipc_select_engines env.uct_rocm_base_get_gpu_agents env.malloc_dtemp
      E.toNat engines N dst_agent src_agent = some rotated)
    (hNlen : N ≤ rotated.length) :
    (N ≤ w.iface.signal_pool.length →
      ∃ r, uct_rocm_ipc_async_multi_copy env w dst_addr dst_agent src_addr src_agent size
        remote_base_addr comp = some r) ∧
    (∀ r, uct_rocm_ipc_async_multi_copy env w dst_addr dst_agent src_addr src_agent size
        remote_base_addr comp = some r →
      ∃ L, r.2.copies = w.copies ++ L ∧ L.length ≤ N ∧
        (r.1 = .HSA_STATUS_SUCCESS → L.length = N) ∧
        ∀ j, j < L.length → ∃ e dst src data_size signal, rotated[j]? = some e ∧
          L[j]? = some (.memory_async_copy_on_engine dst dst_agent src src_agent data_size
            signal (unsigned_of_int (uct_rocm_ipc_map_id_to_engine e)))) := by
  have hget : ∀ i, i < N → ∃ hi : i < rotated.length, rotated[i]? = some rotated[i] :=
    fun i hi => ⟨by omega, List.getElem?_eq_getElem (by omega)⟩
  have hmulti := multi_copy_unfold env w dst_addr dst_agent src_addr src_agent size
    remote_base_addr comp E engines N hfound hE hN
  simp only [hsel] at hmulti
  refine ⟨?_, ?_⟩
  · intro hpool
    rw [hmulti]
    by_cases hsig : env.malloc_signals = true
    · simp only [hsig, not_true_eq_false, if_false]
      exact multi_copy_loop_returns env rotated N size _ dst_addr dst_agent src_addr src_agent
        remote_base_addr comp N 0 (w.log (.copy_engine_status dst_agent src_agent))
        (by simpa [State.log] using hpool) (by omega)
    · simp only [hsig, not_false_eq_true, if_true]
      exact ⟨_, rfl⟩
  · intro r hr
    rw [hmulti] at hr
    by_cases hsig : env.malloc_signals = true
    · simp only [hsig, not_true_eq_false, if_false] at hr
      obtain ⟨k, m, hkm, hmn, hmp, hcalls, _, _, _, hcase⟩ :=
        multi_copy_loop_spec env rotated N size _ dst_addr dst_agent src_addr src_agent
          remote_base_addr comp N 0 _ _ hr
      simp only [State.log] at hmp hcalls
      refine ⟨((List.range' 0 m).zip (w.iface.signal_pool.take m)).map
        (fun jd => chunk_copy_call N size
          (ucs_align_up_pow2 (size / N) env.ucs_get_page_size) dst_addr dst_agent src_addr
          src_agent jd.1 jd.2 (rotated.getD jd.1 0)), ?_, ?_, ?_, ?_⟩
      · unfold State.copies
        rw [hcalls]
        simp only [List.filter_append, copies_flatMap_chunk_calls]
        simp [ext_call.is_copy]
      · simp; omega
      · intro hs
        rcases hcase with ⟨_, h2, h3⟩ | ⟨h1, _⟩
        · simp; omega
        · exact absurd hs h1
      · intro j hj
        have hjm : j < m := by
          simp at hj; omega
        obtain ⟨d, _, hgetj⟩ := zip_range_map_getElem_opt w.iface.signal_pool
          (fun jd => chunk_copy_call N size
            (ucs_align_up_pow2 (size / N) env.ucs_get_page_size) dst_addr dst_agent src_addr
            src_agent jd.1 jd.2 (rotated.getD jd.1 0)) m j hjm hmp
        obtain ⟨hjl, hgj⟩ := hget j (by omega)
        refine ⟨rotated[j],
          add64 dst_addr (mul64 j (ucs_align_up_pow2 (size / N) env.ucs_get_page_size)),
          add64 src_addr (mul64 j (ucs_align_up_pow2 (size / N) env.ucs_get_page_size)),
          multi_copy_data_size N size (ucs_align_up_pow2 (size / N) env.ucs_get_page_size) j,
          d.signal, hgj, ?_⟩
        rw [hgetj]
        simp [chunk_copy_call, List.getD_eq_getElem?_getD, hgj]
    · have hsig2 : env.malloc_signals = false := by simpa using hsig
      simp only [hsig2, Bool.false_eq_true, not_false_eq_true, if_true, Option.some.injEq] at hr
      subst hr
      refine ⟨[], ?_, by simp, ?_, ?_⟩
      · simp [State.copies, State.log, ext_call.is_copy]
      · intro h; exact absurd h (by simp)
      · intro j hj; simp at hj

/-- C21: in `uct_rocm_ipc_async_multi_copy`, whenever the engine lookup returns
`E > 0` engines, every index used is in bounds. The array has `E` entries; the
number of engines is computed whenever the threshold is not zero (with a zero
threshold the division fails before any engine is selected), and for the number
`N` computed: `1 <= N <= E`, each read index `(i + p * N) mod E` of the rotation
lies below `E`, the rotation returns an array of `E` entries, and each chunk
`i < N` reads an entry `e < 32` of it. The engine identifier assigned to the chunk
and handed to the driver is the one-hot 32-bit value `1 << e = 2 ^ e` (the helper
returns it as `int`, which for `e = 31` is `-2147483648`), and the identifiers of
different chunks are different. When the list came from the availability mask
(`popcount(mask) >= max_sdma_engines`) every assigned identifier is a bit that is
set in the mask. In the run itself: with `N` descriptors in the pool the call
returns, and the copies a returning call issues carry, chunk by chunk, the
identifiers of the entries `0, 1, ...` of the rotated array. -/
theorem multi_copy_engine_indices_in_bounds (env : Env) (w : State) (dst_addr : Nat)
    (dst_agent : hsa_agent_t) (src_addr : Nat) (src_agent : hsa_agent_t)
    (size remote_base_addr : Nat) (comp : uct_completion_ptr) (E : Int) (engines : List Nat)
    (hfound : uct_rocm_ipc_get_engines
      (env.hsa_amd_memory_copy_engine_status dst_agent src_agent).1
      (env.hsa_amd_memory_copy_engine_status dst_agent src_agent).2 env.malloc_temp
      (int_of_unsigned w.iface.config.max_sdma_engines) = (E, some engines))
    (hE : 0 < E) :
    engines.length = E.toNat ∧
    (w.iface.config.multi_sdma_thresh ≠ 0 →
      ∃ N : Nat, multi_copy_num_engines E w.iface.config.max_sdma_engines size
        w.iface.config.multi_sdma_thresh = some (N : Int)) ∧
    ∀ n : Int, multi_copy_num_engines E w.iface.config.max_sdma_engines size
        w.iface.config.multi_sdma_thresh = some n →
      ∃ (N : Nat) (rotated : List Nat), n = (N : Int) ∧ 1 ≤ N ∧ N ≤ engines.length ∧
        (∀ i, (i + uct_rocm_ipc_get_agent_pos env.uct_rocm_base_get_gpu_agents dst_agent * N)
          % E.toNat < engines.length) ∧
        uct_rocm_ipc_select_engines env.uct_rocm_base_get_gpu_agents env.malloc_dtemp E.toNat
          engines N dst_agent src_agent = some rotated ∧
        rotated.length = engines.length ∧
        (∀ i, i < N → ∃ e, rotated[i]? = some e ∧ e < 32 ∧
          unsigned_of_int (uct_rocm_ipc_map_id_to_engine e) = 2 ^ e ∧
          uct_rocm_ipc_map_id_to_engine e = (if e = 31 then -2147483648 else 2 ^ e) ∧
          (w.iface.config.max_sdma_engines ≤
              popcount32 (env.hsa_amd_memory_copy_engine_status dst_agent src_agent).2 →
            (env.hsa_amd_memory_copy_engine_status dst_agent src_agent).2.testBit e = true ∧
            (env.hsa_amd_memory_copy_engine_status dst_agent src_agent).2 &&&
                unsigned_of_int (uct_rocm_ipc_map_id_to_engine e) =
              unsigned_of_int (uct_rocm_ipc_map_id_to_engine e))) ∧
        (∀ i j, i < N → j < N → i ≠ j →
          (rotated[i]?).map (fun e => unsigned_of_int (uct_rocm_ipc_map_id_to_engine e)) ≠
            (rotated[j]?).map (fun e => unsigned_of_int (uct_rocm_ipc_map_id_to_engine e))) ∧
        (N ≤ w.iface.signal_pool.length →
          ∃ r, uct_rocm_ipc_async_multi_copy env w dst_addr dst_agent src_addr src_agent size
            remote_base_addr comp = some r) ∧
        (∀ r, uct_rocm_ipc_async_multi_copy env w dst_addr dst_agent src_addr src_agent size
            remote_base_addr comp = some r →
          ∃ L, r.2.copies = w.copies ++ L ∧ L.length ≤ N ∧
            (r.1 = .HSA_STATUS_SUCCESS → L.length = N) ∧
            ∀ j, j < L.length → ∃ e dst src data_size signal, rotated[j]? = some e ∧
              L[j]? = some (.memory_async_copy_on_engine dst dst_agent src src_agent data_size
                signal (unsigned_of_int (uct_rocm_ipc_map_id_to_engine e)))) := by
  obtain ⟨hlenE, hE32⟩ := get_engines_some _ _ _ _ _ _ hfound
  obtain ⟨hsorted, hlt32, _⟩ := get_engines_entries _ _ _ _ _ _ hfound
  have hEn : E.toNat = engines.length := by omega
  refine ⟨hEn.symm, ?_, ?_⟩
  · intro hT
    obtain ⟨N, hN, _⟩ := multi_copy_num_engines_cases E
      w.iface.config.max_sdma_engines size w.iface.config.multi_sdma_thresh hE hE32 hT
    exact ⟨N, hN⟩
  intro n hn
  obtain ⟨hn1, hnE⟩ := multi_copy_num_engines_bounds E _ _ _ n hE hE32 hn
  obtain ⟨N, hnN⟩ : ∃ N : Nat, n = (N : Int) := ⟨n.toNat, by omega⟩
  rw [hnN] at hn hn1 hnE
  have hN := hn
  have hN1 : 1 ≤ N := by omega
  have hNlen : N ≤ engines.length := by omega
  have hlen0 : 0 < engines.length := by omega
  obtain ⟨rotated, hsel, hrotlen⟩ := select_engines_some env.uct_rocm_base_get_gpu_agents
    env.malloc_dtemp engines N dst_agent src_agent hlen0
  have hperm := select_engines_perm env.uct_rocm_base_get_gpu_agents env.malloc_dtemp engines N
    dst_agent src_agent rotated hlen0 hsel
  have hnodup : rotated.Nodup :=
    hperm.nodup_iff.mpr (hsorted.imp (fun h => Nat.ne_of_lt h))
  have hget : ∀ i, i < N → ∃ hi : i < rotated.length, rotated[i]? = some rotated[i] :=
    fun i hi => ⟨by omega, List.getElem?_eq_getElem (by omega)⟩
  have hlt : ∀ i (hi : i < rotated.length), rotated[i] < 32 :=
    fun i hi => hlt32 _ (hperm.mem_iff.mp (List.getElem_mem hi))
  refine ⟨N, rotated, hnN, hN1, hNlen, ?_, by rw [hEn]; exact hsel, hrotlen, ?_, ?_, ?_, ?_⟩
  · intro i
    rw [hEn]
    exact Nat.mod_lt _ hlen0
  · intro i hi
    obtain ⟨hil, hgi⟩ := hget i hi
    have hmem : rotated[i] ∈ engines := hperm.mem_iff.mp (List.getElem_mem hil)
    have h32 : rotated[i] < 32 := hlt i hil
    refine ⟨rotated[i], hgi, h32, engine_id_eq rotated[i] h32,
      map_id_to_engine_value rotated[i] h32, ?_⟩
    intro hpop
    have hbit := get_engines_entries_in_mask _ _ _ _ _ _ hfound hpop rotated[i] hmem
    exact ⟨hbit, mask_land_engine_id _ rotated[i] h32 hbit⟩
  · intro i j hi hj hij heq
    obtain ⟨hil, hgi⟩ := hget i hi
    obtain ⟨hjl, hgj⟩ := hget j hj
    rw [hgi, hgj] at heq
    simp only [Option.map_some', Option.some.injEq] at heq
    exact hij (hnodup.getElem_inj_iff.mp
      (engine_id_injective _ _ (hlt i hil) (hlt j hjl) heq))
  · exact (multi_copy_run_engine_ids env w dst_addr dst_agent src_addr src_agent size
      remote_base_addr comp E engines N rotated hfound hE hN (by rw [hEn]; exact hsel)
      (by omega)).1
  · exact (multi_copy_run_engine_ids env w dst_addr dst_agent src_addr src_agent size
      remote_base_addr comp E engines N rotated hfound hE hN (by rw [hEn]; exact hsel)
      (by omega)).2

/-- C21 at a put of `8194` bytes with three engines available (mask `0b111`), at
most three configured and the threshold `4096`: two chunks on two of the engines. -/
theorem multi_copy_engine_indices_in_bounds_witness :
    ∃ (N : Nat) (rotated : List Nat),
      multi_copy_num_engines 3 demo_state_multi.iface.config.max_sdma_engines 8194
        demo_state_multi.iface.config.multi_sdma_thresh = some (N : Int) ∧
      [0, 1, 2].length = (3 : Int).toNat ∧ 1 ≤ N ∧ N ≤ [0, 1, 2].length ∧
      (∀ i, (i + uct_rocm_ipc_get_agent_pos demo_env.uct_rocm_base_get_gpu_agents 7 * N)
        % (3 : Int).toNat < [0, 1, 2].length) ∧
      uct_rocm_ipc_select_engines demo_env.uct_rocm_base_get_gpu_agents demo_env.malloc_dtemp
        (3 : Int).toNat [0, 1, 2] N 7 7 = some rotated ∧
      rotated.length = [0, 1, 2].length ∧
      (∀ i, i < N → ∃ e, rotated[i]? = some e ∧ e < 32 ∧
        unsigned_of_int (uct_rocm_ipc_map_id_to_engine e) = 2 ^ e ∧
        uct_rocm_ipc_map_id_to_engine e = (if e = 31 then -2147483648 else 2 ^ e) ∧
        (demo_state_multi.iface.config.max_sdma_engines ≤
            popcount32 (demo_env.hsa_amd_memory_copy_engine_status 7 7).2 →
          (demo_env.hsa_amd_memory_copy_engine_status 7 7).2.testBit e = true ∧
          (demo_env.hsa_amd_memory_copy_engine_status 7 7).2 &&&
              unsigned_of_int (uct_rocm_ipc_map_id_to_engine e) =
            unsigned_of_int (uct_rocm_ipc_map_id_to_engine e))) ∧
      (∀ i j, i < N → j < N → i ≠ j →
        (rotated[i]?).map (fun e => unsigned_of_int (uct_rocm_ipc_map_id_to_engine e)) ≠
          (rotated[j]?).map (fun e => unsigned_of_int (uct_rocm_ipc_map_id_to_engine e))) ∧
      (N ≤ demo_state_multi.iface.signal_pool.length →
        ∃ r, uct_rocm_ipc_async_multi_copy demo_env demo_state_multi 0x70000000 7 0x9000 7 8194
          0x70000000 (some 42) = some r) ∧
      (∀ r, uct_rocm_ipc_async_multi_copy demo_env demo_state_multi 0x70000000 7 0x9000 7 8194
          0x70000000 (some 42) = some r →
        ∃ L, r.2.copies = demo_state_multi.copies ++ L ∧ L.length ≤ N ∧
          (r.1 = .HSA_STATUS_SUCCESS → L.length = N) ∧
          ∀ j, j < L.length → ∃ e dst src data_size signal, rotated[j]? = some e ∧
            L[j]? = some (.memory_async_copy_on_engine dst 7 src 7 data_size
              signal (unsigned_of_int (uct_rocm_ipc_map_id_to_engine e)))) := by
  obtain ⟨hlen, hex, hall⟩ := multi_copy_engine_indices_in_bounds demo_env demo_state_multi
    0x70000000 7 0x9000 7 8194 0x70000000 (some 42) 3 [0, 1, 2] (by decide) (by decide)
  obtain ⟨N, hN⟩ := hex (by decide)
  obtain ⟨N1, rotated, hn, h1, h2, h3, h4, h5, h6, h7, h8, h9⟩ := hall N hN
  have hNN : N1 = N := by exact_mod_cast hn.symm
  subst hNN
  exact ⟨N1, rotated, hN, hlen, h1, h2, h3, h4, h5, h6, h7, h8, h9⟩

/-! ## Chunks of a transfer whose threshold covers a page per engine -/

/-- Byte count of a chunk when the offset of the last chunk lies inside the transfer. -/
theorem multi_copy_data_size_of_bound (N S c i : Nat) (hS64 : S < 2 ^ 64)
    (hb : (N - 1) * c < S) (hi : i < N) :
    mul64 i c = i * c ∧ i * c ≤ (N - 1) * c ∧
      multi_copy_data_size N S c i = if i = N - 1 then S - (N - 1) * c else c := by
  have hle : i * c ≤ (N - 1) * c := Nat.mul_le_mul_right c (by omega)
  have hm : mul64 i c = i * c := by
    unfold mul64 SIZE_MOD
    exact Nat.mod_eq_of_lt (by omega)
  refine ⟨hm, hle, ?_⟩
  unfold multi_copy_data_size
  by_cases h : i = N - 1
  · rw [if_pos h, if_pos h, hm, h]
    unfold sub64 SIZE_MOD
    rw [Nat.mod_eq_of_lt hS64, Nat.mod_eq_of_lt (show (N - 1) * c < 2 ^ 64 by omega)]
    have h2 : S + 2 ^ 64 - (N - 1) * c = (S - (N - 1) * c) + 2 ^ 64 := by omega
    rw [h2, Nat.add_mod_right]
    exact Nat.mod_eq_of_lt (by omega)
  · rw [if_neg h, if_neg h]

/-- When the offset of the last chunk lies inside the transfer, the chunks lie
inside the transfer, are pairwise disjoint and cover it. -/
theorem chunks_partition_of_bound (N S c : Nat) (hN : 1 ≤ N) (hS64 : S < 2 ^ 64)
    (hb : (N - 1) * c < S) :
    (∀ i, i < N → mul64 i c = i * c ∧ i * c + multi_copy_data_size N S c i ≤ S) ∧
    (multi_copy_data_size N S c (N - 1) = S - (N - 1) * c ∧
      0 < multi_copy_data_size N S c (N - 1)) ∧
    (∀ i j, i < N → j < N → i ≠ j → ∀ x,
      ¬ ((i * c ≤ x ∧ x < i * c + multi_copy_data_size N S c i) ∧
         (j * c ≤ x ∧ x < j * c + multi_copy_data_size N S c j))) ∧
    (∀ x, x < S ↔ ∃ i, i < N ∧ i * c ≤ x ∧ x < i * c + multi_copy_data_size N S c i) := by
  have hds := multi_copy_data_size_of_bound N S c
  have hin : ∀ i, i < N → mul64 i c = i * c ∧ i * c + multi_copy_data_size N S c i ≤ S := by
    intro i hi
    obtain ⟨hm, hle, hd⟩ := hds i hS64 hb hi
    refine ⟨hm, ?_⟩
    rw [hd]
    by_cases h : i = N - 1
    · rw [if_pos h, h]; omega
    · rw [if_neg h]
      have h1 : (i + 1) * c ≤ (N - 1) * c := Nat.mul_le_mul_right c (by omega)
      rw [Nat.succ_mul] at h1
      omega
  have hsep : ∀ i j, i < j → j < N → ∀ x,
      ¬ ((i * c ≤ x ∧ x < i * c + multi_copy_data_size N S c i) ∧
         (j * c ≤ x ∧ x < j * c + multi_copy_data_size N S c j)) := by
    intro i j hij hj x hx
    obtain ⟨_, _, hd⟩ := hds i hS64 hb (by omega)
    rw [hd, if_neg (by omega)] at hx
    have h1 : (i + 1) * c ≤ j * c := Nat.mul_le_mul_right c (by omega)
    rw [Nat.succ_mul] at h1
    omega
  refine ⟨hin, ?_, ?_, ?_⟩
  · obtain ⟨_, _, hd⟩ := hds (N - 1) hS64 hb (by omega)
    rw [hd, if_pos rfl]
    exact ⟨rfl, by omega⟩
  · intro i j hi hj hij x hx
    rcases Nat.lt_or_gt_of_ne hij with h | h
    · exact hsep i j h hj x hx
    · exact hsep j i h hi x ⟨hx.2, hx.1⟩
  · intro x
    constructor
    · intro hx
      by_cases hlast : x < (N - 1) * c
      · have hc : 0 < c := by
          rcases Nat.eq_zero_or_pos c with h0 | h0
          · rw [h0] at hlast; simp at hlast
          · exact h0
        have hq : x / c < N - 1 := (Nat.div_lt_iff_lt_mul hc).mpr hlast
        obtain ⟨_, _, hd⟩ := hds (x / c) hS64 hb (by omega)
        refine ⟨x / c, by omega, Nat.div_mul_le_self x c, ?_⟩
        rw [hd, if_neg (by omega)]
        exact Nat.lt_div_mul_add hc
      · obtain ⟨_, _, hd⟩ := hds (N - 1) hS64 hb (by omega)
        refine ⟨N - 1, by omega, by omega, ?_⟩
        rw [hd, if_pos rfl]
        omega
    · rintro ⟨i, hi, _, hx⟩
      have := (hin i hi).2
      omega

/-- With `2 <= N <= M`, `N <= floor(S / T)` and `T >= M * P`, the aligned chunk
size puts the offset of the last chunk inside the transfer. -/
theorem last_chunk_offset_lt (N M S T P : Nat) (hN2 : 2 ≤ N) (hNM : N ≤ M) (hNq : N ≤ S / T)
    (hP : 0 < P) (hT : M * P ≤ T) (hS64 : S < 2 ^ 64) :
    (N - 1) * ucs_align_up_pow2 (S / N) P < S := by
  have hMP : 0 < M * P := Nat.mul_pos (by omega) hP
  have hT0 : 0 < T := by omega
  have h1 : N * T ≤ S := (Nat.le_div_iff_mul_le hT0).mp hNq
  have h2 : N * (M * P) ≤ N * T := Nat.mul_le_mul_left N hT
  have h3 : N * (N * P) ≤ N * (M * P) :=
    Nat.mul_le_mul_left N (Nat.mul_le_mul_right P hNM)
  have h4 : N * P ≤ S / N := by
    rw [Nat.le_div_iff_mul_le (by omega)]
    calc N * P * N = N * (N * P) := by ring
      _ ≤ S := by omega
  have h5 : N * (S / N) ≤ S := Nat.mul_div_le S N
  have h6 : S / N ≤ S / 2 := Nat.div_le_div_left hN2 (by decide)
  have h7 : P ≤ N * P := Nat.le_mul_of_pos_left P (by omega)
  have hx : (S / N + (P - 1)) % SIZE_MOD = S / N + (P - 1) := by
    unfold SIZE_MOD
    exact Nat.mod_eq_of_lt (by omega)
  have hc : ucs_align_up_pow2 (S / N) P ≤ S / N + (P - 1) := by
    unfold ucs_align_up_pow2
    simp only [hx]
    exact Nat.sub_le _ _
  have h8 : (N - 1) * ucs_align_up_pow2 (S / N) P ≤ (N - 1) * (S / N + (P - 1)) :=
    Nat.mul_le_mul_left _ hc
  have h9 : (N - 1) * (S / N + (P - 1)) ≤ (N - 1) * (S / N) + (N - 1) * P := by
    rw [Nat.mul_add]
    exact Nat.add_le_add_left (Nat.mul_le_mul_left _ (Nat.sub_le _ _)) _
  have h10 : N * (S / N) = (N - 1) * (S / N) + S / N := by
    have : N = (N - 1) + 1 := by omega
    nth_rewrite 1 [this]
    rw [Nat.succ_mul]
  have h11 : N * P = (N - 1) * P + P := by
    have : N = (N - 1) + 1 := by omega
    nth_rewrite 1 [this]
    rw [Nat.succ_mul]
  omega

/-- C22: in `uct_rocm_ipc_async_multi_copy`, for every size `0 < S < 2 ^ 64`,
power-of-two page size `P`, configured `max_sdma_engines` `M >= 1` and threshold
`T >= M * P`, after an engine lookup that found `E > 0` engines, the number of
engines `N >= 1` is computed and, with `chunk_size = S / N` rounded up to the page
size, every chunk stays inside the transfer: for each `i < N` the offset
`i * chunk_size` is formed without wrap-around and
`i * chunk_size + data_size_i <= S`; the size of the last chunk is
`S - (N - 1) * chunk_size` with `(N - 1) * chunk_size < S`, so it is computed
without underflow and is positive; the chunks
`[i * chunk_size, i * chunk_size + data_size_i)` are pairwise disjoint and cover
`[0, S)` exactly. -/
theorem multi_copy_chunks_partition (status : hsa_status_t) (mask : Nat) (malloc_ok : Bool)
    (E : Int) (engines : List Nat) (M S T P a : Nat)
    (hfound : uct_rocm_ipc_get_engines status mask malloc_ok (int_of_unsigned M) =
      (E, some engines))
    (hE : 0 < E) (hS : 0 < S) (hS64 : S < 2 ^ 64) (hP : P = 2 ^ a) (hM : 1 ≤ M)
    (hT : M * P ≤ T) :
    ∃ N chunk_size : Nat,
      multi_copy_num_engines E M S T = some (N : Int) ∧
      chunk_size = ucs_align_up_pow2 (S / N) P ∧ 1 ≤ N ∧
      (∀ i, i < N → mul64 i chunk_size = i * chunk_size ∧
        i * chunk_size + multi_copy_data_size N S chunk_size i ≤ S) ∧
      (N - 1) * chunk_size < S ∧
      (multi_copy_data_size N S chunk_size (N - 1) = S - (N - 1) * chunk_size ∧
        0 < multi_copy_data_size N S chunk_size (N - 1)) ∧
      (∀ i j, i < N → j < N → i ≠ j → ∀ x,
        ¬ ((i * chunk_size ≤ x ∧ x < i * chunk_size + multi_copy_data_size N S chunk_size i) ∧
           (j * chunk_size ≤ x ∧
             x < j * chunk_size + multi_copy_data_size N S chunk_size j))) ∧
      (∀ x, x < S ↔ ∃ i, i < N ∧ i * chunk_size ≤ x ∧
        x < i * chunk_size + multi_copy_data_size N S chunk_size i) := by
  obtain ⟨_, hE32⟩ := get_engines_some _ _ _ _ _ _ hfound
  have hPpos : 0 < P := by rw [hP]; positivity
  have hT0 : T ≠ 0 := by
    have : 0 < M * P := Nat.mul_pos hM hPpos
    omega
  obtain ⟨N, hN, hN1, _, hcase⟩ := multi_copy_num_engines_cases E M S T hE hE32 hT0
  have hb : (N - 1) * ucs_align_up_pow2 (S / N) P < S := by
    rcases hcase with h1 | ⟨hNM, hNq⟩
    · rw [h1]; simpa using hS
    · by_cases h2 : 2 ≤ N
      · exact last_chunk_offset_lt N M S T P h2 hNM hNq hPpos hT hS64
      · have h1 : N = 1 := by omega
        rw [h1]; simpa using hS
  obtain ⟨h1, h2, h3, h4⟩ := chunks_partition_of_bound N S _ hN1 hS64 hb
  exact ⟨N, _, hN, rfl, hN1, h1, hb, h2, h3, h4⟩

/-- C22 at three engines, page size `4096`, threshold `3 * 4096` and a transfer of
`3 * 12288 + 5` bytes. -/
theorem multi_copy_chunks_partition_witness :
    ∃ N chunk_size : Nat,
      multi_copy_num_engines 3 3 36869 12288 = some (N : Int) ∧
      chunk_size = ucs_align_up_pow2 (36869 / N) 4096 ∧ 1 ≤ N ∧
      (∀ i, i < N → mul64 i chunk_size = i * chunk_size ∧
        i * chunk_size + multi_copy_data_size N 36869 chunk_size i ≤ 36869) ∧
      (N - 1) * chunk_size < 36869 ∧
      (multi_copy_data_size N 36869 chunk_size (N - 1) = 36869 - (N - 1) * chunk_size ∧
        0 < multi_copy_data_size N 36869 chunk_size (N - 1)) ∧
      (∀ i j, i < N → j < N → i ≠ j → ∀ x,
        ¬ ((i * chunk_size ≤ x ∧
              x < i * chunk_size + multi_copy_data_size N 36869 chunk_size i) ∧
           (j * chunk_size ≤ x ∧
             x < j * chunk_size + multi_copy_data_size N 36869 chunk_size j))) ∧
      (∀ x, x < 36869 ↔ ∃ i, i < N ∧ i * chunk_size ≤ x ∧
        x < i * chunk_size + multi_copy_data_size N 36869 chunk_size i) :=
  multi_copy_chunks_partition .HSA_STATUS_SUCCESS 7 true 3 [0, 1, 2] 3 36869 12288 4096 12
    (by decide) (by decide) (by decide) (by decide) (by decide) (by decide) (by decide)

/-! ## Packing and unpacking of contiguous data -/

/-- What a copy between objects that do not overlap does: the `n` bytes at `dest`
become the `n` bytes at `src`, every other byte stays, the bytes at `src` among
them. -/
theorem memcpy_spec (mem : Memory) (dest src n : Nat)
    (h : ¬ (dest < src + n ∧ src < dest + n)) :
    ∃ mem1, memcpy mem dest src n = some mem1 ∧
      (∀ i, i < n → mem1 (dest + i) = mem (src + i)) ∧
      (∀ a, ¬ (dest ≤ a ∧ a < dest + n) → mem1 a = mem a) ∧
      (∀ i, i < n → mem1 (src + i) = mem (src + i)) := by
  refine ⟨_, by rw [memcpy, if_neg h], ?_, ?_, ?_⟩
  · intro i hi
    have h1 : dest ≤ dest + i ∧ dest + i < dest + n := by omega
    simp only [h1, and_self, if_true, Nat.add_sub_cancel_left]
  · intro a ha
    simp only [ha, if_false]
  · intro i hi
    have h1 : ¬ (dest ≤ src + i ∧ src + i < dest + n) := by omega
    simp only [h1, if_false]

/-- C23: for every source buffer `ctx.src` and every length `L = ctx.length`, with
a destination object that does not overlap the `L` source bytes (what `memcpy`
requires), `ucp_memcpy_pack_cb` returns `L`, makes the first `L` bytes at `dest`
equal to the first `L` bytes at `ctx.src`, writes no other byte, and leaves the
source as it was; for memory the CPU can address `ucp_dt_contig_pack` does the
same copy. Consequently, for such memory, unpacking the packed buffer with
`ucp_dt_contig_unpack` into a receive buffer that does not overlap it reproduces
the original `L` bytes. -/
theorem memcpy_pack_unpack_roundtrip (mem : Memory) (dest : Nat)
    (ctx : ucp_memcpy_pack_context_t)
    (hsep : ¬ (dest < ctx.src + ctx.length ∧ ctx.src < dest + ctx.length)) :
    ∃ packed, ucp_memcpy_pack_cb mem dest ctx = some (ctx.length, packed) ∧
      (∀ i, i < ctx.length → packed (dest + i) = mem (ctx.src + i)) ∧
      (∀ a, ¬ (dest ≤ a ∧ a < dest + ctx.length) → packed a = mem a) ∧
      (∀ i, i < ctx.length → packed (ctx.src + i) = mem (ctx.src + i)) ∧
      ∀ (denv : DtEnv) (worker : Nat) (mem_type : ucs_memory_type_t),
        denv.UCP_MEM_IS_ACCESSIBLE_FROM_CPU mem_type = true →
        ucp_dt_contig_pack denv worker mem dest ctx.src ctx.length mem_type = some packed ∧
        ∀ recv, ¬ (recv < dest + ctx.length ∧ dest < recv + ctx.length) →
          ∃ received,
            ucp_dt_contig_unpack denv worker packed recv dest ctx.length mem_type =
              some received ∧
            ∀ i, i < ctx.length → received (recv + i) = mem (ctx.src + i) := by
  obtain ⟨packed, hcopy, hdest, hrest, hsrc⟩ := memcpy_spec mem dest ctx.src ctx.length hsep
  refine ⟨packed, by simp only [ucp_memcpy_pack_cb, hcopy], hdest, hrest, hsrc, ?_⟩
  intro denv worker mem_type hcpu
  refine ⟨by simp only [ucp_dt_contig_pack, hcpu, if_true, ucp_memcpy_pack_unpack, hcopy], ?_⟩
  intro recv hrecv
  obtain ⟨received, hcopy2, hdest2, _, _⟩ := memcpy_spec packed recv dest ctx.length hrecv
  refine ⟨received, by
    simp only [ucp_dt_contig_unpack, hcpu, if_true, ucp_memcpy_pack_unpack, hcopy2], ?_⟩
  intro i hi
  rw [hdest2 i hi, hdest i hi]

/-- C23 at a send buffer of `10000` pattern-filled bytes at `0x100000` in host
memory, packed to `0x200000` and unpacked into a receive buffer at `0x300000`:
the receive buffer holds the pattern. -/
theorem memcpy_pack_unpack_roundtrip_witness :
    ∃ packed received,
      ucp_memcpy_pack_cb demo_memory 0x200000 ⟨0x100000, 10000⟩ = some (10000, packed) ∧
      (∀ i, i < 10000 → packed (0x200000 + i) = demo_memory (0x100000 + i)) ∧
      (∀ a, ¬ (0x200000 ≤ a ∧ a < 0x200000 + 10000) → packed a = demo_memory a) ∧
      (∀ i, i < 10000 → packed (0x100000 + i) = demo_memory (0x100000 + i)) ∧
      ucp_dt_contig_pack demo_dt_env 0 demo_memory 0x200000 0x100000 10000 0 = some packed ∧
      ucp_dt_contig_unpack demo_dt_env 0 packed 0x300000 0x200000 10000 0 = some received ∧
      (∀ i, i < 10000 → received (0x300000 + i) = demo_memory (0x100000 + i)) ∧
      received 0x300000 = 0x11 ∧ received (0x300000 + 9999) = 0x10 := by
  obtain ⟨packed, hret, hdest, hrest, hsrc, hcpu⟩ :=
    memcpy_pack_unpack_roundtrip demo_memory 0x200000 ⟨0x100000, 10000⟩ (by decide)
  obtain ⟨hpack, hunpack⟩ := hcpu demo_dt_env 0 0 rfl
  obtain ⟨received, hrecv, hsame⟩ := hunpack 0x300000 (by decide)
  refine ⟨packed, received, hret, hdest, hrest, hsrc, hpack, hrecv, hsame, ?_, ?_⟩
  · rw [hsame 0 (by decide)]
    decide
  · rw [hsame 9999 (by decide)]
    decide

end UcxRocmIpc
